import Mathlib

/-!
# Verification of the assembler-simulator core

A shallow embedding of the 8-bit machine simulator's CPU step function and
of the assembly parser's statement parsing, translated from the repository
sources (`src/unnamed/part_000`, which contains the parser and the CPU step
built on an immutable-draft wrapper, and `src/src/features/cpu/core.ts`,
which carries the same arithmetic inline).

Modelling conventions:
* JavaScript numbers are modelled as `Int` (all values arising in the
  simulator are integers; `ip` can genuinely go negative, which is why
  `Nat` would be wrong).
* The 256-cell memory array is modelled as a total function `Int → Int`;
  well-formed machines constrain every cell to a byte.  The simulator
  never indexes the array out of `0..255` on the paths the theorems below
  are about.
* The CPU step mutates an immer draft and either commits the whole draft
  or, when a runtime error is thrown, discards it wholesale
  (`createNextState` at the top of the step).  The embedding mirrors this
  with a state monad `M` whose error result still carries the
  partially-mutated draft, and a wrapper `step` that throws the draft away
  on error, exactly as the source wrapper does.
-/

namespace AsmSim

/-- Runtime error taxonomy of the CPU core (`exceptions` module, used by
the step function in `src/unnamed/part_000` and by the division helpers). -/
inductive RuntimeError where
  | InvalidRegister (register : Int)
  | InvalidOpcode (opcode : Int)
  | InvalidPort (port : Int)
  | RunBeyondEndOfMemory
  | StackOverflow
  | StackUnderflow
  | DivideByZero
  deriving DecidableEq, Repr

/-- Status register: four boolean flags, indexed Zero=0, Overflow=1,
Sign=2, Interrupt=3 (`StatusRegister` in `src/unnamed/part_000`;
`FlagStatus.On` is modelled as `true`). -/
structure StatusRegister where
  zero : Bool
  overflow : Bool
  sign : Bool
  interrupt : Bool
  deriving DecidableEq, Repr

/-- The register file (`Registers` in `src/unnamed/part_000`): four
general-purpose registers AL=0, BL=1, CL=2, DL=3, the instruction pointer
and the stack pointer. -/
structure Registers where
  gpr : Fin 4 → Int
  ip : Int
  sp : Int
  sr : StatusRegister

/-- Input data of the signal bus: `{content: u8|null, port: u8}`.
Modelled from the spec: the `io/core` module is not among the given
sources; the layout follows spec section 3 ("Signals"). -/
structure InputData where
  content : Option Int
  port : Int
  deriving DecidableEq, Repr

/-- Input half of the signal bus. Modelled from the spec (section 3). -/
structure InputSignals where
  data : InputData
  interrupt : Bool
  deriving DecidableEq, Repr

/-- Output data emitted by `OUT`. Modelled from the spec (section 3). -/
structure OutputData where
  content : Int
  port : Int
  deriving DecidableEq, Repr

/-- Output half of the signal bus. Modelled from the spec (section 3). -/
structure OutputSignals where
  halted : Bool
  requiredInputDataPort : Option Int
  data : Option OutputData
  closeWindows : Bool
  deriving DecidableEq, Repr

/-- The bidirectional signal bus handed to each `step`.  Modelled from the
spec (section 3); the step function only reads `input` and only writes
`output`. -/
structure Signals where
  input : InputSignals
  output : OutputSignals
  deriving DecidableEq, Repr

/-- The complete state a `step` receives and returns: memory, registers
and the signal bus (the `StepArgs` triple of `src/unnamed/part_000`). -/
structure Machine where
  mem : Int → Int
  reg : Registers
  sig : Signals

/-- `MAX_SP = 0xbf`; the stack occupies addresses `0..=0xBF` and grows
downward. -/
def MAX_SP : Int := 0xbf

/-- `MAX_PORT` is an ISA constant.  Modelled from the spec (section 6:
"`MAX_PORT` is an ISA constant (15)"); the `io/core` module that defines
it is not among the given sources. -/
def MAX_PORT : Int := 15

/-- Result of running the draft-mutating step body: on success the final
draft, on a thrown runtime error the error *together with the draft as it
was at the throw point* (the partial mutations immer would discard). -/
inductive MResult (α : Type) where
  | ok (a : α) (s : Machine)
  | error (e : RuntimeError) (s : Machine)

/-- The draft-mutation monad in which the step body is written: state is
the draft `Machine`, errors abort but keep the draft they aborted in. -/
def M (α : Type) : Type := Machine → MResult α

/-- Monadic bind on drafts: an error short-circuits. -/
def M.bind {α β : Type} (x : M α) (f : α → M β) : M β := fun s =>
  match x s with
  | .ok a s1 => f a s1
  | .error e s1 => .error e s1

/-- Monadic pure on drafts. -/
def M.pure {α : Type} (a : α) : M α := fun s => .ok a s

instance : Monad M where
  pure := M.pure
  bind := M.bind

/-- Read the whole draft. -/
def getM : M Machine := fun s => .ok s s

/-- Mutate the draft. -/
def modifyM (f : Machine → Machine) : M Unit := fun s => .ok () (f s)

/-- Throw a runtime error, keeping the draft mutated so far. -/
def throwM {α : Type} (e : RuntimeError) : M α := fun s => .error e s

/-- `loadFromMemory`: read a memory cell of the draft. -/
def loadFromMemory (address : Int) : M Int := fun s => .ok (s.mem address) s

/-- `storeToMemory`: write a memory cell of the draft. -/
def storeToMemory (address machineCode : Int) : M Unit :=
  modifyM fun s =>
    { s with mem := fun a => if a = address then machineCode else s.mem a }

/-- `getGpr`: read a general-purpose register. -/
def getGpr (register : Fin 4) : M Int := fun s => .ok (s.reg.gpr register) s

/-- `setGpr`: write a general-purpose register. -/
def setGpr (register : Fin 4) (value : Int) : M Unit :=
  modifyM fun s =>
    { s with reg := { s.reg with gpr := Function.update s.reg.gpr register value } }

/-- `getIp`. -/
def getIp : M Int := fun s => .ok s.reg.ip s

/-- `getNextIp(by)`: `ip + by` without any bounds check and without
advancing. -/
def getNextIp (ofs : Int) : M Int := fun s => .ok (s.reg.ip + ofs) s

/-- `setIp`: unchecked write of the instruction pointer. -/
def setIp (address : Int) : M Unit := fun s =>
  .ok () { s with reg := { s.reg with ip := address } }

/-- The register index denoted by a validated register operand byte. -/
def regIndex (b : Int) : Fin 4 := ⟨b.toNat % 4, Nat.mod_lt _ (by omega)⟩

/-- `checkGpr`: a register operand byte must be in `0..=3`, otherwise
`InvalidRegisterError`. -/
def checkGpr (register : Int) : M (Fin 4) :=
  if 0 ≤ register ∧ register ≤ 3 then
    M.pure (regIndex register)
  else
    throwM (.InvalidRegister register)

/-- `checkIp`: only an *upper* bound is enforced — an address past `0xff`
raises `RunBeyondEndOfMemoryError`; a negative address passes. -/
def checkIp (address : Int) : M Int :=
  if address > 0xff then throwM .RunBeyondEndOfMemory else M.pure address

/-- `checkSp`: below `0` raises `StackOverflowError`, above `MAX_SP`
raises `StackUnderflowError`. -/
def checkSp (address : Int) : M Int :=
  if address < 0 then throwM .StackOverflow
  else if address > MAX_SP then throwM .StackUnderflow
  else M.pure address

/-- `checkPort`: a port must be in `0..=MAX_PORT`, otherwise
`InvalidPortError`. -/
def checkPort (port : Int) : M Int :=
  if port < 0 ∨ port > MAX_PORT then throwM (.InvalidPort port) else M.pure port

/-- `incIp(by)`: advance `ip` by `by` through `checkIp` and return the new
`ip`. -/
def incIp (ofs : Int) : M Int := do
  let s ← getM
  let newIp ← checkIp (s.reg.ip + ofs)
  setIp newIp
  let s1 ← getM
  M.pure s1.reg.ip

/-- `push`: store the value at `memory[sp]`, then decrement `sp` through
`checkSp`.  Note the store happens *before* the check — on a stack
overflow the draft already carries the store, and only the
`createNextState` wrapper makes the step atomic. -/
def push (value : Int) : M Unit := do
  let s ← getM
  storeToMemory s.reg.sp value
  let s1 ← getM
  let newSp ← checkSp (s1.reg.sp - 1)
  modifyM fun m => { m with reg := { m.reg with sp := newSp } }

/-- `pop`: increment `sp` through `checkSp`, then read `memory[sp]`. -/
def pop : M Int := do
  let s ← getM
  let newSp ← checkSp (s.reg.sp + 1)
  modifyM fun m => { m with reg := { m.reg with sp := newSp } }
  loadFromMemory newSp

/-- `getSrValue`: marshal the status register into one byte, flag `i`
at bit `i+1` (`reduce` with `flagStatus * 0b10 ** (index + 1)`). -/
def getSrValue (sr : StatusRegister) : Int :=
  (cond sr.zero 1 0) * 2 + (cond sr.overflow 1 0) * 4 +
    (cond sr.sign 1 0) * 8 + (cond sr.interrupt 1 0) * 16

/-- `getSrFrom`: unmarshal a byte into a status register.  The source
slices the last five binary digits of the value minus the final one,
which is exactly bits `1..4`; the embedding extracts those bits
arithmetically. -/
def getSrFrom (value : Int) : StatusRegister :=
  { zero := decide (value / 2 % 2 = 1)
    overflow := decide (value / 4 % 2 = 1)
    sign := decide (value / 8 % 2 = 1)
    interrupt := decide (value / 16 % 2 = 1) }

/-- The three flags recomputed by every write-back operation and CMP
(`ExcludeTupleTail<StatusRegister>` in the source: zero, overflow, sign —
the Interrupt flag is absent on purpose). -/
structure Flags3 where
  zero : Bool
  overflow : Bool
  sign : Bool
  deriving DecidableEq, Repr

/-- `unsign8` from the common utils module.  Modelled from the spec
(flag rule step 3: "if raw was negative, `final = 256 + raw`"); the utils
source file is not among the given sources. -/
def unsign8 (n : Int) : Int := if n < 0 then n + 0x100 else n

/-- `sign8` from the common utils module.  Modelled from the spec
("read a signed-8 displacement", scenario C: `0xFC` is `-4`): a byte at
or above `0x80` represents `value - 0x100`. -/
def sign8 (n : Int) : Int := if n ≥ 0x80 then n - 0x100 else n

/-- `checkOperationResult(result, previousValue)`: compute the final 8-bit
result and the zero/overflow/sign flags.  The overflow comparison is made
against the *raw* `result` argument, before the reduction to eight bits —
this is the decisive detail for claim C1. -/
def checkOperationResult (result previousValue : Int) : Int × Flags3 :=
  let overflow :=
    decide ((previousValue < 0x80 ∧ result ≥ 0x80) ∨ (previousValue ≥ 0x80 ∧ result < 0x80))
  let finalResult := if result > 0xff then result % 0x100 else unsign8 result
  let zero := decide (finalResult = 0)
  let sign := decide (¬finalResult = 0 ∧ finalResult ≥ 0x80)
  (finalResult, { zero := zero, overflow := overflow, sign := sign })

/-- `setSr` called with a three-flag tuple (`Object.assign` on indices
`0..2`): zero/overflow/sign are replaced, the Interrupt flag is kept. -/
def setSrFlags (flags : Flags3) : M Unit :=
  modifyM fun m =>
    { m with reg := { m.reg with sr :=
      { zero := flags.zero, overflow := flags.overflow, sign := flags.sign
        interrupt := m.reg.sr.interrupt } } }

/-- `setSr` called with a full four-flag tuple (POPF). -/
def setSr (sr : StatusRegister) : M Unit :=
  modifyM fun m => { m with reg := { m.reg with sr := sr } }

/-- `setFlag` (STI / CLI write a single flag). -/
def setInterruptFlag (b : Bool) : M Unit :=
  modifyM fun m => { m with reg := { m.reg with sr := { m.reg.sr with interrupt := b } } }

/-- `setRequiredInputDataPort` signal helper. -/
def setRequiredInputDataPort (port : Int) : M Unit :=
  modifyM fun m =>
    { m with sig := { m.sig with output :=
      { m.sig.output with requiredInputDataPort := some port } } }

/-- `setOutputDataSignal` signal helper (OUT). -/
def setOutputDataSignal (content port : Int) : M Unit :=
  modifyM fun m =>
    { m with sig := { m.sig with output :=
      { m.sig.output with data := some { content := content, port := port } } } }

/-- `setHaltedSignal` signal helper (END / HALT). -/
def setHaltedSignal : M Unit :=
  modifyM fun m =>
    { m with sig := { m.sig with output := { m.sig.output with halted := true } } }

/-- `setCloseWindowsSignal` signal helper (CLO). -/
def setCloseWindowsSignal : M Unit :=
  modifyM fun m =>
    { m with sig := { m.sig with output := { m.sig.output with closeWindows := true } } }

/-!
## The arithmetic operations

The step function of `src/unnamed/part_000` imports these from an
`operations` module that is not among the given sources; the same
arithmetic appears inline in `src/src/features/cpu/core.ts`, from which
the bodies below are taken.  Every operation receives its operands in the
order the step passes them — the *last* operand is the previous value of
the destination register (`operate` hands `operands[operands.length - 1]`
to `checkOperationResult` as `previousValue`).  Division uses
`Math.floor` (floor division) and `%` is JavaScript's truncated
remainder; both operands are bytes on every reachable call.
-/

/-- Modelled from the spec: `checkDivisor` of the operations module —
division and modulo by zero raise `DivideByZeroError`
(spec section 4.4; `src/src/features/cpu/core.ts` has it inline). -/
def checkDivisor (value : Int) : M Int :=
  if value = 0 then throwM .DivideByZero else M.pure value

/-- Modelled from the spec: `add` of the operations module. -/
def add (value previous : Int) : M Int := M.pure (previous + value)

/-- Modelled from the spec: `substract` of the operations module
(destination minus source). -/
def substract (value previous : Int) : M Int := M.pure (previous - value)

/-- Modelled from the spec: `multiply` of the operations module. -/
def multiply (value previous : Int) : M Int := M.pure (previous * value)

/-- Modelled from the spec: `divide` of the operations module —
`Math.floor(dividend / divisor)` after the divisor check. -/
def divide (value previous : Int) : M Int := do
  let d ← checkDivisor value
  M.pure (Int.fdiv previous d)

/-- Modelled from the spec: `modulo` of the operations module —
JavaScript `%` (truncated remainder) after the divisor check. -/
def modulo (value previous : Int) : M Int := do
  let d ← checkDivisor value
  M.pure (Int.tmod previous d)

/-- Modelled from the spec: `increase` of the operations module. -/
def increase (previous : Int) : M Int := M.pure (previous + 1)

/-- Modelled from the spec: `decrease` of the operations module. -/
def decrease (previous : Int) : M Int := M.pure (previous - 1)

/-- Modelled from the spec: bitwise `and` of the operations module
(operands are bytes on every reachable call). -/
def and (value previous : Int) : M Int :=
  M.pure (Int.ofNat (previous.toNat &&& value.toNat))

/-- Modelled from the spec: bitwise `or` of the operations module. -/
def or (value previous : Int) : M Int :=
  M.pure (Int.ofNat (previous.toNat ||| value.toNat))

/-- Modelled from the spec: bitwise `xor` of the operations module. -/
def xor (value previous : Int) : M Int :=
  M.pure (Int.ofNat (previous.toNat ^^^ value.toNat))

/-- Modelled from the spec: `not` of the operations module — JavaScript
`~value`, i.e. `-(value + 1)`. -/
def notOp (previous : Int) : M Int := M.pure (-(previous + 1))

/-- Modelled from the spec: `rol` of the operations module — shift left
one and carry the old most significant bit into bit 0
(`(value << 1) + Math.floor(value / 0x80)` in core.ts). -/
def rol (previous : Int) : M Int :=
  M.pure (2 * previous + Int.fdiv previous 0x80)

/-- Modelled from the spec: `ror` of the operations module — shift right
one and carry the old least significant bit into bit 7. -/
def ror (previous : Int) : M Int :=
  M.pure (Int.tmod previous 2 * 0x80 + Int.fdiv previous 2)

/-- Modelled from the spec: `shl` of the operations module. -/
def shl (previous : Int) : M Int := M.pure (2 * previous)

/-- Modelled from the spec: `shr` of the operations module. -/
def shr (previous : Int) : M Int := M.pure (Int.fdiv previous 2)

/-- `operate` for binary operations: run the operation on
`(value, previous)`, feed the raw result and the previous value of the
destination to `checkOperationResult`, commit the three flags and return
the reduced result. -/
def operate2 (operation : Int → Int → M Int) (value previous : Int) : M Int := do
  let raw ← operation value previous
  let r := checkOperationResult raw previous
  setSrFlags r.2
  M.pure r.1

/-- `operate` for unary operations. -/
def operate1 (operation : Int → M Int) (previous : Int) : M Int := do
  let raw ← operation previous
  let r := checkOperationResult raw previous
  setSrFlags r.2
  M.pure r.1

/-!
## Opcodes

The `Opcode` enum lives in the `constants` module, which is not among the
given sources.  The constructors are the ones the step function of
`src/unnamed/part_000` dispatches on.  Modelled from the spec: the
concrete byte values are fixed by the ISA but not listed in the spec, so
the embedding assigns distinct bytes via `Opcode.code`; no claim depends
on the particular values.
-/

inductive Opcode where
  | END | HALT
  | ADD_REG_TO_REG | SUB_REG_FROM_REG | MUL_REG_BY_REG | DIV_REG_BY_REG
  | INC_REG | DEC_REG | MOD_REG_BY_REG
  | AND_REG_WITH_REG | OR_REG_WITH_REG | XOR_REG_WITH_REG
  | NOT_REG | ROL_REG | ROR_REG | SHL_REG | SHR_REG
  | ADD_NUM_TO_REG | SUB_NUM_FROM_REG | MUL_REG_BY_NUM | DIV_REG_BY_NUM
  | MOD_REG_BY_NUM | AND_REG_WITH_NUM | OR_REG_WITH_NUM | XOR_REG_WITH_NUM
  | JMP | JZ | JNZ | JS | JNS | JO | JNO
  | MOV_NUM_TO_REG | MOV_ADDR_TO_REG | MOV_REG_TO_ADDR
  | MOV_REG_ADDR_TO_REG | MOV_REG_TO_REG_ADDR
  | CMP_REG_WITH_REG | CMP_REG_WITH_NUM | CMP_REG_WITH_ADDR
  | PUSH_FROM_REG | POP_TO_REG | PUSHF | POPF
  | CALL_ADDR | RET | INT_ADDR | IRET
  | IN_FROM_PORT_TO_AL | OUT_FROM_AL_TO_PORT
  | STI | CLI | CLO | NOP
  deriving DecidableEq, Repr

/-- The distinct byte assigned to each opcode (modelled: see above). -/
def Opcode.code : Opcode → Int
  | .END => 0 | .HALT => 1
  | .ADD_REG_TO_REG => 2 | .SUB_REG_FROM_REG => 3 | .MUL_REG_BY_REG => 4
  | .DIV_REG_BY_REG => 5 | .INC_REG => 6 | .DEC_REG => 7 | .MOD_REG_BY_REG => 8
  | .AND_REG_WITH_REG => 9 | .OR_REG_WITH_REG => 10 | .XOR_REG_WITH_REG => 11
  | .NOT_REG => 12 | .ROL_REG => 13 | .ROR_REG => 14 | .SHL_REG => 15
  | .SHR_REG => 16
  | .ADD_NUM_TO_REG => 17 | .SUB_NUM_FROM_REG => 18 | .MUL_REG_BY_NUM => 19
  | .DIV_REG_BY_NUM => 20 | .MOD_REG_BY_NUM => 21 | .AND_REG_WITH_NUM => 22
  | .OR_REG_WITH_NUM => 23 | .XOR_REG_WITH_NUM => 24
  | .JMP => 25 | .JZ => 26 | .JNZ => 27 | .JS => 28 | .JNS => 29
  | .JO => 30 | .JNO => 31
  | .MOV_NUM_TO_REG => 32 | .MOV_ADDR_TO_REG => 33 | .MOV_REG_TO_ADDR => 34
  | .MOV_REG_ADDR_TO_REG => 35 | .MOV_REG_TO_REG_ADDR => 36
  | .CMP_REG_WITH_REG => 37 | .CMP_REG_WITH_NUM => 38 | .CMP_REG_WITH_ADDR => 39
  | .PUSH_FROM_REG => 40 | .POP_TO_REG => 41 | .PUSHF => 42 | .POPF => 43
  | .CALL_ADDR => 44 | .RET => 45 | .INT_ADDR => 46 | .IRET => 47
  | .IN_FROM_PORT_TO_AL => 48 | .OUT_FROM_AL_TO_PORT => 49
  | .STI => 50 | .CLI => 51 | .CLO => 52 | .NOP => 53

/-- All opcodes, in `code` order. -/
def allOpcodes : List Opcode :=
  [.END, .HALT,
   .ADD_REG_TO_REG, .SUB_REG_FROM_REG, .MUL_REG_BY_REG, .DIV_REG_BY_REG,
   .INC_REG, .DEC_REG, .MOD_REG_BY_REG,
   .AND_REG_WITH_REG, .OR_REG_WITH_REG, .XOR_REG_WITH_REG,
   .NOT_REG, .ROL_REG, .ROR_REG, .SHL_REG, .SHR_REG,
   .ADD_NUM_TO_REG, .SUB_NUM_FROM_REG, .MUL_REG_BY_NUM, .DIV_REG_BY_NUM,
   .MOD_REG_BY_NUM, .AND_REG_WITH_NUM, .OR_REG_WITH_NUM, .XOR_REG_WITH_NUM,
   .JMP, .JZ, .JNZ, .JS, .JNS, .JO, .JNO,
   .MOV_NUM_TO_REG, .MOV_ADDR_TO_REG, .MOV_REG_TO_ADDR,
   .MOV_REG_ADDR_TO_REG, .MOV_REG_TO_REG_ADDR,
   .CMP_REG_WITH_REG, .CMP_REG_WITH_NUM, .CMP_REG_WITH_ADDR,
   .PUSH_FROM_REG, .POP_TO_REG, .PUSHF, .POPF,
   .CALL_ADDR, .RET, .INT_ADDR, .IRET,
   .IN_FROM_PORT_TO_AL, .OUT_FROM_AL_TO_PORT,
   .STI, .CLI, .CLO, .NOP]

/-- Decode a memory byte into an opcode; the `switch` of the step
function matching a byte against the enum values.  A byte matching no
opcode decodes to `none` (the `default` branch). -/
def decodeOp (n : Int) : Option Opcode :=
  allOpcodes.find? fun op => op.code = n

/-!
The body of each `switch` case of the step function, one definition per
case shape.  The source writes every case inline inside the `switch`; the
blocks for the arithmetic opcodes are textually identical up to the
operation passed to `operate`, so the embedding factors each repeated
block into one parametrised definition and instantiates it per opcode in
`stepBody` below — each instantiation corresponds line by line to the
source case block.
-/

/-- `END` / `HALT`: raise the halted signal, `ip` stays in place. -/
def execHalt : M Unit := setHaltedSignal

/-- The shared block of the sixteen `*_REG_*_REG` binary arithmetic cases:
read and validate the destination register byte, then the source register
byte, run the operation through `operate`, write back, advance. -/
def execBinaryRegArith (operation : Int → Int → M Int) : M Unit := do
  let a1 ← incIp 1
  let destReg ← checkGpr (← loadFromMemory a1)
  let a2 ← incIp 1
  let srcReg ← checkGpr (← loadFromMemory a2)
  let v ← operate2 operation (← getGpr srcReg) (← getGpr destReg)
  setGpr destReg v
  let _ ← incIp 1

/-- The shared block of the unary arithmetic cases (`INC`/`DEC`/`NOT`/
`ROL`/`ROR`/`SHL`/`SHR`). -/
def execUnaryArith (operation : Int → M Int) : M Unit := do
  let a1 ← incIp 1
  let destReg ← checkGpr (← loadFromMemory a1)
  let v ← operate1 operation (← getGpr destReg)
  setGpr destReg v
  let _ ← incIp 1

/-- The shared block of the immediate arithmetic cases (`*_NUM_*`): the
second operand is a literal byte read from memory. -/
def execBinaryNumArith (operation : Int → Int → M Int) : M Unit := do
  let a1 ← incIp 1
  let destReg ← checkGpr (← loadFromMemory a1)
  let a2 ← incIp 1
  let value ← loadFromMemory a2
  let v ← operate2 operation value (← getGpr destReg)
  setGpr destReg v
  let _ ← incIp 1

/-- The shared block of the jump cases: read the signed-8 displacement at
`ip + 1` (without advancing), then `incIp` by the displacement when the
condition holds, else by 2 (`JMP` passes the constant-true condition). -/
def execJump (condition : Machine → Bool) : M Unit := do
  let b ← loadFromMemory (← getNextIp 1)
  let s ← getM
  let _ ← incIp (if condition s then sign8 b else 2)

/-- `MOV_NUM_TO_REG`. -/
def execMovNumToReg : M Unit := do
  let a1 ← incIp 1
  let destReg ← checkGpr (← loadFromMemory a1)
  let a2 ← incIp 1
  let value ← loadFromMemory a2
  setGpr destReg value
  let _ ← incIp 1

/-- `MOV_ADDR_TO_REG`. -/
def execMovAddrToReg : M Unit := do
  let a1 ← incIp 1
  let destReg ← checkGpr (← loadFromMemory a1)
  let a2 ← incIp 1
  let address ← loadFromMemory a2
  let v ← loadFromMemory address
  setGpr destReg v
  let _ ← incIp 1

/-- `MOV_REG_TO_ADDR`. -/
def execMovRegToAddr : M Unit := do
  let a1 ← incIp 1
  let address ← loadFromMemory a1
  let a2 ← incIp 1
  let srcReg ← checkGpr (← loadFromMemory a2)
  storeToMemory address (← getGpr srcReg)
  let _ ← incIp 1

/-- `MOV_REG_ADDR_TO_REG`. -/
def execMovRegAddrToReg : M Unit := do
  let a1 ← incIp 1
  let destReg ← checkGpr (← loadFromMemory a1)
  let a2 ← incIp 1
  let srcReg ← checkGpr (← loadFromMemory a2)
  let v ← loadFromMemory (← getGpr srcReg)
  setGpr destReg v
  let _ ← incIp 1

/-- `MOV_REG_TO_REG_ADDR`. -/
def execMovRegToRegAddr : M Unit := do
  let a1 ← incIp 1
  let destReg ← checkGpr (← loadFromMemory a1)
  let a2 ← incIp 1
  let srcReg ← checkGpr (← loadFromMemory a2)
  storeToMemory (← getGpr destReg) (← getGpr srcReg)
  let _ ← incIp 1

/-- `CMP_REG_WITH_REG`: flags as in subtract, no write-back. -/
def execCmpRegWithReg : M Unit := do
  let a1 ← incIp 1
  let reg1 ← checkGpr (← loadFromMemory a1)
  let a2 ← incIp 1
  let reg2 ← checkGpr (← loadFromMemory a2)
  setSrFlags (checkOperationResult ((← getGpr reg1) - (← getGpr reg2)) (← getGpr reg1)).2
  let _ ← incIp 1

/-- `CMP_REG_WITH_NUM`. -/
def execCmpRegWithNum : M Unit := do
  let a1 ← incIp 1
  let reg ← checkGpr (← loadFromMemory a1)
  let a2 ← incIp 1
  let value ← loadFromMemory a2
  setSrFlags (checkOperationResult ((← getGpr reg) - value) (← getGpr reg)).2
  let _ ← incIp 1

/-- `CMP_REG_WITH_ADDR`. -/
def execCmpRegWithAddr : M Unit := do
  let a1 ← incIp 1
  let reg ← checkGpr (← loadFromMemory a1)
  let a2 ← incIp 1
  let address ← loadFromMemory a2
  let v ← loadFromMemory address
  setSrFlags (checkOperationResult ((← getGpr reg) - v) (← getGpr reg)).2
  let _ ← incIp 1

/-- `PUSH_FROM_REG`. -/
def execPushFromReg : M Unit := do
  let a1 ← incIp 1
  let srcReg ← checkGpr (← loadFromMemory a1)
  push (← getGpr srcReg)
  let _ ← incIp 1

/-- `POP_TO_REG`. -/
def execPopToReg : M Unit := do
  let a1 ← incIp 1
  let destReg ← checkGpr (← loadFromMemory a1)
  let v ← pop
  setGpr destReg v
  let _ ← incIp 1

/-- `PUSHF`: push the marshalled status register byte. -/
def execPushf : M Unit := do
  let s ← getM
  push (getSrValue s.reg.sr)
  let _ ← incIp 1

/-- `POPF`: pop a byte and unmarshal it into the status register. -/
def execPopf : M Unit := do
  let v ← pop
  setSr (getSrFrom v)
  let _ ← incIp 1

/-- `CALL_ADDR`: push the return address `ip + 2`, jump to the operand
address (a single indirection). -/
def execCallAddr : M Unit := do
  let address ← loadFromMemory (← getNextIp 1)
  push (← getNextIp 2)
  setIp address

/-- `RET`: pop into `ip`. -/
def execRet : M Unit := do
  let v ← pop
  setIp v

/-- `INT_ADDR`: on a hardware trap, push the *current* `ip` and jump to
`memory[0x02]` (single indirection through the fixed vector); the
software form pushes `ip + 2` and jumps to `memory[operand]` (a vector
lookup through the operand address). -/
def execIntAddr (shouldTrapHardwareInterrupt : Bool) : M Unit := do
  if shouldTrapHardwareInterrupt then do
    push (← getIp)
    let v ← loadFromMemory 2
    setIp v
  else do
    let address ← loadFromMemory (← getNextIp 1)
    push (← getNextIp 2)
    let v ← loadFromMemory address
    setIp v

/-- `IRET`: pop into `ip`. -/
def execIret : M Unit := do
  let v ← pop
  setIp v

/-- `IN_FROM_PORT_TO_AL`: the I/O handshake.  The port operand is read at
`ip + 1` without advancing; on matching non-null input the content is
consumed into `AL` and `ip` advances past the instruction, otherwise the
required port is emitted and `ip` stays. -/
def execIn : M Unit := do
  let s ← getM
  let inputData := s.sig.input.data
  let requiredInputDataPort ← checkPort (← loadFromMemory (← getNextIp 1))
  match inputData.content with
  | none => setRequiredInputDataPort requiredInputDataPort
  | some content =>
      if inputData.port ≠ requiredInputDataPort then
        setRequiredInputDataPort requiredInputDataPort
      else do
        setGpr 0 content
        let _ ← incIp 2

/-- `OUT_FROM_AL_TO_PORT`. -/
def execOut : M Unit := do
  let dataContent ← getGpr 0
  let dataPort ← checkPort (← loadFromMemory (← incIp 1))
  setOutputDataSignal dataContent dataPort
  let _ ← incIp 1

/-- `STI`. -/
def execSti : M Unit := do
  setInterruptFlag true
  let _ ← incIp 1

/-- `CLI`. -/
def execCli : M Unit := do
  setInterruptFlag false
  let _ ← incIp 1

/-- `CLO`. -/
def execClo : M Unit := do
  setCloseWindowsSignal
  let _ ← incIp 1

/-- `NOP`. -/
def execNop : M Unit := do
  let _ ← incIp 1

/-!
## The step function

`stepBody` is the draft-mutating body handed to `createNextState` in
`src/unnamed/part_000` (lines 770–1227); `step` is the wrapper itself,
which commits the whole draft on success and discards it wholesale when a
runtime error was thrown.
-/

/-- The switch over decoded opcodes: each case delegates to its case
block above; `INT_ADDR` receives whether this step is a hardware trap. -/
def execOp (shouldTrapHardwareInterrupt : Bool) : Opcode → M Unit
  | .END => execHalt
  | .HALT => execHalt
  | .ADD_REG_TO_REG => execBinaryRegArith add
  | .SUB_REG_FROM_REG => execBinaryRegArith substract
  | .MUL_REG_BY_REG => execBinaryRegArith multiply
  | .DIV_REG_BY_REG => execBinaryRegArith divide
  | .INC_REG => execUnaryArith increase
  | .DEC_REG => execUnaryArith decrease
  | .MOD_REG_BY_REG => execBinaryRegArith modulo
  | .AND_REG_WITH_REG => execBinaryRegArith and
  | .OR_REG_WITH_REG => execBinaryRegArith or
  | .XOR_REG_WITH_REG => execBinaryRegArith xor
  | .NOT_REG => execUnaryArith notOp
  | .ROL_REG => execUnaryArith rol
  | .ROR_REG => execUnaryArith ror
  | .SHL_REG => execUnaryArith shl
  | .SHR_REG => execUnaryArith shr
  | .ADD_NUM_TO_REG => execBinaryNumArith add
  | .SUB_NUM_FROM_REG => execBinaryNumArith substract
  | .MUL_REG_BY_NUM => execBinaryNumArith multiply
  | .DIV_REG_BY_NUM => execBinaryNumArith divide
  | .MOD_REG_BY_NUM => execBinaryNumArith modulo
  | .AND_REG_WITH_NUM => execBinaryNumArith and
  | .OR_REG_WITH_NUM => execBinaryNumArith or
  | .XOR_REG_WITH_NUM => execBinaryNumArith xor
  | .JMP => execJump fun _ => true
  | .JZ => execJump fun s => s.reg.sr.zero
  | .JNZ => execJump fun s => !s.reg.sr.zero
  | .JS => execJump fun s => s.reg.sr.sign
  | .JNS => execJump fun s => !s.reg.sr.sign
  | .JO => execJump fun s => s.reg.sr.overflow
  | .JNO => execJump fun s => !s.reg.sr.overflow
  | .MOV_NUM_TO_REG => execMovNumToReg
  | .MOV_ADDR_TO_REG => execMovAddrToReg
  | .MOV_REG_TO_ADDR => execMovRegToAddr
  | .MOV_REG_ADDR_TO_REG => execMovRegAddrToReg
  | .MOV_REG_TO_REG_ADDR => execMovRegToRegAddr
  | .CMP_REG_WITH_REG => execCmpRegWithReg
  | .CMP_REG_WITH_NUM => execCmpRegWithNum
  | .CMP_REG_WITH_ADDR => execCmpRegWithAddr
  | .PUSH_FROM_REG => execPushFromReg
  | .POP_TO_REG => execPopToReg
  | .PUSHF => execPushf
  | .POPF => execPopf
  | .CALL_ADDR => execCallAddr
  | .RET => execRet
  | .INT_ADDR => execIntAddr shouldTrapHardwareInterrupt
  | .IRET => execIret
  | .IN_FROM_PORT_TO_AL => execIn
  | .OUT_FROM_AL_TO_PORT => execOut
  | .STI => execSti
  | .CLI => execCli
  | .CLO => execClo
  | .NOP => execNop

/-- Opcode fetch and dispatch: a hardware trap (interrupt signal raised
while the Interrupt flag is on) forces the opcode to `INT_ADDR`
regardless of the byte at `ip`; otherwise the byte at `ip` is decoded,
and an unknown byte raises `InvalidOpcodeError` carrying that byte. -/
def dispatch (shouldTrapHardwareInterrupt : Bool) (rawOpcode : Int) : M Unit :=
  match
    if shouldTrapHardwareInterrupt then some Opcode.INT_ADDR
    else decodeOp rawOpcode
  with
  | some op => execOp shouldTrapHardwareInterrupt op
  | none => throwM (.InvalidOpcode rawOpcode)

/-- The draft-mutating body of `step`. -/
def stepBody : M Unit := do
  let mach ← getM
  dispatch (mach.sig.input.interrupt && mach.reg.sr.interrupt)
    (mach.mem mach.reg.ip)

/-- `step`: run the draft-mutating body; commit the final draft on
success, discard the draft and surface only the error on a runtime
error (the `createNextState` wrapper). -/

def step (mach : Machine) : Except RuntimeError Machine :=
  match stepBody mach with
  | .ok _ s => .ok s
  | .error e _ => .error e

/-- `initRegisters`: all zero except `sp = MAX_SP`. -/
def initRegisters : Registers :=
  { gpr := fun _ => 0, ip := 0, sp := MAX_SP,
    sr := { zero := false, overflow := false, sign := false, interrupt := false } }

/-- A quiescent signal bus (no pending input, no interrupt, all outputs
reset), used to build concrete machines for the witnesses. -/
def initSignals : Signals :=
  { input := { data := { content := none, port := 0 }, interrupt := false }
    output := { halted := false, requiredInputDataPort := none, data := none
                closeWindows := false } }

/-- A 256-byte memory image from a list (missing cells are zero, exactly
like the assembler's zero-initialised image). -/
def memOfList (l : List Int) : Int → Int := fun a =>
  if 0 ≤ a ∧ a < 256 then l.getD a.toNat 0 else 0

/-- A concrete machine from a memory image, for witnesses and
counterexamples. -/
def mkMachine (l : List Int) : Machine :=
  { mem := memOfList l, reg := initRegisters, sig := initSignals }

/-!
## Unfolding lemmas for the draft monad
-/

theorem bind_apply {α β : Type} (x : M α) (f : α → M β) (s : Machine) :
    (x >>= f) s = match x s with
      | .ok a s1 => f a s1
      | .error e s1 => .error e s1 := rfl

theorem pure_apply {α : Type} (a : α) (s : Machine) :
    (Pure.pure a : M α) s = .ok a s := rfl

theorem getM_apply (s : Machine) : getM s = .ok s s := rfl

theorem modifyM_apply (f : Machine → Machine) (s : Machine) :
    modifyM f s = .ok () (f s) := rfl

theorem throwM_apply {α : Type} (e : RuntimeError) (s : Machine) :
    (throwM e : M α) s = .error e s := rfl

theorem loadFromMemory_apply (a : Int) (s : Machine) :
    loadFromMemory a s = .ok (s.mem a) s := rfl

theorem getGpr_apply (r : Fin 4) (s : Machine) :
    getGpr r s = .ok (s.reg.gpr r) s := rfl

theorem getIp_apply (s : Machine) : getIp s = .ok s.reg.ip s := rfl

theorem getNextIp_apply (ofs : Int) (s : Machine) :
    getNextIp ofs s = .ok (s.reg.ip + ofs) s := rfl

theorem setIp_apply (a : Int) (s : Machine) :
    setIp a s = .ok () { s with reg := { s.reg with ip := a } } := rfl

theorem M_pure_apply {α : Type} (a : α) (s : Machine) :
    (M.pure a : M α) s = .ok a s := rfl

theorem checkIp_ok {a : Int} (s : Machine) (h : a ≤ 0xff) :
    checkIp a s = .ok a s := by
  unfold checkIp
  rw [if_neg (by omega), M_pure_apply]

theorem checkIp_err {a : Int} (s : Machine) (h : a > 0xff) :
    checkIp a s = .error .RunBeyondEndOfMemory s := by
  unfold checkIp
  rw [if_pos (by omega), throwM_apply]

theorem incIp_ok (ofs : Int) (s : Machine) (h : s.reg.ip + ofs ≤ 0xff) :
    incIp ofs s =
      .ok (s.reg.ip + ofs) { s with reg := { s.reg with ip := s.reg.ip + ofs } } := by
  simp only [incIp, bind_apply, getM_apply, checkIp_ok s h, setIp_apply, M_pure_apply]

theorem incIp_err (ofs : Int) (s : Machine) (h : s.reg.ip + ofs > 0xff) :
    incIp ofs s = .error .RunBeyondEndOfMemory s := by
  simp only [incIp, bind_apply, getM_apply, checkIp_err s h]

theorem checkGpr_ok {r : Int} (s : Machine) (h : 0 ≤ r ∧ r ≤ 3) :
    checkGpr r s = .ok (regIndex r) s := by
  simp only [checkGpr, if_pos h, M_pure_apply]

theorem checkGpr_err {r : Int} (s : Machine) (h : ¬(0 ≤ r ∧ r ≤ 3)) :
    checkGpr r s = .error (.InvalidRegister r) s := by
  simp only [checkGpr, if_neg h, throwM_apply]

theorem checkSp_ok {a : Int} (s : Machine) (h : 0 ≤ a ∧ a ≤ MAX_SP) :
    checkSp a s = .ok a s := by
  simp only [MAX_SP] at h
  unfold checkSp MAX_SP
  rw [if_neg (by omega), if_neg (by omega), M_pure_apply]

theorem checkSp_overflow {a : Int} (s : Machine) (h : a < 0) :
    checkSp a s = .error .StackOverflow s := by
  unfold checkSp
  rw [if_pos h, throwM_apply]

theorem checkSp_underflow {a : Int} (s : Machine) (h : a > MAX_SP) :
    checkSp a s = .error .StackUnderflow s := by
  simp only [MAX_SP] at h
  unfold checkSp MAX_SP
  rw [if_neg (by omega), if_pos (by omega), throwM_apply]

theorem checkPort_ok {p : Int} (s : Machine) (h : 0 ≤ p ∧ p ≤ MAX_PORT) :
    checkPort p s = .ok p s := by
  simp only [MAX_PORT] at h
  unfold checkPort MAX_PORT
  rw [if_neg (by omega), M_pure_apply]

theorem checkPort_err {p : Int} (s : Machine) (h : p < 0 ∨ p > MAX_PORT) :
    checkPort p s = .error (.InvalidPort p) s := by
  unfold checkPort
  rw [if_pos h, throwM_apply]

theorem storeToMemory_apply (a v : Int) (s : Machine) :
    storeToMemory a v s =
      .ok () { s with mem := fun x => if x = a then v else s.mem x } := rfl

theorem setGpr_apply (r : Fin 4) (v : Int) (s : Machine) :
    setGpr r v s =
      .ok () { s with reg := { s.reg with gpr := Function.update s.reg.gpr r v } } := rfl

/-- `push` when the decremented `sp` stays legal: write `memory[sp]`,
then `sp := sp - 1`. -/
theorem push_ok (v : Int) (s : Machine) (h : 1 ≤ s.reg.sp ∧ s.reg.sp ≤ MAX_SP + 1) :
    push v s =
      .ok () { s with
        mem := fun x => if x = s.reg.sp then v else s.mem x
        reg := { s.reg with sp := s.reg.sp - 1 } } := by
  simp only [push, bind_apply, getM_apply, storeToMemory_apply, modifyM_apply]
  rw [checkSp_ok _ (by unfold MAX_SP at h ⊢; omega)]

/-- `push` when the decrement would take `sp` below zero raises
`StackOverflowError`; note the draft passed along with the error already
carries the store. -/
theorem push_overflow (v : Int) (s : Machine) (h : s.reg.sp - 1 < 0) :
    push v s =
      .error .StackOverflow
        { s with mem := fun x => if x = s.reg.sp then v else s.mem x } := by
  simp only [push, bind_apply, getM_apply, storeToMemory_apply, modifyM_apply]
  rw [checkSp_overflow _ (by omega)]

/-- `pop` when the incremented `sp` stays legal: `sp := sp + 1`, then
read `memory[sp]`. -/
theorem pop_ok (s : Machine) (h : -1 ≤ s.reg.sp ∧ s.reg.sp ≤ MAX_SP - 1) :
    pop s = .ok (s.mem (s.reg.sp + 1)) { s with reg := { s.reg with sp := s.reg.sp + 1 } } := by
  simp only [pop, bind_apply, getM_apply, modifyM_apply]
  rw [checkSp_ok _ (by unfold MAX_SP at h ⊢; omega)]
  simp only [bind_apply, modifyM_apply, loadFromMemory_apply]

/-- `pop` at `sp = MAX_SP` raises `StackUnderflowError`. -/
theorem pop_underflow (s : Machine) (h : s.reg.sp ≥ MAX_SP) :
    pop s = .error .StackUnderflow s := by
  simp only [pop, bind_apply, getM_apply, modifyM_apply]
  rw [checkSp_underflow _ (by omega)]

theorem setSrFlags_apply (f : Flags3) (s : Machine) :
    setSrFlags f s =
      .ok () { s with reg := { s.reg with sr :=
        { zero := f.zero, overflow := f.overflow, sign := f.sign
          interrupt := s.reg.sr.interrupt } } } := rfl

theorem setSr_apply (sr : StatusRegister) (s : Machine) :
    setSr sr s = .ok () { s with reg := { s.reg with sr := sr } } := rfl

theorem checkDivisor_ok {v : Int} (s : Machine) (h : v ≠ 0) :
    checkDivisor v s = .ok v s := by
  unfold checkDivisor
  rw [if_neg h, M_pure_apply]

theorem checkDivisor_err (s : Machine) :
    checkDivisor 0 s = .error .DivideByZero s := by
  unfold checkDivisor
  rw [if_pos rfl, throwM_apply]

/-- Chain a bind through a known successful first component. -/
theorem bind_ok {α β : Type} {x : M α} {f : α → M β} {s : Machine} {a : α} {s1 : Machine}
    (h : x s = .ok a s1) : (x >>= f) s = f a s1 := by
  show M.bind x f s = f a s1
  unfold M.bind
  rw [h]

/-- Chain a bind through a known failing first component. -/
theorem bind_err {α β : Type} {x : M α} {f : α → M β} {s : Machine} {e : RuntimeError}
    {s1 : Machine} (h : x s = .error e s1) : (x >>= f) s = .error e s1 := by
  show M.bind x f s = .error e s1
  unfold M.bind
  rw [h]

/-- Running the step body is fetching and dispatching on the initial
draft. -/
theorem stepBody_apply (mach : Machine) :
    stepBody mach =
      dispatch (mach.sig.input.interrupt && mach.reg.sr.interrupt)
        (mach.mem mach.reg.ip) mach := by
  unfold stepBody
  rw [bind_ok (getM_apply mach)]

/-- Without a hardware trap the dispatch runs the decoded opcode's
case. -/
theorem dispatch_no_trap {raw : Int} {op : Opcode} (hop : decodeOp raw = some op) :
    dispatch false raw = execOp false op := by
  unfold dispatch
  rw [show (if (false : Bool) then some Opcode.INT_ADDR else decodeOp raw) = decodeOp raw
    from rfl, hop]

/-- Without a hardware trap an undecodable byte raises
`InvalidOpcodeError` carrying that byte. -/
theorem dispatch_no_trap_invalid {raw : Int} (hop : decodeOp raw = none) :
    dispatch false raw = throwM (.InvalidOpcode raw) := by
  unfold dispatch
  rw [show (if (false : Bool) then some Opcode.INT_ADDR else decodeOp raw) = decodeOp raw
    from rfl, hop]

/-- A hardware trap dispatches to the `INT_ADDR` case no matter what the
fetched byte is. -/
theorem dispatch_trap (raw : Int) : dispatch true raw = execIntAddr true := rfl

/-- A successful body run commits the final draft. -/
theorem step_of_body_ok {mach s1 : Machine} {a : Unit} (h : stepBody mach = .ok a s1) :
    step mach = .ok s1 := by
  unfold step
  rw [h]

/-- A failing body run surfaces only the error; the draft is discarded. -/
theorem step_of_body_err {mach s1 : Machine} {e : RuntimeError}
    (h : stepBody mach = .error e s1) : step mach = .error e := by
  unfold step
  rw [h]

/-!
## Case characterisation lemmas: stack and status-register opcodes
-/

/-- `PUSHF` with room on the stack: the marshalled byte goes to
`memory[sp]`, `sp` decrements, `ip` advances one. -/
theorem execPushf_ok (s : Machine)
    (hsp : 1 ≤ s.reg.sp ∧ s.reg.sp ≤ MAX_SP) (hip : s.reg.ip + 1 ≤ 0xff) :
    execPushf s = .ok () { s with
      mem := fun x => if x = s.reg.sp then getSrValue s.reg.sr else s.mem x
      reg := { s.reg with ip := s.reg.ip + 1, sp := s.reg.sp - 1 } } := by
  unfold execPushf
  rw [bind_ok (getM_apply s),
    bind_ok (push_ok _ _ ⟨hsp.1, by simp only [MAX_SP] at hsp ⊢; omega⟩),
    bind_ok (incIp_ok 1 _ (by exact hip)), pure_apply]

/-- `POPF` with a byte on the stack: `sp` increments, the byte at the new
`sp` is unmarshalled into the whole status register, `ip` advances one. -/
theorem execPopf_ok (s : Machine)
    (hsp : -1 ≤ s.reg.sp ∧ s.reg.sp ≤ MAX_SP - 1) (hip : s.reg.ip + 1 ≤ 0xff) :
    execPopf s = .ok () { s with
      reg := { s.reg with
               ip := s.reg.ip + 1
               sp := s.reg.sp + 1
               sr := getSrFrom (s.mem (s.reg.sp + 1)) } } := by
  unfold execPopf
  rw [bind_ok (pop_ok _ hsp), bind_ok (setSr_apply _ _),
    bind_ok (incIp_ok 1 _ (by exact hip)), pure_apply]

/-!
## Claim C5: status-register marshalling
-/

/-- The machine used to witness the PUSHF/POPF claim: `PUSHF; POPF` at
address 0 with a non-trivial status register. -/
def machineC5 : Machine :=
  { mkMachine [42, 43] with
    reg := { initRegisters with
             sr := { zero := true, overflow := false, sign := true
                     interrupt := false } } }

/-- One full step of a `PUSHF` instruction. -/
theorem step_pushf (m : Machine)
    (hint : m.sig.input.interrupt = false)
    (hop : decodeOp (m.mem m.reg.ip) = some .PUSHF)
    (hsp : 1 ≤ m.reg.sp ∧ m.reg.sp ≤ MAX_SP)
    (hip : m.reg.ip + 1 ≤ 0xff) :
    step m = .ok { m with
      mem := fun x => if x = m.reg.sp then getSrValue m.reg.sr else m.mem x
      reg := { m.reg with ip := m.reg.ip + 1, sp := m.reg.sp - 1 } } := by
  apply step_of_body_ok
  rw [stepBody_apply, show (m.sig.input.interrupt && m.reg.sr.interrupt) = false from by
    rw [hint, Bool.false_and], dispatch_no_trap hop]
  exact execPushf_ok m hsp hip

/-- One full step of a `POPF` instruction. -/
theorem step_popf (m : Machine)
    (hint : m.sig.input.interrupt = false)
    (hop : decodeOp (m.mem m.reg.ip) = some .POPF)
    (hsp : -1 ≤ m.reg.sp ∧ m.reg.sp ≤ MAX_SP - 1)
    (hip : m.reg.ip + 1 ≤ 0xff) :
    step m = .ok { m with
      reg := { m.reg with
               ip := m.reg.ip + 1
               sp := m.reg.sp + 1
               sr := getSrFrom (m.mem (m.reg.sp + 1)) } } := by
  apply step_of_body_ok
  rw [stepBody_apply, show (m.sig.input.interrupt && m.reg.sr.interrupt) = false from by
    rw [hint, Bool.false_and], dispatch_no_trap hop]
  exact execPopf_ok m hsp hip

/-- C5: the byte pushed by `PUSHF` has flag `i` at bit `i+1`
(`byte = zero*2 + overflow*4 + sign*8 + interrupt*16`, bit 0 and bits
5–7 zero), `POPF` ignores bit 0 and bits 5–7 of the popped byte,
unmarshalling a marshalled status register is the identity, and a `PUSHF`
immediately followed by a `POPF` (no intervening flag change) restores
`sr` exactly. -/
theorem pushf_popf_marshalling_identity (mach : Machine)
    (hint : mach.sig.input.interrupt = false)
    (h1 : decodeOp (mach.mem mach.reg.ip) = some .PUSHF)
    (h2 : decodeOp (mach.mem (mach.reg.ip + 1)) = some .POPF)
    (hclobber : mach.reg.sp ≠ mach.reg.ip + 1)
    (hip : mach.reg.ip + 2 ≤ 0xff)
    (hsp : 1 ≤ mach.reg.sp ∧ mach.reg.sp ≤ MAX_SP) :
    (∀ sr : StatusRegister,
      getSrValue sr % 2 = 0 ∧
      getSrValue sr / 2 % 2 = (cond sr.zero 1 0) ∧
      getSrValue sr / 4 % 2 = (cond sr.overflow 1 0) ∧
      getSrValue sr / 8 % 2 = (cond sr.sign 1 0) ∧
      getSrValue sr / 16 % 2 = (cond sr.interrupt 1 0) ∧
      getSrValue sr / 32 = 0) ∧
    (∀ v : Int, getSrFrom v = getSrFrom (v / 2 % 16 * 2)) ∧
    (∀ sr : StatusRegister, getSrFrom (getSrValue sr) = sr) ∧
    (step mach).map (fun m1 => m1.mem mach.reg.sp) = .ok (getSrValue mach.reg.sr) ∧
    ((step mach).bind step).map (fun m2 => m2.reg.sr) = .ok mach.reg.sr := by
  have roundtrip : ∀ sr : StatusRegister, getSrFrom (getSrValue sr) = sr := by
    intro sr
    rcases sr with ⟨z, o, g, i⟩
    cases z <;> cases o <;> cases g <;> cases i <;> decide
  have s1 := step_pushf mach hint h1 hsp (by omega)
  refine ⟨?_, ?_, roundtrip, ?_, ?_⟩
  · intro sr
    rcases sr with ⟨z, o, g, i⟩
    cases z <;> cases o <;> cases g <;> cases i <;> decide
  · intro v
    unfold getSrFrom
    simp only [StatusRegister.mk.injEq]
    refine ⟨?_, ?_, ?_, ?_⟩ <;> (rw [decide_eq_decide]; omega)
  · rw [s1]
    show Except.ok (if mach.reg.sp = mach.reg.sp then getSrValue mach.reg.sr
      else mach.mem mach.reg.sp) = _
    rw [if_pos rfl]
  · rw [s1]
    show (step _).map _ = _
    rw [step_popf _ (by exact hint)
      (by show decodeOp (if mach.reg.ip + 1 = mach.reg.sp then _ else _) = _
          rw [if_neg (fun hc => hclobber hc.symm)]
          exact h2)
      (by constructor <;> (show _ ≤ _; simp only [MAX_SP] at hsp ⊢; omega))
      (by show mach.reg.ip + 1 + 1 ≤ 0xff; omega)]
    show Except.ok (getSrFrom (if mach.reg.sp - 1 + 1 = mach.reg.sp then _ else _)) = _
    rw [if_pos (by omega)]
    rw [roundtrip]

/-- Witness for C5 at the concrete machine `machineC5`. -/
theorem pushf_popf_marshalling_identity_witness :
    (step machineC5).map (fun m1 => m1.mem machineC5.reg.sp) =
      .ok (getSrValue machineC5.reg.sr) ∧
    ((step machineC5).bind step).map (fun m2 => m2.reg.sr) =
      .ok machineC5.reg.sr :=
  (pushf_popf_marshalling_identity machineC5 rfl (by decide) (by decide)
    (by decide) (by decide) (by decide)).2.2.2

/-!
## Claim C7: stack discipline
-/

/-- A no-trap step decodes and runs the opcode's case block. -/
theorem stepBody_no_trap {m : Machine} {op : Opcode}
    (hint : m.sig.input.interrupt = false)
    (hop : decodeOp (m.mem m.reg.ip) = some op) :
    stepBody m = execOp false op m := by
  rw [stepBody_apply, show (m.sig.input.interrupt && m.reg.sr.interrupt) = false from by
    rw [hint, Bool.false_and], dispatch_no_trap hop]

/-- `PUSH_FROM_REG` with no room on the stack raises
`StackOverflowError`. -/
theorem step_push_from_reg_overflow (m : Machine)
    (hint : m.sig.input.interrupt = false)
    (hop : decodeOp (m.mem m.reg.ip) = some .PUSH_FROM_REG)
    (hip : m.reg.ip + 1 ≤ 0xff)
    (hr : 0 ≤ m.mem (m.reg.ip + 1) ∧ m.mem (m.reg.ip + 1) ≤ 3)
    (hsp : m.reg.sp < 1) :
    step m = .error .StackOverflow := by
  apply step_of_body_err
  rw [stepBody_no_trap hint hop]
  show execPushFromReg m = _
  unfold execPushFromReg
  rw [bind_ok (incIp_ok 1 m hip), bind_ok (loadFromMemory_apply _ _),
    bind_ok (checkGpr_ok _ (by exact hr)), bind_ok (getGpr_apply _ _),
    bind_err (push_overflow _ _ (by simp only []; omega))]

/-- `PUSHF` with no room on the stack raises `StackOverflowError`. -/
theorem step_pushf_overflow (m : Machine)
    (hint : m.sig.input.interrupt = false)
    (hop : decodeOp (m.mem m.reg.ip) = some .PUSHF)
    (hsp : m.reg.sp < 1) :
    step m = .error .StackOverflow := by
  apply step_of_body_err
  rw [stepBody_no_trap hint hop]
  show execPushf m = _
  unfold execPushf
  rw [bind_ok (getM_apply m), bind_err (push_overflow _ _ (by omega))]

/-- `CALL_ADDR` with no room on the stack raises `StackOverflowError`
(the push of the return address happens before the jump). -/
theorem step_call_overflow (m : Machine)
    (hint : m.sig.input.interrupt = false)
    (hop : decodeOp (m.mem m.reg.ip) = some .CALL_ADDR)
    (hsp : m.reg.sp < 1) :
    step m = .error .StackOverflow := by
  apply step_of_body_err
  rw [stepBody_no_trap hint hop]
  show execCallAddr m = _
  unfold execCallAddr
  rw [bind_ok (getNextIp_apply 1 m), bind_ok (loadFromMemory_apply _ _),
    bind_ok (getNextIp_apply 2 m), bind_err (push_overflow _ _ (by omega))]

/-- Software `INT_ADDR` with no room on the stack raises
`StackOverflowError`. -/
theorem step_int_soft_overflow (m : Machine)
    (hint : m.sig.input.interrupt = false)
    (hop : decodeOp (m.mem m.reg.ip) = some .INT_ADDR)
    (hsp : m.reg.sp < 1) :
    step m = .error .StackOverflow := by
  apply step_of_body_err
  rw [stepBody_no_trap hint hop]
  show execIntAddr false m = _
  unfold execIntAddr
  rw [show (if (false : Bool) then _ else _) = _ from if_neg (by simp)]
  rw [bind_ok (getNextIp_apply 1 m), bind_ok (loadFromMemory_apply _ _),
    bind_ok (getNextIp_apply 2 m), bind_err (push_overflow _ _ (by omega))]

/-- `POP_TO_REG` on an empty stack raises `StackUnderflowError`. -/
theorem step_pop_to_reg_underflow (m : Machine)
    (hint : m.sig.input.interrupt = false)
    (hop : decodeOp (m.mem m.reg.ip) = some .POP_TO_REG)
    (hip : m.reg.ip + 1 ≤ 0xff)
    (hr : 0 ≤ m.mem (m.reg.ip + 1) ∧ m.mem (m.reg.ip + 1) ≤ 3)
    (hsp : m.reg.sp ≥ MAX_SP) :
    step m = .error .StackUnderflow := by
  apply step_of_body_err
  rw [stepBody_no_trap hint hop]
  show execPopToReg m = _
  unfold execPopToReg
  rw [bind_ok (incIp_ok 1 m hip), bind_ok (loadFromMemory_apply _ _),
    bind_ok (checkGpr_ok _ (by exact hr)),
    bind_err (pop_underflow _ (by exact hsp))]

/-- `POPF` on an empty stack raises `StackUnderflowError`. -/
theorem step_popf_underflow (m : Machine)
    (hint : m.sig.input.interrupt = false)
    (hop : decodeOp (m.mem m.reg.ip) = some .POPF)
    (hsp : m.reg.sp ≥ MAX_SP) :
    step m = .error .StackUnderflow := by
  apply step_of_body_err
  rw [stepBody_no_trap hint hop]
  show execPopf m = _
  unfold execPopf
  rw [bind_err (pop_underflow _ hsp)]

/-- `RET` on an empty stack raises `StackUnderflowError`. -/
theorem step_ret_underflow (m : Machine)
    (hint : m.sig.input.interrupt = false)
    (hop : decodeOp (m.mem m.reg.ip) = some .RET)
    (hsp : m.reg.sp ≥ MAX_SP) :
    step m = .error .StackUnderflow := by
  apply step_of_body_err
  rw [stepBody_no_trap hint hop]
  show execRet m = _
  unfold execRet
  rw [bind_err (pop_underflow _ hsp)]

/-- `IRET` on an empty stack raises `StackUnderflowError`. -/
theorem step_iret_underflow (m : Machine)
    (hint : m.sig.input.interrupt = false)
    (hop : decodeOp (m.mem m.reg.ip) = some .IRET)
    (hsp : m.reg.sp ≥ MAX_SP) :
    step m = .error .StackUnderflow := by
  apply step_of_body_err
  rw [stepBody_no_trap hint hop]
  show execIret m = _
  unfold execIret
  rw [bind_err (pop_underflow _ hsp)]

/-- C7: a push writes the value to `memory[sp]` and then decrements
`sp`; a pop increments `sp` and then reads `memory[sp]`; a push that
would take `sp` below 0 raises `StackOverflowError` and a pop that would
take `sp` above `0xBF` raises `StackUnderflowError` — at the level of the
shared `push`/`pop` helpers and at the level of each of the eight
stack-using instructions (`PUSH_FROM_REG`, `POP_TO_REG`, `PUSHF`,
`POPF`, `CALL`, `RET`, software `INT`, `IRET`). -/
theorem stack_discipline :
    (∀ (v : Int) (m : Machine), 1 ≤ m.reg.sp → m.reg.sp ≤ MAX_SP + 1 →
      push v m = .ok () { m with
        mem := fun x => if x = m.reg.sp then v else m.mem x
        reg := { m.reg with sp := m.reg.sp - 1 } }) ∧
    (∀ m : Machine, -1 ≤ m.reg.sp → m.reg.sp ≤ MAX_SP - 1 →
      pop m = .ok (m.mem (m.reg.sp + 1))
        { m with reg := { m.reg with sp := m.reg.sp + 1 } }) ∧
    (∀ (v : Int) (m : Machine), m.reg.sp - 1 < 0 →
      ∃ s1, push v m = .error .StackOverflow s1) ∧
    (∀ m : Machine, m.reg.sp + 1 > MAX_SP →
      ∃ s1, pop m = .error .StackUnderflow s1) ∧
    (∀ m : Machine, m.sig.input.interrupt = false → m.reg.sp = 0 →
      m.reg.ip + 1 ≤ 0xff →
      0 ≤ m.mem (m.reg.ip + 1) → m.mem (m.reg.ip + 1) ≤ 3 →
      (decodeOp (m.mem m.reg.ip) = some .PUSH_FROM_REG →
        step m = .error .StackOverflow) ∧
      (decodeOp (m.mem m.reg.ip) = some .PUSHF → step m = .error .StackOverflow) ∧
      (decodeOp (m.mem m.reg.ip) = some .CALL_ADDR → step m = .error .StackOverflow) ∧
      (decodeOp (m.mem m.reg.ip) = some .INT_ADDR → step m = .error .StackOverflow)) ∧
    (∀ m : Machine, m.sig.input.interrupt = false → m.reg.sp = MAX_SP →
      m.reg.ip + 1 ≤ 0xff →
      0 ≤ m.mem (m.reg.ip + 1) → m.mem (m.reg.ip + 1) ≤ 3 →
      (decodeOp (m.mem m.reg.ip) = some .POP_TO_REG →
        step m = .error .StackUnderflow) ∧
      (decodeOp (m.mem m.reg.ip) = some .POPF → step m = .error .StackUnderflow) ∧
      (decodeOp (m.mem m.reg.ip) = some .RET → step m = .error .StackUnderflow) ∧
      (decodeOp (m.mem m.reg.ip) = some .IRET → step m = .error .StackUnderflow)) := by
  refine ⟨?_, ?_, ?_, ?_, ?_, ?_⟩
  · intro v m h1 h2
    exact push_ok v m ⟨h1, h2⟩
  · intro m h1 h2
    exact pop_ok m ⟨h1, h2⟩
  · intro v m h
    exact ⟨_, push_overflow v m h⟩
  · intro m h
    exact ⟨_, pop_underflow m (by omega)⟩
  · intro m hint hsp hip hr1 hr2
    exact ⟨fun hop => step_push_from_reg_overflow m hint hop hip ⟨hr1, hr2⟩ (by omega),
      fun hop => step_pushf_overflow m hint hop (by omega),
      fun hop => step_call_overflow m hint hop (by omega),
      fun hop => step_int_soft_overflow m hint hop (by omega)⟩
  · intro m hint hsp hip hr1 hr2
    exact ⟨fun hop => step_pop_to_reg_underflow m hint hop hip ⟨hr1, hr2⟩ (by omega),
      fun hop => step_popf_underflow m hint hop (by omega),
      fun hop => step_ret_underflow m hint hop (by omega),
      fun hop => step_iret_underflow m hint hop (by omega)⟩

/-- A machine with `PUSH AL` at address 0 and an exhausted stack. -/
def machineC7push : Machine :=
  { mkMachine [40, 0] with reg := { initRegisters with sp := 0 } }

/-- A machine with `POP AL` at address 0 and an empty stack. -/
def machineC7pop : Machine := mkMachine [41, 0]

/-- Witness for C7: the concrete exhausted-stack push raises
`StackOverflowError` and the concrete empty-stack pop raises
`StackUnderflowError`. -/
theorem stack_discipline_witness :
    step machineC7push = .error .StackOverflow ∧
    step machineC7pop = .error .StackUnderflow :=
  ⟨((stack_discipline.2.2.2.2.1 machineC7push rfl (by decide) (by decide) (by decide)
      (by decide)).1 (by decide)),
   ((stack_discipline.2.2.2.2.2 machineC7pop rfl (by decide) (by decide) (by decide)
      (by decide)).1 (by decide))⟩

/-!
## Claim C4: asymmetric interrupt indirection
-/

/-- A hardware-trapping step: push the *current* `ip`, jump through the
fixed vector at `memory[0x02]` — note there is no hypothesis about the
byte at `ip`: no instruction fetch happens at all. -/
theorem step_int_trap (m : Machine)
    (hsig : m.sig.input.interrupt = true)
    (hflag : m.reg.sr.interrupt = true)
    (hsp : 1 ≤ m.reg.sp ∧ m.reg.sp ≤ MAX_SP)
    (hvec : m.reg.sp ≠ 2) :
    step m = .ok { m with
      mem := fun x => if x = m.reg.sp then m.reg.ip else m.mem x
      reg := { m.reg with ip := m.mem 2, sp := m.reg.sp - 1 } } := by
  apply step_of_body_ok
  rw [stepBody_apply, show (m.sig.input.interrupt && m.reg.sr.interrupt) = true from by
    rw [hsig, hflag]; rfl, dispatch_trap]
  unfold execIntAddr
  rw [if_pos rfl, bind_ok (getIp_apply m),
    bind_ok (push_ok _ _ ⟨hsp.1, by simp only [MAX_SP] at hsp ⊢; omega⟩),
    bind_ok (loadFromMemory_apply 2 _)]
  show setIp (if (2 : Int) = m.reg.sp then m.reg.ip else m.mem 2) _ = _
  rw [if_neg (fun hc => hvec hc.symm), setIp_apply]

/-- A software `INT_ADDR` step: push `ip + 2`, then jump to
`memory[operand]` — a double indirection through the operand address. -/
theorem step_int_soft (m : Machine)
    (htrap : (m.sig.input.interrupt && m.reg.sr.interrupt) = false)
    (hop : decodeOp (m.mem m.reg.ip) = some .INT_ADDR)
    (hsp : 1 ≤ m.reg.sp ∧ m.reg.sp ≤ MAX_SP)
    (hvec : m.mem (m.reg.ip + 1) ≠ m.reg.sp) :
    step m = .ok { m with
      mem := fun x => if x = m.reg.sp then m.reg.ip + 2 else m.mem x
      reg := { m.reg with ip := m.mem (m.mem (m.reg.ip + 1)), sp := m.reg.sp - 1 } } := by
  apply step_of_body_ok
  rw [stepBody_apply, htrap, dispatch_no_trap hop]
  show execIntAddr false m = _
  unfold execIntAddr
  rw [if_neg (by decide), bind_ok (getNextIp_apply 1 m),
    bind_ok (loadFromMemory_apply _ _), bind_ok (getNextIp_apply 2 m),
    bind_ok (push_ok _ _ ⟨hsp.1, by simp only [MAX_SP] at hsp ⊢; omega⟩),
    bind_ok (loadFromMemory_apply _ _)]
  show setIp (if m.mem (m.reg.ip + 1) = m.reg.sp then m.reg.ip + 2
    else m.mem (m.mem (m.reg.ip + 1))) _ = _
  rw [if_neg hvec, setIp_apply]

/-- An `IRET` step: pop into `ip`. -/
theorem step_iret_ok (m : Machine)
    (htrap : (m.sig.input.interrupt && m.reg.sr.interrupt) = false)
    (hop : decodeOp (m.mem m.reg.ip) = some .IRET)
    (hsp : -1 ≤ m.reg.sp ∧ m.reg.sp ≤ MAX_SP - 1) :
    step m = .ok { m with
      reg := { m.reg with ip := m.mem (m.reg.sp + 1), sp := m.reg.sp + 1 } } := by
  apply step_of_body_ok
  rw [stepBody_apply, htrap, dispatch_no_trap hop]
  show execIret m = _
  unfold execIret
  rw [bind_ok (pop_ok m hsp), setIp_apply]

/-- C4: `INT` has asymmetric indirection.  With the interrupt signal
raised and the Interrupt flag set the step traps: it pushes the current
`ip` and jumps to `memory[0x02]`, regardless of the instruction at `ip`
(no hypothesis constrains that byte).  The software `INT_ADDR` form
pushes `ip + 2` and jumps to `memory[operand]`, a vector lookup through
the operand address.  `IRET` pops into `ip`.  (The side conditions keep
the pushed byte away from the vector cell and the operand cell, and the
stack in range.) -/
theorem int_asymmetric_indirection :
    (∀ m : Machine, m.sig.input.interrupt = true → m.reg.sr.interrupt = true →
      1 ≤ m.reg.sp → m.reg.sp ≤ MAX_SP → m.reg.sp ≠ 2 →
      step m = .ok { m with
        mem := fun x => if x = m.reg.sp then m.reg.ip else m.mem x
        reg := { m.reg with ip := m.mem 2, sp := m.reg.sp - 1 } }) ∧
    (∀ m : Machine, (m.sig.input.interrupt && m.reg.sr.interrupt) = false →
      decodeOp (m.mem m.reg.ip) = some .INT_ADDR →
      1 ≤ m.reg.sp → m.reg.sp ≤ MAX_SP → m.mem (m.reg.ip + 1) ≠ m.reg.sp →
      step m = .ok { m with
        mem := fun x => if x = m.reg.sp then m.reg.ip + 2 else m.mem x
        reg := { m.reg with
                 ip := m.mem (m.mem (m.reg.ip + 1))
                 sp := m.reg.sp - 1 } }) ∧
    (∀ m : Machine, (m.sig.input.interrupt && m.reg.sr.interrupt) = false →
      decodeOp (m.mem m.reg.ip) = some .IRET →
      -1 ≤ m.reg.sp → m.reg.sp ≤ MAX_SP - 1 →
      step m = .ok { m with
        reg := { m.reg with ip := m.mem (m.reg.sp + 1), sp := m.reg.sp + 1 } }) :=
  ⟨fun m h1 h2 h3 h4 h5 => step_int_trap m h1 h2 ⟨h3, h4⟩ h5,
   fun m h1 h2 h3 h4 h5 => step_int_soft m h1 h2 ⟨h3, h4⟩ h5,
   fun m h1 h2 h3 h4 => step_iret_ok m h1 h2 ⟨h3, h4⟩⟩

/-- Scenario F machine: `memory[0x02] = 0x40`, Interrupt flag set,
interrupt signal raised; the byte at `ip` happens to be a NOP. -/
def machineC4 : Machine :=
  { mkMachine [53, 0, 0x40] with
    reg := { initRegisters with
             sr := { zero := false, overflow := false, sign := false
                     interrupt := true } }
    sig := { initSignals with
             input := { data := { content := none, port := 0 }, interrupt := true } } }

/-- Witness for C4 at the scenario F machine: the trap pushes the current
`ip` (0) at `memory[sp]` and jumps to `memory[0x02] = 0x40`. -/
theorem int_asymmetric_indirection_witness :
    ∃ m1 : Machine, step machineC4 = .ok m1 ∧ m1.reg.ip = 0x40 ∧
      m1.mem machineC4.reg.sp = machineC4.reg.ip ∧
      m1.reg.sp = machineC4.reg.sp - 1 :=
  ⟨_, int_asymmetric_indirection.1 machineC4 rfl rfl (by decide) (by decide) (by decide),
    by decide, by decide, by decide⟩

/-!
## Claims C3 and C6: the I/O handshake
-/

/-- A successful `IN_FROM_PORT_TO_AL` step (matching port, non-null
content, and the advanced `ip` still in memory): the content goes into
`AL` and `ip` moves past the 2-byte instruction.  The signal bus — in
particular `requiredInputDataPort` — is left exactly as it came in. -/
theorem step_in_match (m : Machine) (c : Int)
    (htrap : (m.sig.input.interrupt && m.reg.sr.interrupt) = false)
    (hop : decodeOp (m.mem m.reg.ip) = some .IN_FROM_PORT_TO_AL)
    (hport : 0 ≤ m.mem (m.reg.ip + 1) ∧ m.mem (m.reg.ip + 1) ≤ MAX_PORT)
    (hcontent : m.sig.input.data.content = some c)
    (hmatch : m.sig.input.data.port = m.mem (m.reg.ip + 1))
    (hip : m.reg.ip + 2 ≤ 0xff) :
    step m = .ok { m with
      reg := { m.reg with
               gpr := Function.update m.reg.gpr 0 c
               ip := m.reg.ip + 2 } } := by
  apply step_of_body_ok
  rw [stepBody_apply, htrap, dispatch_no_trap hop]
  show execIn m = _
  unfold execIn
  rw [bind_ok (getM_apply m), bind_ok (getNextIp_apply 1 m),
    bind_ok (loadFromMemory_apply _ _), bind_ok (checkPort_ok _ hport)]
  simp only [hcontent]
  rw [if_neg (fun hne => hne hmatch), bind_ok (setGpr_apply 0 c m),
    bind_ok (incIp_ok 2 _ (by exact hip)), pure_apply]

/-- `IN_FROM_PORT_TO_AL` with no input content at all: the required
port is emitted on the output signals and nothing else changes — `ip`
stays, so the same instruction re-executes on the next step. -/
theorem step_in_none (m : Machine)
    (htrap : (m.sig.input.interrupt && m.reg.sr.interrupt) = false)
    (hop : decodeOp (m.mem m.reg.ip) = some .IN_FROM_PORT_TO_AL)
    (hport : 0 ≤ m.mem (m.reg.ip + 1) ∧ m.mem (m.reg.ip + 1) ≤ MAX_PORT)
    (hcontent : m.sig.input.data.content = none) :
    step m = .ok { m with
      sig := { m.sig with output :=
        { m.sig.output with requiredInputDataPort := some (m.mem (m.reg.ip + 1)) } } } := by
  apply step_of_body_ok
  rw [stepBody_apply, htrap, dispatch_no_trap hop]
  show execIn m = _
  unfold execIn
  rw [bind_ok (getM_apply m), bind_ok (getNextIp_apply 1 m),
    bind_ok (loadFromMemory_apply _ _), bind_ok (checkPort_ok _ hport)]
  simp only [hcontent]
  rfl

/-- `IN_FROM_PORT_TO_AL` with input data for a different port: same as
having no data — emit the required port, leave `ip` in place. -/
theorem step_in_mismatch (m : Machine) (c : Int)
    (htrap : (m.sig.input.interrupt && m.reg.sr.interrupt) = false)
    (hop : decodeOp (m.mem m.reg.ip) = some .IN_FROM_PORT_TO_AL)
    (hport : 0 ≤ m.mem (m.reg.ip + 1) ∧ m.mem (m.reg.ip + 1) ≤ MAX_PORT)
    (hcontent : m.sig.input.data.content = some c)
    (hmismatch : m.sig.input.data.port ≠ m.mem (m.reg.ip + 1)) :
    step m = .ok { m with
      sig := { m.sig with output :=
        { m.sig.output with requiredInputDataPort := some (m.mem (m.reg.ip + 1)) } } } := by
  apply step_of_body_ok
  rw [stepBody_apply, htrap, dispatch_no_trap hop]
  show execIn m = _
  unfold execIn
  rw [bind_ok (getM_apply m), bind_ok (getNextIp_apply 1 m),
    bind_ok (loadFromMemory_apply _ _), bind_ok (checkPort_ok _ hport)]
  simp only [hcontent]
  rw [if_pos hmismatch]
  rfl

/-- A machine with `IN 05` at address `0xFE` (the last possible place for
a 2-byte instruction) and matching input data waiting on port 5. -/
def machineC3edge : Machine :=
  { mem := fun a => if a = 254 then 48 else if a = 255 then 5 else 0
    reg := { initRegisters with ip := 254 }
    sig := { initSignals with
             input := { data := { content := some 0x7f, port := 5 }, interrupt := false } } }

/-- Counterexample to C3 as stated: at `machineC3edge` the port operand
is a valid port and the input data matches it with non-null content, yet
the step does *not* write `AL` and advance — it raises
`RunBeyondEndOfMemoryError`, because advancing past the 2-byte
instruction would push `ip` to 0x100. -/
theorem in_handshake_counterexample :
    (0 ≤ machineC3edge.mem (machineC3edge.reg.ip + 1) ∧
      machineC3edge.mem (machineC3edge.reg.ip + 1) ≤ MAX_PORT) ∧
    machineC3edge.sig.input.data.port = machineC3edge.mem (machineC3edge.reg.ip + 1) ∧
    machineC3edge.sig.input.data.content = some 0x7f ∧
    step machineC3edge = .error .RunBeyondEndOfMemory := by
  refine ⟨by decide, by decide, by decide, ?_⟩
  rfl

/-- C3 (amended): the `IN` handshake, provided the advanced `ip` would
still be in memory (`ip + 2 ≤ 0xFF`): on matching non-null input the
content is consumed into `AL` and `ip` advances past the 2-byte
instruction; otherwise (null content or port mismatch) the required port
is emitted in the output signals and `ip` is unchanged, so the same
instruction re-executes on the next step.  At `ip = 0xFE` a matching
input makes the step raise `RunBeyondEndOfMemoryError` instead. -/
theorem in_handshake_amended :
    (∀ (m : Machine) (c : Int),
      (m.sig.input.interrupt && m.reg.sr.interrupt) = false →
      decodeOp (m.mem m.reg.ip) = some .IN_FROM_PORT_TO_AL →
      0 ≤ m.mem (m.reg.ip + 1) → m.mem (m.reg.ip + 1) ≤ MAX_PORT →
      m.sig.input.data.content = some c →
      m.sig.input.data.port = m.mem (m.reg.ip + 1) →
      m.reg.ip + 2 ≤ 0xff →
      step m = .ok { m with
        reg := { m.reg with
                 gpr := Function.update m.reg.gpr 0 c
                 ip := m.reg.ip + 2 } }) ∧
    (∀ m : Machine,
      (m.sig.input.interrupt && m.reg.sr.interrupt) = false →
      decodeOp (m.mem m.reg.ip) = some .IN_FROM_PORT_TO_AL →
      0 ≤ m.mem (m.reg.ip + 1) → m.mem (m.reg.ip + 1) ≤ MAX_PORT →
      m.sig.input.data.content = none →
      step m = .ok { m with
        sig := { m.sig with output :=
          { m.sig.output with
            requiredInputDataPort := some (m.mem (m.reg.ip + 1)) } } }) ∧
    (∀ (m : Machine) (c : Int),
      (m.sig.input.interrupt && m.reg.sr.interrupt) = false →
      decodeOp (m.mem m.reg.ip) = some .IN_FROM_PORT_TO_AL →
      0 ≤ m.mem (m.reg.ip + 1) → m.mem (m.reg.ip + 1) ≤ MAX_PORT →
      m.sig.input.data.content = some c →
      m.sig.input.data.port ≠ m.mem (m.reg.ip + 1) →
      step m = .ok { m with
        sig := { m.sig with output :=
          { m.sig.output with
            requiredInputDataPort := some (m.mem (m.reg.ip + 1)) } } }) ∧
    (∀ (m : Machine) (c : Int),
      (m.sig.input.interrupt && m.reg.sr.interrupt) = false →
      decodeOp (m.mem m.reg.ip) = some .IN_FROM_PORT_TO_AL →
      0 ≤ m.mem (m.reg.ip + 1) → m.mem (m.reg.ip + 1) ≤ MAX_PORT →
      m.sig.input.data.content = some c →
      m.sig.input.data.port = m.mem (m.reg.ip + 1) →
      m.reg.ip + 2 > 0xff →
      step m = .error .RunBeyondEndOfMemory) := by
  refine ⟨fun m c h1 h2 h3 h4 h5 h6 h7 => step_in_match m c h1 h2 ⟨h3, h4⟩ h5 h6 h7,
    fun m h1 h2 h3 h4 h5 => step_in_none m h1 h2 ⟨h3, h4⟩ h5,
    fun m c h1 h2 h3 h4 h5 h6 => step_in_mismatch m c h1 h2 ⟨h3, h4⟩ h5 h6,
    fun m c h1 h2 h3 h4 h5 h6 h7 => ?_⟩
  apply step_of_body_err
  rw [stepBody_apply, h1, dispatch_no_trap h2]
  show execIn m = _
  unfold execIn
  rw [bind_ok (getM_apply m), bind_ok (getNextIp_apply 1 m),
    bind_ok (loadFromMemory_apply _ _), bind_ok (checkPort_ok _ ⟨h3, h4⟩)]
  simp only [h5]
  rw [if_neg (fun hne => hne h6), bind_ok (setGpr_apply 0 c m),
    bind_err (incIp_err 2 _ (by exact h7))]

/-- Scenario E, first step: `IN 05` with no input waiting. -/
def machineC3a : Machine := mkMachine [48, 5, 0]

/-- Scenario E, second step: the same program with matching input data
`{content := 0x7F, port := 5}` waiting. -/
def machineC3b : Machine :=
  { mkMachine [48, 5, 0] with
    sig := { initSignals with
             input := { data := { content := some 0x7f, port := 5 }, interrupt := false } } }

/-- Witness for the amended C3 at the scenario E machines: with no
matching input `ip` stays and `required_input_port = 5`; with matching
input `AL = 0x7F` and `ip` lands past the 2-byte `IN`. -/
theorem in_handshake_amended_witness :
    (step machineC3a).map
        (fun m1 => (m1.reg.ip, m1.sig.output.requiredInputDataPort)) =
      .ok (0, some 5) ∧
    (step machineC3b).map (fun m1 => (m1.reg.gpr 0, m1.reg.ip)) = .ok (0x7f, 2) := by
  constructor
  · rw [in_handshake_amended.2.1 machineC3a rfl (by decide) (by decide) (by decide)
      (by decide)]
    rfl
  · rw [in_handshake_amended.1 machineC3b 0x7f rfl (by decide) (by decide) (by decide)
      (by decide) (by decide) (by decide)]
    rfl

/-- A machine about to consume matching input while the *incoming*
output signals still carry `required_input_port = 5` from the previous
step. -/
def machineC6 : Machine :=
  { mkMachine [48, 5, 0] with
    sig := { input := { data := { content := some 0x7f, port := 5 }, interrupt := false }
             output := { halted := false, requiredInputDataPort := some 5
                         data := none, closeWindows := false } } }

/-- Counterexample to C6 as stated: at `machineC6` the `IN` consumes the
matching input (so `AL` gets 0x7F and `ip` advances), yet the returned
output signals still carry `required_input_port = some 5` — the step does
not clear it. -/
theorem in_clears_required_port_counterexample :
    machineC6.sig.input.data.port = machineC6.mem (machineC6.reg.ip + 1) ∧
    machineC6.sig.input.data.content = some 0x7f ∧
    (step machineC6).map
        (fun m1 => (m1.reg.gpr 0, m1.reg.ip, m1.sig.output.requiredInputDataPort)) =
      .ok (0x7f, 2, some 5) := by
  refine ⟨by decide, by decide, ?_⟩
  rw [step_in_match machineC6 0x7f rfl (by decide) (by decide) (by decide) (by decide)
    (by decide)]
  rfl

/-- C6 (amended): a successful `IN` consumption does not touch
`required_input_port` at all — the returned output signals carry exactly
the incoming value (so it reads as cleared only when the caller handed in
reset output signals). -/
theorem in_success_required_port_passthrough (m : Machine) (c : Int)
    (htrap : (m.sig.input.interrupt && m.reg.sr.interrupt) = false)
    (hop : decodeOp (m.mem m.reg.ip) = some .IN_FROM_PORT_TO_AL)
    (hport : 0 ≤ m.mem (m.reg.ip + 1) ∧ m.mem (m.reg.ip + 1) ≤ MAX_PORT)
    (hcontent : m.sig.input.data.content = some c)
    (hmatch : m.sig.input.data.port = m.mem (m.reg.ip + 1))
    (hip : m.reg.ip + 2 ≤ 0xff) :
    (step m).map (fun m1 => m1.sig.output.requiredInputDataPort) =
      .ok m.sig.output.requiredInputDataPort := by
  rw [step_in_match m c htrap hop hport hcontent hmatch hip]
  rfl

/-- Witness for the amended C6 at `machineC6`: the incoming
`required_input_port = some 5` flows through unchanged. -/
theorem in_success_required_port_passthrough_witness :
    (step machineC6).map (fun m1 => m1.sig.output.requiredInputDataPort) =
      .ok machineC6.sig.output.requiredInputDataPort :=
  in_success_required_port_passthrough machineC6 0x7f rfl (by decide) (by decide)
    (by decide) (by decide) (by decide)

/-!
## Claim C8: atomicity of `step` on error
-/

/-- A machine whose first byte decodes to no opcode at all. -/
def machineC8 : Machine := mkMachine [99]

/-- C8: `step` is all-or-nothing.  The wrapper commits the body's final
draft exactly on success; when the body throws, the error the caller sees
carries no machine at all — the partially mutated draft `s1` is
discarded, so the caller's own memory, registers and signals are what
they were before the call.  The final conjunct shows this is not vacuous:
there is an input (a `PUSH` on an exhausted stack) on which the draft is
already mutated at the throw point, yet only the bare error escapes. -/
theorem step_error_atomic :
    (∀ (mach : Machine) (e : RuntimeError),
      (∃ s1, stepBody mach = .error e s1) ↔ step mach = .error e) ∧
    (∀ (mach m1 : Machine), step mach = .ok m1 → ∃ a, stepBody mach = .ok a m1) ∧
    (∃ m : Machine,
      match stepBody m with
      | .error _ s1 => s1.mem m.reg.sp ≠ m.mem m.reg.sp
      | .ok _ _ => False) := by
  refine ⟨?_, ?_, ?_⟩
  · intro mach e
    constructor
    · rintro ⟨s1, h⟩
      exact step_of_body_err h
    · intro h
      rcases hb : stepBody mach with ⟨a, s1⟩ | ⟨e1, s1⟩
      · unfold step at h
        rw [hb] at h
        exact Except.noConfusion h
      · unfold step at h
        rw [hb] at h
        injection h with he
        subst he
        exact ⟨s1, rfl⟩
  · intro mach m1 h
    rcases hb : stepBody mach with ⟨a, s1⟩ | ⟨e1, s1⟩
    · unfold step at h
      rw [hb] at h
      injection h with he
      subst he
      exact ⟨a, rfl⟩
    · unfold step at h
      rw [hb] at h
      exact Except.noConfusion h
  · refine ⟨machineC7push, ?_⟩
    intro h
    exact absurd h (by decide)

/-- Witness for C8: at the concrete undecodable-byte machine, the body
throws `InvalidOpcodeError 99` and the wrapper surfaces exactly that
error with no state attached. -/
theorem step_error_atomic_witness :
    step machineC8 = .error (.InvalidOpcode 99) :=
  (step_error_atomic.1 machineC8 (.InvalidOpcode 99)).mp
    ⟨machineC8, by
      rw [stepBody_apply,
        show (machineC8.sig.input.interrupt && machineC8.reg.sr.interrupt) = false
          from rfl,
        dispatch_no_trap_invalid (by decide)]
      rfl⟩

/-!
## Arithmetic flag machinery (claim C1)
-/

/-- The status register written by `setSr` with a three-flag tuple: the
new zero/overflow/sign over the old Interrupt flag. -/
def srWithFlags (f : Flags3) (old : StatusRegister) : StatusRegister :=
  { zero := f.zero, overflow := f.overflow, sign := f.sign, interrupt := old.interrupt }

theorem setSrFlags_apply2 (f : Flags3) (s : Machine) :
    setSrFlags f s =
      .ok () { s with reg := { s.reg with sr := srWithFlags f s.reg.sr } } := rfl

theorem setInterruptFlag_apply (b : Bool) (s : Machine) :
    setInterruptFlag b s =
      .ok () { s with reg := { s.reg with
        sr := { s.reg.sr with interrupt := b } } } := rfl

theorem setOutputDataSignal_apply (c q : Int) (s : Machine) :
    setOutputDataSignal c q s =
      .ok () { s with sig := { s.sig with
        output := { s.sig.output with data := some { content := c, port := q } } } } := rfl

theorem setCloseWindowsSignal_apply (s : Machine) :
    setCloseWindowsSignal s =
      .ok () { s with sig := { s.sig with
        output := { s.sig.output with closeWindows := true } } } := rfl

/-- `operate` on a binary operation that returns a raw result without
throwing: flags from `checkOperationResult`, Interrupt preserved. -/
theorem operate2_ok {f : Int → Int → M Int} {v p : Int} {s : Machine} {raw : Int}
    (hf : f v p s = .ok raw s) :
    operate2 f v p s = .ok (checkOperationResult raw p).1
      { s with reg := { s.reg with
          sr := srWithFlags (checkOperationResult raw p).2 s.reg.sr } } := by
  unfold operate2
  rw [bind_ok hf]
  show (setSrFlags (checkOperationResult raw p).2 >>=
    fun _ => M.pure (checkOperationResult raw p).1) s = _
  rw [bind_ok (setSrFlags_apply2 _ _), M_pure_apply]

/-- `operate` on a unary operation. -/
theorem operate1_ok {f : Int → M Int} {p : Int} {s : Machine} {raw : Int}
    (hf : f p s = .ok raw s) :
    operate1 f p s = .ok (checkOperationResult raw p).1
      { s with reg := { s.reg with
          sr := srWithFlags (checkOperationResult raw p).2 s.reg.sr } } := by
  unfold operate1
  rw [bind_ok hf]
  show (setSrFlags (checkOperationResult raw p).2 >>=
    fun _ => M.pure (checkOperationResult raw p).1) s = _
  rw [bind_ok (setSrFlags_apply2 _ _), M_pure_apply]

theorem add_ok (v p : Int) (s : Machine) : add v p s = .ok (p + v) s := rfl

theorem substract_ok (v p : Int) (s : Machine) : substract v p s = .ok (p - v) s := rfl

theorem multiply_ok (v p : Int) (s : Machine) : multiply v p s = .ok (p * v) s := rfl

theorem and_ok (v p : Int) (s : Machine) :
    and v p s = .ok (Int.ofNat (p.toNat &&& v.toNat)) s := rfl

theorem or_ok (v p : Int) (s : Machine) :
    or v p s = .ok (Int.ofNat (p.toNat ||| v.toNat)) s := rfl

theorem xor_ok (v p : Int) (s : Machine) :
    xor v p s = .ok (Int.ofNat (p.toNat ^^^ v.toNat)) s := rfl

theorem increase_ok (p : Int) (s : Machine) : increase p s = .ok (p + 1) s := rfl

theorem decrease_ok (p : Int) (s : Machine) : decrease p s = .ok (p - 1) s := rfl

theorem notOp_ok (p : Int) (s : Machine) : notOp p s = .ok (-(p + 1)) s := rfl

theorem rol_ok (p : Int) (s : Machine) :
    rol p s = .ok (2 * p + Int.fdiv p 0x80) s := rfl

theorem ror_ok (p : Int) (s : Machine) :
    ror p s = .ok (Int.tmod p 2 * 0x80 + Int.fdiv p 2) s := rfl

theorem shl_ok (p : Int) (s : Machine) : shl p s = .ok (2 * p) s := rfl

theorem shr_ok (p : Int) (s : Machine) : shr p s = .ok (Int.fdiv p 2) s := rfl

theorem divide_ok {v : Int} (p : Int) (s : Machine) (h : v ≠ 0) :
    divide v p s = .ok (Int.fdiv p v) s := by
  unfold divide
  rw [bind_ok (checkDivisor_ok s h), M_pure_apply]

theorem divide_err (p : Int) (s : Machine) :
    divide 0 p s = .error .DivideByZero s := by
  unfold divide
  rw [bind_err (checkDivisor_err s)]

theorem modulo_ok {v : Int} (p : Int) (s : Machine) (h : v ≠ 0) :
    modulo v p s = .ok (Int.tmod p v) s := by
  unfold modulo
  rw [bind_ok (checkDivisor_ok s h), M_pure_apply]

theorem modulo_err (p : Int) (s : Machine) :
    modulo 0 p s = .error .DivideByZero s := by
  unfold modulo
  rw [bind_err (checkDivisor_err s)]

/-- The flag rule exactly as the *amended* claim states it: with
`final_result = raw mod 256` (sign-normalised when raw is negative),
`overflow = (previous_value < 0x80) XOR (raw < 0x80)` — the XOR is taken
on the **raw** result, before the reduction to eight bits — `zero =
(final_result == 0)`, `sign = (final_result >= 0x80)` otherwise, and the
Interrupt flag unchanged.  Stated from the claim's words, to be compared
with `checkOperationResult`. -/
def amendedSr (raw previousValue : Int) (old : StatusRegister) : StatusRegister :=
  let finalResult := if raw > 0xff then raw % 0x100 else unsign8 raw
  { zero := decide (finalResult = 0)
    overflow := decide (Xor' (previousValue < 0x80) (raw < 0x80))
    sign := decide (¬finalResult = 0 ∧ finalResult ≥ 0x80)
    interrupt := old.interrupt }

/-- The flag rule exactly as the claim (and the spec) states it: the
overflow XOR is taken on the **final** (mod-256, sign-normalised)
result.  Stated from the claim's words, to be compared with
`checkOperationResult`. -/
def specSr (raw previousValue : Int) (old : StatusRegister) : StatusRegister :=
  let finalResult := if raw > 0xff then raw % 0x100 else unsign8 raw
  { zero := decide (finalResult = 0)
    overflow := decide (Xor' (previousValue < 0x80) (finalResult < 0x80))
    sign := decide (¬finalResult = 0 ∧ finalResult ≥ 0x80)
    interrupt := old.interrupt }

/-- The status register any arithmetic write-back (or CMP) commits is
exactly the amended rule's: `checkOperationResult` compares the previous
value against the raw result, and the three-flag `setSr` keeps the
Interrupt flag. -/
theorem srWithFlags_eq_amended (raw previousValue : Int) (old : StatusRegister) :
    srWithFlags (checkOperationResult raw previousValue).2 old =
      amendedSr raw previousValue old := by
  unfold srWithFlags checkOperationResult amendedSr
  simp only [StatusRegister.mk.injEq, true_and, and_true]
  rw [decide_eq_decide]
  simp only [Xor']
  omega

/-!
## Step characterisation of the arithmetic instruction shapes
-/

/-- One full step of a `*_REG_*_REG` binary arithmetic instruction whose
operation returns `raw` on the two register values. -/
theorem step_binary_reg_shape (m : Machine) (op : Opcode) (f : Int → Int → M Int)
    (raw : Int)
    (hexec : execOp false op = execBinaryRegArith f)
    (htrap : (m.sig.input.interrupt && m.reg.sr.interrupt) = false)
    (hop : decodeOp (m.mem m.reg.ip) = some op)
    (hip : m.reg.ip + 3 ≤ 0xff)
    (hb1 : 0 ≤ m.mem (m.reg.ip + 1) ∧ m.mem (m.reg.ip + 1) ≤ 3)
    (hb2 : 0 ≤ m.mem (m.reg.ip + 2) ∧ m.mem (m.reg.ip + 2) ≤ 3)
    (hf : ∀ s : Machine, f (m.reg.gpr (regIndex (m.mem (m.reg.ip + 2))))
            (m.reg.gpr (regIndex (m.mem (m.reg.ip + 1)))) s = .ok raw s) :
    step m = .ok { m with reg := { m.reg with
      gpr := Function.update m.reg.gpr (regIndex (m.mem (m.reg.ip + 1)))
        (checkOperationResult raw (m.reg.gpr (regIndex (m.mem (m.reg.ip + 1))))).1
      ip := m.reg.ip + 3
      sr := srWithFlags
        (checkOperationResult raw (m.reg.gpr (regIndex (m.mem (m.reg.ip + 1))))).2
        m.reg.sr } } := by
  apply step_of_body_ok
  rw [stepBody_apply, htrap, dispatch_no_trap hop, hexec]
  unfold execBinaryRegArith
  rw [bind_ok (incIp_ok 1 m (by omega)), bind_ok (loadFromMemory_apply _ _),
    bind_ok (checkGpr_ok _ (by exact hb1)),
    bind_ok (incIp_ok 1 _ (by show m.reg.ip + 1 + 1 ≤ 0xff; omega))]
  rw [show m.reg.ip + 1 + 1 = m.reg.ip + 2 from by omega]
  rw [bind_ok (loadFromMemory_apply _ _), bind_ok (checkGpr_ok _ (by exact hb2)),
    bind_ok (getGpr_apply _ _), bind_ok (getGpr_apply _ _),
    bind_ok (operate2_ok (by exact hf _)), bind_ok (setGpr_apply _ _ _),
    bind_ok (incIp_ok 1 _ (by show m.reg.ip + 2 + 1 ≤ 0xff; omega))]
  rw [show m.reg.ip + 2 + 1 = m.reg.ip + 3 from by omega]
  rw [pure_apply]

/-- One full step of a `*_NUM_*` immediate arithmetic instruction whose
operation returns `raw` on the literal byte and the register value. -/
theorem step_binary_num_shape (m : Machine) (op : Opcode) (f : Int → Int → M Int)
    (raw : Int)
    (hexec : execOp false op = execBinaryNumArith f)
    (htrap : (m.sig.input.interrupt && m.reg.sr.interrupt) = false)
    (hop : decodeOp (m.mem m.reg.ip) = some op)
    (hip : m.reg.ip + 3 ≤ 0xff)
    (hb1 : 0 ≤ m.mem (m.reg.ip + 1) ∧ m.mem (m.reg.ip + 1) ≤ 3)
    (hf : ∀ s : Machine, f (m.mem (m.reg.ip + 2))
            (m.reg.gpr (regIndex (m.mem (m.reg.ip + 1)))) s = .ok raw s) :
    step m = .ok { m with reg := { m.reg with
      gpr := Function.update m.reg.gpr (regIndex (m.mem (m.reg.ip + 1)))
        (checkOperationResult raw (m.reg.gpr (regIndex (m.mem (m.reg.ip + 1))))).1
      ip := m.reg.ip + 3
      sr := srWithFlags
        (checkOperationResult raw (m.reg.gpr (regIndex (m.mem (m.reg.ip + 1))))).2
        m.reg.sr } } := by
  apply step_of_body_ok
  rw [stepBody_apply, htrap, dispatch_no_trap hop, hexec]
  unfold execBinaryNumArith
  rw [bind_ok (incIp_ok 1 m (by omega)), bind_ok (loadFromMemory_apply _ _),
    bind_ok (checkGpr_ok _ (by exact hb1)),
    bind_ok (incIp_ok 1 _ (by show m.reg.ip + 1 + 1 ≤ 0xff; omega))]
  rw [show m.reg.ip + 1 + 1 = m.reg.ip + 2 from by omega]
  rw [bind_ok (loadFromMemory_apply _ _), bind_ok (getGpr_apply _ _),
    bind_ok (operate2_ok (by exact hf _)), bind_ok (setGpr_apply _ _ _),
    bind_ok (incIp_ok 1 _ (by show m.reg.ip + 2 + 1 ≤ 0xff; omega))]
  rw [show m.reg.ip + 2 + 1 = m.reg.ip + 3 from by omega]
  rw [pure_apply]

/-- One full step of a unary arithmetic instruction
(`INC`/`DEC`/`NOT`/`ROL`/`ROR`/`SHL`/`SHR`). -/
theorem step_unary_shape (m : Machine) (op : Opcode) (f : Int → M Int) (raw : Int)
    (hexec : execOp false op = execUnaryArith f)
    (htrap : (m.sig.input.interrupt && m.reg.sr.interrupt) = false)
    (hop : decodeOp (m.mem m.reg.ip) = some op)
    (hip : m.reg.ip + 2 ≤ 0xff)
    (hb1 : 0 ≤ m.mem (m.reg.ip + 1) ∧ m.mem (m.reg.ip + 1) ≤ 3)
    (hf : ∀ s : Machine,
      f (m.reg.gpr (regIndex (m.mem (m.reg.ip + 1)))) s = .ok raw s) :
    step m = .ok { m with reg := { m.reg with
      gpr := Function.update m.reg.gpr (regIndex (m.mem (m.reg.ip + 1)))
        (checkOperationResult raw (m.reg.gpr (regIndex (m.mem (m.reg.ip + 1))))).1
      ip := m.reg.ip + 2
      sr := srWithFlags
        (checkOperationResult raw (m.reg.gpr (regIndex (m.mem (m.reg.ip + 1))))).2
        m.reg.sr } } := by
  apply step_of_body_ok
  rw [stepBody_apply, htrap, dispatch_no_trap hop, hexec]
  unfold execUnaryArith
  rw [bind_ok (incIp_ok 1 m (by omega)), bind_ok (loadFromMemory_apply _ _),
    bind_ok (checkGpr_ok _ (by exact hb1)), bind_ok (getGpr_apply _ _),
    bind_ok (operate1_ok (by exact hf _)), bind_ok (setGpr_apply _ _ _),
    bind_ok (incIp_ok 1 _ (by show m.reg.ip + 1 + 1 ≤ 0xff; omega))]
  rw [show m.reg.ip + 1 + 1 = m.reg.ip + 2 from by omega]
  rw [pure_apply]

/-- One full step of `CMP_REG_WITH_REG`: flags as in subtract, no
write-back. -/
theorem step_cmp_reg_reg (m : Machine)
    (htrap : (m.sig.input.interrupt && m.reg.sr.interrupt) = false)
    (hop : decodeOp (m.mem m.reg.ip) = some .CMP_REG_WITH_REG)
    (hip : m.reg.ip + 3 ≤ 0xff)
    (hb1 : 0 ≤ m.mem (m.reg.ip + 1) ∧ m.mem (m.reg.ip + 1) ≤ 3)
    (hb2 : 0 ≤ m.mem (m.reg.ip + 2) ∧ m.mem (m.reg.ip + 2) ≤ 3) :
    step m = .ok { m with reg := { m.reg with
      ip := m.reg.ip + 3
      sr := srWithFlags
        (checkOperationResult
          (m.reg.gpr (regIndex (m.mem (m.reg.ip + 1))) -
            m.reg.gpr (regIndex (m.mem (m.reg.ip + 2))))
          (m.reg.gpr (regIndex (m.mem (m.reg.ip + 1))))).2
        m.reg.sr } } := by
  apply step_of_body_ok
  rw [stepBody_apply, htrap, dispatch_no_trap hop]
  show execCmpRegWithReg m = _
  unfold execCmpRegWithReg
  rw [bind_ok (incIp_ok 1 m (by omega)), bind_ok (loadFromMemory_apply _ _),
    bind_ok (checkGpr_ok _ (by exact hb1)),
    bind_ok (incIp_ok 1 _ (by show m.reg.ip + 1 + 1 ≤ 0xff; omega))]
  rw [show m.reg.ip + 1 + 1 = m.reg.ip + 2 from by omega]
  rw [bind_ok (loadFromMemory_apply _ _), bind_ok (checkGpr_ok _ (by exact hb2)),
    bind_ok (getGpr_apply _ _), bind_ok (getGpr_apply _ _),
    bind_ok (getGpr_apply _ _)]
  rw [bind_ok (setSrFlags_apply2 _ _),
    bind_ok (incIp_ok 1 _ (by show m.reg.ip + 2 + 1 ≤ 0xff; omega))]
  rw [show m.reg.ip + 2 + 1 = m.reg.ip + 3 from by omega]
  rw [pure_apply]

/-- One full step of `CMP_REG_WITH_NUM`. -/
theorem step_cmp_reg_num (m : Machine)
    (htrap : (m.sig.input.interrupt && m.reg.sr.interrupt) = false)
    (hop : decodeOp (m.mem m.reg.ip) = some .CMP_REG_WITH_NUM)
    (hip : m.reg.ip + 3 ≤ 0xff)
    (hb1 : 0 ≤ m.mem (m.reg.ip + 1) ∧ m.mem (m.reg.ip + 1) ≤ 3) :
    step m = .ok { m with reg := { m.reg with
      ip := m.reg.ip + 3
      sr := srWithFlags
        (checkOperationResult
          (m.reg.gpr (regIndex (m.mem (m.reg.ip + 1))) - m.mem (m.reg.ip + 2))
          (m.reg.gpr (regIndex (m.mem (m.reg.ip + 1))))).2
        m.reg.sr } } := by
  apply step_of_body_ok
  rw [stepBody_apply, htrap, dispatch_no_trap hop]
  show execCmpRegWithNum m = _
  unfold execCmpRegWithNum
  rw [bind_ok (incIp_ok 1 m (by omega)), bind_ok (loadFromMemory_apply _ _),
    bind_ok (checkGpr_ok _ (by exact hb1)),
    bind_ok (incIp_ok 1 _ (by show m.reg.ip + 1 + 1 ≤ 0xff; omega))]
  rw [show m.reg.ip + 1 + 1 = m.reg.ip + 2 from by omega]
  rw [bind_ok (loadFromMemory_apply _ _), bind_ok (getGpr_apply _ _),
    bind_ok (getGpr_apply _ _)]
  rw [bind_ok (setSrFlags_apply2 _ _),
    bind_ok (incIp_ok 1 _ (by show m.reg.ip + 2 + 1 ≤ 0xff; omega))]
  rw [show m.reg.ip + 2 + 1 = m.reg.ip + 3 from by omega]
  rw [pure_apply]

/-- One full step of `CMP_REG_WITH_ADDR`. -/
theorem step_cmp_reg_addr (m : Machine)
    (htrap : (m.sig.input.interrupt && m.reg.sr.interrupt) = false)
    (hop : decodeOp (m.mem m.reg.ip) = some .CMP_REG_WITH_ADDR)
    (hip : m.reg.ip + 3 ≤ 0xff)
    (hb1 : 0 ≤ m.mem (m.reg.ip + 1) ∧ m.mem (m.reg.ip + 1) ≤ 3) :
    step m = .ok { m with reg := { m.reg with
      ip := m.reg.ip + 3
      sr := srWithFlags
        (checkOperationResult
          (m.reg.gpr (regIndex (m.mem (m.reg.ip + 1))) -
            m.mem (m.mem (m.reg.ip + 2)))
          (m.reg.gpr (regIndex (m.mem (m.reg.ip + 1))))).2
        m.reg.sr } } := by
  apply step_of_body_ok
  rw [stepBody_apply, htrap, dispatch_no_trap hop]
  show execCmpRegWithAddr m = _
  unfold execCmpRegWithAddr
  rw [bind_ok (incIp_ok 1 m (by omega)), bind_ok (loadFromMemory_apply _ _),
    bind_ok (checkGpr_ok _ (by exact hb1)),
    bind_ok (incIp_ok 1 _ (by show m.reg.ip + 1 + 1 ≤ 0xff; omega))]
  rw [show m.reg.ip + 1 + 1 = m.reg.ip + 2 from by omega]
  rw [bind_ok (loadFromMemory_apply _ _), bind_ok (loadFromMemory_apply _ _),
    bind_ok (getGpr_apply _ _), bind_ok (getGpr_apply _ _)]
  rw [bind_ok (setSrFlags_apply2 _ _),
    bind_ok (incIp_ok 1 _ (by show m.reg.ip + 2 + 1 ≤ 0xff; omega))]
  rw [show m.reg.ip + 2 + 1 = m.reg.ip + 3 from by omega]
  rw [pure_apply]

/-!
## Claim C1: the arithmetic flag rule
-/

/-- The `*_REG_*_REG` write-back opcodes and their operations. -/
def binaryRegOps : List (Opcode × (Int → Int → M Int)) :=
  [(.ADD_REG_TO_REG, add), (.SUB_REG_FROM_REG, substract),
   (.MUL_REG_BY_REG, multiply), (.DIV_REG_BY_REG, divide),
   (.MOD_REG_BY_REG, modulo), (.AND_REG_WITH_REG, and),
   (.OR_REG_WITH_REG, or), (.XOR_REG_WITH_REG, xor)]

/-- The `*_NUM_*` write-back opcodes and their operations. -/
def binaryNumOps : List (Opcode × (Int → Int → M Int)) :=
  [(.ADD_NUM_TO_REG, add), (.SUB_NUM_FROM_REG, substract),
   (.MUL_REG_BY_NUM, multiply), (.DIV_REG_BY_NUM, divide),
   (.MOD_REG_BY_NUM, modulo), (.AND_REG_WITH_NUM, and),
   (.OR_REG_WITH_NUM, or), (.XOR_REG_WITH_NUM, xor)]

/-- The unary write-back opcodes and their operations. -/
def unaryOps : List (Opcode × (Int → M Int)) :=
  [(.INC_REG, increase), (.DEC_REG, decrease), (.NOT_REG, notOp),
   (.ROL_REG, rol), (.ROR_REG, ror), (.SHL_REG, shl), (.SHR_REG, shr)]

theorem binaryRegOps_exec : ∀ p ∈ binaryRegOps, execOp false p.1 = execBinaryRegArith p.2 := by
  intro p hp
  fin_cases hp <;> rfl

theorem binaryNumOps_exec : ∀ p ∈ binaryNumOps, execOp false p.1 = execBinaryNumArith p.2 := by
  intro p hp
  fin_cases hp <;> rfl

theorem unaryOps_exec : ∀ p ∈ unaryOps, execOp false p.1 = execUnaryArith p.2 := by
  intro p hp
  fin_cases hp <;> rfl

/-- The scenario B machine: `mov al, 80; add al, 80; end`. -/
def machineB : Machine := mkMachine [32, 0, 0x80, 17, 0, 0x80, 0]

/-- Counterexample to C1 as stated: the claim's flag rule — overflow
compares the previous value with the *final* mod-256 result — predicts
`overflow = true` for `0x80 + 0x80` (raw 0x100, final 0x00), and the
claim's own scenario asserts it.  But the code's `checkOperationResult`
compares against the *raw* result, so after `mov al, 80; add al, 80` the
machine has `AL = 0x00`, `zero = true`, `sign = false` and `overflow =
false`. -/
theorem arithmetic_flag_rule_counterexample :
    (specSr (0x80 + 0x80) 0x80
      { zero := false, overflow := false, sign := false
        interrupt := false }).overflow = true ∧
    ((step machineB).bind step).map
        (fun m2 => (m2.reg.gpr 0, m2.reg.sr.zero, m2.reg.sr.overflow, m2.reg.sr.sign)) =
      .ok (0, true, false, false) :=
  ⟨by decide, by rfl⟩

/-- C1 (amended): every write-back arithmetic instruction and every CMP
updates the status register by the flag rule with the overflow XOR taken
on the **raw** result (`overflow = (previous < 0x80) XOR (raw < 0x80)`),
final result reduced mod 256 with sign normalisation, `zero`/`sign`
computed on the final result, and the Interrupt flag left unchanged;
consequently after `mov al, 80; add al, 80` the machine has `AL = 0x00`,
`zero = true`, `overflow = false`, `sign = false`. -/
theorem arithmetic_flag_rule_amended :
    (∀ (raw previousValue : Int) (old : StatusRegister),
      srWithFlags (checkOperationResult raw previousValue).2 old =
        amendedSr raw previousValue old) ∧
    (∀ p ∈ binaryRegOps, ∀ (m : Machine) (raw : Int),
      (m.sig.input.interrupt && m.reg.sr.interrupt) = false →
      decodeOp (m.mem m.reg.ip) = some p.1 →
      m.reg.ip + 3 ≤ 0xff →
      0 ≤ m.mem (m.reg.ip + 1) ∧ m.mem (m.reg.ip + 1) ≤ 3 →
      0 ≤ m.mem (m.reg.ip + 2) ∧ m.mem (m.reg.ip + 2) ≤ 3 →
      (∀ s : Machine, p.2 (m.reg.gpr (regIndex (m.mem (m.reg.ip + 2))))
        (m.reg.gpr (regIndex (m.mem (m.reg.ip + 1)))) s = .ok raw s) →
      step m = .ok { m with reg := { m.reg with
        gpr := Function.update m.reg.gpr (regIndex (m.mem (m.reg.ip + 1)))
          (checkOperationResult raw (m.reg.gpr (regIndex (m.mem (m.reg.ip + 1))))).1
        ip := m.reg.ip + 3
        sr := amendedSr raw (m.reg.gpr (regIndex (m.mem (m.reg.ip + 1))))
          m.reg.sr } }) ∧
    (∀ p ∈ binaryNumOps, ∀ (m : Machine) (raw : Int),
      (m.sig.input.interrupt && m.reg.sr.interrupt) = false →
      decodeOp (m.mem m.reg.ip) = some p.1 →
      m.reg.ip + 3 ≤ 0xff →
      0 ≤ m.mem (m.reg.ip + 1) ∧ m.mem (m.reg.ip + 1) ≤ 3 →
      (∀ s : Machine, p.2 (m.mem (m.reg.ip + 2))
        (m.reg.gpr (regIndex (m.mem (m.reg.ip + 1)))) s = .ok raw s) →
      step m = .ok { m with reg := { m.reg with
        gpr := Function.update m.reg.gpr (regIndex (m.mem (m.reg.ip + 1)))
          (checkOperationResult raw (m.reg.gpr (regIndex (m.mem (m.reg.ip + 1))))).1
        ip := m.reg.ip + 3
        sr := amendedSr raw (m.reg.gpr (regIndex (m.mem (m.reg.ip + 1))))
          m.reg.sr } }) ∧
    (∀ p ∈ unaryOps, ∀ (m : Machine) (raw : Int),
      (m.sig.input.interrupt && m.reg.sr.interrupt) = false →
      decodeOp (m.mem m.reg.ip) = some p.1 →
      m.reg.ip + 2 ≤ 0xff →
      0 ≤ m.mem (m.reg.ip + 1) ∧ m.mem (m.reg.ip + 1) ≤ 3 →
      (∀ s : Machine,
        p.2 (m.reg.gpr (regIndex (m.mem (m.reg.ip + 1)))) s = .ok raw s) →
      step m = .ok { m with reg := { m.reg with
        gpr := Function.update m.reg.gpr (regIndex (m.mem (m.reg.ip + 1)))
          (checkOperationResult raw (m.reg.gpr (regIndex (m.mem (m.reg.ip + 1))))).1
        ip := m.reg.ip + 2
        sr := amendedSr raw (m.reg.gpr (regIndex (m.mem (m.reg.ip + 1))))
          m.reg.sr } }) ∧
    (∀ m : Machine,
      (m.sig.input.interrupt && m.reg.sr.interrupt) = false →
      decodeOp (m.mem m.reg.ip) = some .CMP_REG_WITH_REG →
      m.reg.ip + 3 ≤ 0xff →
      0 ≤ m.mem (m.reg.ip + 1) ∧ m.mem (m.reg.ip + 1) ≤ 3 →
      0 ≤ m.mem (m.reg.ip + 2) ∧ m.mem (m.reg.ip + 2) ≤ 3 →
      step m = .ok { m with reg := { m.reg with
        ip := m.reg.ip + 3
        sr := amendedSr
          (m.reg.gpr (regIndex (m.mem (m.reg.ip + 1))) -
            m.reg.gpr (regIndex (m.mem (m.reg.ip + 2))))
          (m.reg.gpr (regIndex (m.mem (m.reg.ip + 1)))) m.reg.sr } }) ∧
    (∀ m : Machine,
      (m.sig.input.interrupt && m.reg.sr.interrupt) = false →
      decodeOp (m.mem m.reg.ip) = some .CMP_REG_WITH_NUM →
      m.reg.ip + 3 ≤ 0xff →
      0 ≤ m.mem (m.reg.ip + 1) ∧ m.mem (m.reg.ip + 1) ≤ 3 →
      step m = .ok { m with reg := { m.reg with
        ip := m.reg.ip + 3
        sr := amendedSr
          (m.reg.gpr (regIndex (m.mem (m.reg.ip + 1))) - m.mem (m.reg.ip + 2))
          (m.reg.gpr (regIndex (m.mem (m.reg.ip + 1)))) m.reg.sr } }) ∧
    (∀ m : Machine,
      (m.sig.input.interrupt && m.reg.sr.interrupt) = false →
      decodeOp (m.mem m.reg.ip) = some .CMP_REG_WITH_ADDR →
      m.reg.ip + 3 ≤ 0xff →
      0 ≤ m.mem (m.reg.ip + 1) ∧ m.mem (m.reg.ip + 1) ≤ 3 →
      step m = .ok { m with reg := { m.reg with
        ip := m.reg.ip + 3
        sr := amendedSr
          (m.reg.gpr (regIndex (m.mem (m.reg.ip + 1))) - m.mem (m.mem (m.reg.ip + 2)))
          (m.reg.gpr (regIndex (m.mem (m.reg.ip + 1)))) m.reg.sr } }) ∧
    ((step machineB).bind step).map
        (fun m2 => (m2.reg.gpr 0, m2.reg.sr.zero, m2.reg.sr.overflow, m2.reg.sr.sign)) =
      .ok (0, true, false, false) := by
  refine ⟨srWithFlags_eq_amended, ?_, ?_, ?_, ?_, ?_, ?_, by rfl⟩
  · intro p hp m raw h1 h2 h3 h4 h5 hf
    rw [← srWithFlags_eq_amended]
    exact step_binary_reg_shape m p.1 p.2 raw (binaryRegOps_exec p hp) h1 h2 h3 h4 h5 hf
  · intro p hp m raw h1 h2 h3 h4 hf
    rw [← srWithFlags_eq_amended]
    exact step_binary_num_shape m p.1 p.2 raw (binaryNumOps_exec p hp) h1 h2 h3 h4 hf
  · intro p hp m raw h1 h2 h3 h4 hf
    rw [← srWithFlags_eq_amended]
    exact step_unary_shape m p.1 p.2 raw (unaryOps_exec p hp) h1 h2 h3 h4 hf
  · intro m h1 h2 h3 h4 h5
    rw [← srWithFlags_eq_amended]
    exact step_cmp_reg_reg m h1 h2 h3 h4 h5
  · intro m h1 h2 h3 h4
    rw [← srWithFlags_eq_amended]
    exact step_cmp_reg_num m h1 h2 h3 h4
  · intro m h1 h2 h3 h4
    rw [← srWithFlags_eq_amended]
    exact step_cmp_reg_addr m h1 h2 h3 h4

/-- A machine with `ADD AL, BL` at address 0 and `AL = BL = 0x80`. -/
def machineC1w : Machine :=
  { mkMachine [2, 0, 1, 0] with
    reg := { initRegisters with
             gpr := fun i => if i.val = 0 then 0x80 else if i.val = 1 then 0x80 else 0 } }

/-- Witness for the amended C1: `ADD AL, BL` with both registers at
`0x80` yields `AL = 0`, `zero = true`, `overflow = false` (raw 0x100 is
not below 0x80, like the previous value), `sign = false`, Interrupt flag
untouched. -/
theorem arithmetic_flag_rule_amended_witness :
    ∃ m1 : Machine, step machineC1w = .ok m1 ∧
      m1.reg.gpr 0 = 0 ∧ m1.reg.sr.zero = true ∧ m1.reg.sr.overflow = false ∧
      m1.reg.sr.sign = false ∧ m1.reg.sr.interrupt = machineC1w.reg.sr.interrupt :=
  ⟨_, arithmetic_flag_rule_amended.2.1 (.ADD_REG_TO_REG, add) (List.Mem.head _)
      machineC1w 0x100 rfl (by decide) (by decide) (by decide) (by decide)
      (fun s => rfl),
    by decide, by decide, by decide, by decide, by decide⟩

/-!
## Well-formed machines and register-file bounds (claims C2 and C10)
-/

/-- A well-formed machine, following the data model: each of the 256
memory cells (addresses `0..=0xFF`; the program memory is a 256-entry
array, so nothing is assumed about any other address), every
general-purpose register and `ip` hold a byte, `sp` is within the stack
region, and any pending input content is a byte
(`content : u8 | null`). -/
def WellFormed (m : Machine) : Prop :=
  (∀ a : Int, 0 ≤ a → a ≤ 0xff → 0 ≤ m.mem a ∧ m.mem a ≤ 0xff) ∧
  (∀ r : Fin 4, 0 ≤ m.reg.gpr r ∧ m.reg.gpr r ≤ 0xff) ∧
  (0 ≤ m.reg.ip ∧ m.reg.ip ≤ 0xff) ∧
  (0 ≤ m.reg.sp ∧ m.reg.sp ≤ MAX_SP) ∧
  (∀ c : Int, m.sig.input.data.content = some c → 0 ≤ c ∧ c ≤ 0xff)

/-- The register-file bounds a committed step re-establishes: `sp`
inside the stack region and byte-valued general-purpose registers,
unconditionally; and, whenever the instruction was fetched at
`ip ≤ 0xFE` (so that every operand fetch on a committed path lands
inside the 256-cell memory), `ip ∈ -128..=0x100` — a backward jump may
take `ip` below zero without any check, and the software-`INT` vector
load can observe the just-pushed `ip + 2` when the operand address
coincides with `sp`, reaching `0x100` at `ip = 0xFE`.  At `ip = 0xFF`
the unchecked operand fetches (`JMP`/`CALL`/`INT`) read the
out-of-array `memoryData[0x100]`, which is `undefined` in JavaScript,
so the committed `ip` is not a number and no numeric bound holds. -/
def RegBounds (m m1 : Machine) : Prop :=
  (m.reg.ip ≤ 0xfe → -0x80 ≤ m1.reg.ip ∧ m1.reg.ip ≤ 0x100) ∧
  (0 ≤ m1.reg.sp ∧ m1.reg.sp ≤ MAX_SP) ∧
  (∀ r : Fin 4, 0 ≤ m1.reg.gpr r ∧ m1.reg.gpr r ≤ 0xff)

/-- A committed step came from a successful body run on the same
machines. -/
theorem step_ok_inv {mach m1 : Machine} (h : step mach = .ok m1) :
    ∃ a, stepBody mach = .ok a m1 := by
  rcases hb : stepBody mach with ⟨a, s1⟩ | ⟨e1, s1⟩
  · unfold step at h
    rw [hb] at h
    injection h with he
    subst he
    exact ⟨a, rfl⟩
  · unfold step at h
    rw [hb] at h
    exact Except.noConfusion h

/-- Updating one register with a byte keeps the whole file byte-valued. -/
theorem gprBounds_update {g : Fin 4 → Int} {i : Fin 4} {v : Int}
    (hg : ∀ r, 0 ≤ g r ∧ g r ≤ 0xff) (hv : 0 ≤ v ∧ v ≤ 0xff) :
    ∀ r, 0 ≤ Function.update g i v r ∧ Function.update g i v r ≤ 0xff := by
  intro r
  by_cases h : r = i
  · subst h
    rw [Function.update_same]
    exact hv
  · rw [Function.update_noteq h]
    exact hg r

/-- A signed-8 view of a byte is within `-128..=127`. -/
theorem sign8_bounds {b : Int} (h1 : 0 ≤ b) (h2 : b ≤ 0xff) :
    -0x80 ≤ sign8 b ∧ sign8 b ≤ 0x7f := by
  unfold sign8
  split_ifs <;> omega

/-- The reduced result of `checkOperationResult` is a byte whenever the
raw result is at least `-0x100` (which every operation on byte operands
guarantees). -/
theorem checkOperationResult_bounds (raw previousValue : Int) (h : -0x100 ≤ raw) :
    0 ≤ (checkOperationResult raw previousValue).1 ∧
      (checkOperationResult raw previousValue).1 ≤ 0xff := by
  unfold checkOperationResult unsign8
  split_ifs <;> simp only [] <;> omega

/-- What a successful run of a binary operation on byte operands
guarantees: the state is untouched and the raw result is at least
`-0x100`. -/
def OkFact2 (f : Int → Int → M Int) : Prop :=
  ∀ (v p : Int) (s : Machine) (a : Int) (s1 : Machine),
    0 ≤ v → v ≤ 0xff → 0 ≤ p → p ≤ 0xff →
    f v p s = .ok a s1 → s1 = s ∧ -0x100 ≤ a

/-- Unary version of `OkFact2`. -/
def OkFact1 (f : Int → M Int) : Prop :=
  ∀ (p : Int) (s : Machine) (a : Int) (s1 : Machine),
    0 ≤ p → p ≤ 0xff →
    f p s = .ok a s1 → s1 = s ∧ -0x100 ≤ a

theorem add_fact : OkFact2 add := by
  intro v p s a s1 hv1 hv2 hp1 hp2 h
  rw [add_ok] at h
  injection h with h1 h2
  subst h2
  exact ⟨rfl, by omega⟩

theorem substract_fact : OkFact2 substract := by
  intro v p s a s1 hv1 hv2 hp1 hp2 h
  rw [substract_ok] at h
  injection h with h1 h2
  subst h2
  exact ⟨rfl, by omega⟩

theorem multiply_fact : OkFact2 multiply := by
  intro v p s a s1 hv1 hv2 hp1 hp2 h
  rw [multiply_ok] at h
  injection h with h1 h2
  subst h2
  refine ⟨rfl, ?_⟩
  have : 0 ≤ p * v := mul_nonneg hp1 hv1
  omega

theorem divide_fact : OkFact2 divide := by
  intro v p s a s1 hv1 hv2 hp1 hp2 h
  by_cases hv : v = 0
  · subst hv
    rw [divide_err] at h
    exact MResult.noConfusion h
  · rw [divide_ok _ _ hv] at h
    injection h with h1 h2
    subst h2
    refine ⟨rfl, ?_⟩
    have : 0 ≤ Int.fdiv p v := Int.fdiv_nonneg hp1 hv1
    omega

theorem modulo_fact : OkFact2 modulo := by
  intro v p s a s1 hv1 hv2 hp1 hp2 h
  by_cases hv : v = 0
  · subst hv
    rw [modulo_err] at h
    exact MResult.noConfusion h
  · rw [modulo_ok _ _ hv] at h
    injection h with h1 h2
    subst h2
    refine ⟨rfl, ?_⟩
    have : 0 ≤ Int.tmod p v := Int.tmod_nonneg v hp1
    omega

theorem and_fact : OkFact2 and := by
  intro v p s a s1 hv1 hv2 hp1 hp2 h
  rw [and_ok] at h
  injection h with h1 h2
  subst h2
  refine ⟨rfl, ?_⟩
  have : 0 ≤ Int.ofNat (p.toNat &&& v.toNat) := Int.ofNat_zero_le _
  omega

theorem or_fact : OkFact2 or := by
  intro v p s a s1 hv1 hv2 hp1 hp2 h
  rw [or_ok] at h
  injection h with h1 h2
  subst h2
  refine ⟨rfl, ?_⟩
  have : 0 ≤ Int.ofNat (p.toNat ||| v.toNat) := Int.ofNat_zero_le _
  omega

theorem xor_fact : OkFact2 xor := by
  intro v p s a s1 hv1 hv2 hp1 hp2 h
  rw [xor_ok] at h
  injection h with h1 h2
  subst h2
  refine ⟨rfl, ?_⟩
  have : 0 ≤ Int.ofNat (p.toNat ^^^ v.toNat) := Int.ofNat_zero_le _
  omega

theorem increase_fact : OkFact1 increase := by
  intro p s a s1 hp1 hp2 h
  rw [increase_ok] at h
  injection h with h1 h2
  subst h2
  exact ⟨rfl, by omega⟩

theorem decrease_fact : OkFact1 decrease := by
  intro p s a s1 hp1 hp2 h
  rw [decrease_ok] at h
  injection h with h1 h2
  subst h2
  exact ⟨rfl, by omega⟩

theorem notOp_fact : OkFact1 notOp := by
  intro p s a s1 hp1 hp2 h
  rw [notOp_ok] at h
  injection h with h1 h2
  subst h2
  exact ⟨rfl, by omega⟩

theorem rol_fact : OkFact1 rol := by
  intro p s a s1 hp1 hp2 h
  rw [rol_ok] at h
  injection h with h1 h2
  subst h2
  refine ⟨rfl, ?_⟩
  have : 0 ≤ Int.fdiv p 0x80 := Int.fdiv_nonneg hp1 (by norm_num)
  omega

theorem ror_fact : OkFact1 ror := by
  intro p s a s1 hp1 hp2 h
  rw [ror_ok] at h
  injection h with h1 h2
  subst h2
  refine ⟨rfl, ?_⟩
  have h3 : 0 ≤ Int.tmod p 2 := Int.tmod_nonneg 2 hp1
  have h4 : 0 ≤ Int.fdiv p 2 := Int.fdiv_nonneg hp1 (by norm_num)
  omega

theorem shl_fact : OkFact1 shl := by
  intro p s a s1 hp1 hp2 h
  rw [shl_ok] at h
  injection h with h1 h2
  subst h2
  exact ⟨rfl, by omega⟩

theorem shr_fact : OkFact1 shr := by
  intro p s a s1 hp1 hp2 h
  rw [shr_ok] at h
  injection h with h1 h2
  subst h2
  refine ⟨rfl, ?_⟩
  have : 0 ≤ Int.fdiv p 2 := Int.fdiv_nonneg hp1 (by norm_num)
  omega

/-!
## Register bounds per case block
-/

theorem regBounds_of_wf {m : Machine} (hwf : WellFormed m) : RegBounds m m := by
  obtain ⟨hmem, hgpr, hip, hsp, hcont⟩ := hwf
  exact ⟨fun hq => ⟨by omega, le_trans hip.2 (by norm_num)⟩, hsp, hgpr⟩

theorem execHalt_bounds (m : Machine) (hwf : WellFormed m) :
    ∀ (a : Unit) (m1 : Machine), execHalt m = .ok a m1 → RegBounds m m1 := by
  intro a m1 h
  injection h with h1 h2
  subst h2
  exact regBounds_of_wf hwf

theorem execNop_bounds (m : Machine) (hwf : WellFormed m) :
    ∀ (a : Unit) (m1 : Machine), execNop m = .ok a m1 → RegBounds m m1 := by
  intro a m1 h
  obtain ⟨hmem, hgpr, hip, hsp, hcont⟩ := hwf
  unfold execNop at h
  by_cases h1 : m.reg.ip + 1 ≤ 0xff
  · rw [bind_ok (incIp_ok 1 m h1), pure_apply] at h
    injection h with ha h2
    subst h2
    exact ⟨fun hq => ⟨(by omega : (-0x80 : Int) ≤ m.reg.ip + 1), le_trans h1 (by norm_num)⟩, hsp, hgpr⟩
  · rw [bind_err (incIp_err 1 m (by omega))] at h
    exact MResult.noConfusion h

theorem execSti_bounds (m : Machine) (hwf : WellFormed m) :
    ∀ (a : Unit) (m1 : Machine), execSti m = .ok a m1 → RegBounds m m1 := by
  intro a m1 h
  obtain ⟨hmem, hgpr, hip, hsp, hcont⟩ := hwf
  unfold execSti at h
  rw [bind_ok (setInterruptFlag_apply true m)] at h
  by_cases h1 : m.reg.ip + 1 ≤ 0xff
  · rw [bind_ok (incIp_ok 1 _ (by exact h1)), pure_apply] at h
    injection h with ha h2
    subst h2
    exact ⟨fun hq => ⟨(by omega : (-0x80 : Int) ≤ m.reg.ip + 1), le_trans h1 (by norm_num)⟩, hsp, hgpr⟩
  · rw [bind_err (incIp_err 1 _ (by exact (by omega : m.reg.ip + 1 > 0xff)))] at h
    exact MResult.noConfusion h

theorem execCli_bounds (m : Machine) (hwf : WellFormed m) :
    ∀ (a : Unit) (m1 : Machine), execCli m = .ok a m1 → RegBounds m m1 := by
  intro a m1 h
  obtain ⟨hmem, hgpr, hip, hsp, hcont⟩ := hwf
  unfold execCli at h
  rw [bind_ok (setInterruptFlag_apply false m)] at h
  by_cases h1 : m.reg.ip + 1 ≤ 0xff
  · rw [bind_ok (incIp_ok 1 _ (by exact h1)), pure_apply] at h
    injection h with ha h2
    subst h2
    exact ⟨fun hq => ⟨(by omega : (-0x80 : Int) ≤ m.reg.ip + 1), le_trans h1 (by norm_num)⟩, hsp, hgpr⟩
  · rw [bind_err (incIp_err 1 _ (by exact (by omega : m.reg.ip + 1 > 0xff)))] at h
    exact MResult.noConfusion h

theorem execClo_bounds (m : Machine) (hwf : WellFormed m) :
    ∀ (a : Unit) (m1 : Machine), execClo m = .ok a m1 → RegBounds m m1 := by
  intro a m1 h
  obtain ⟨hmem, hgpr, hip, hsp, hcont⟩ := hwf
  unfold execClo at h
  rw [bind_ok (setCloseWindowsSignal_apply m)] at h
  by_cases h1 : m.reg.ip + 1 ≤ 0xff
  · rw [bind_ok (incIp_ok 1 _ (by exact h1)), pure_apply] at h
    injection h with ha h2
    subst h2
    exact ⟨fun hq => ⟨(by omega : (-0x80 : Int) ≤ m.reg.ip + 1), le_trans h1 (by norm_num)⟩, hsp, hgpr⟩
  · rw [bind_err (incIp_err 1 _ (by exact (by omega : m.reg.ip + 1 > 0xff)))] at h
    exact MResult.noConfusion h

theorem execJump_bounds (condition : Machine → Bool) (m : Machine) (hwf : WellFormed m) :
    ∀ (a : Unit) (m1 : Machine), execJump condition m = .ok a m1 → RegBounds m m1 := by
  intro a m1 h
  obtain ⟨hmem, hgpr, hip, hsp, hcont⟩ := hwf
  unfold execJump at h
  rw [bind_ok (getNextIp_apply 1 m), bind_ok (loadFromMemory_apply _ _),
    bind_ok (getM_apply m)] at h
  by_cases h1 : m.reg.ip + (if condition m then sign8 (m.mem (m.reg.ip + 1)) else 2) ≤ 0xff
  · rw [bind_ok (incIp_ok _ m h1), pure_apply] at h
    injection h with ha h2
    subst h2
    refine ⟨fun hq => ?_, hsp, hgpr⟩
    have hd2 : -0x80 ≤ (if condition m then sign8 (m.mem (m.reg.ip + 1)) else 2) ∧
        (if condition m then sign8 (m.mem (m.reg.ip + 1)) else 2) ≤ 0x7f := by
      split_ifs
      · exact sign8_bounds (hmem (m.reg.ip + 1) (by omega) (by omega)).1
          (hmem (m.reg.ip + 1) (by omega) (by omega)).2
      · omega
    constructor
    · exact (by omega :
        (-0x80 : Int) ≤ m.reg.ip + (if condition m then sign8 (m.mem (m.reg.ip + 1)) else 2))
    · exact le_trans h1 (by norm_num)
  · rw [bind_err (incIp_err _ m (by omega))] at h
    exact MResult.noConfusion h

theorem execBinaryRegArith_bounds (f : Int → Int → M Int) (hfact : OkFact2 f)
    (m : Machine) (hwf : WellFormed m) :
    ∀ (a : Unit) (m1 : Machine), execBinaryRegArith f m = .ok a m1 → RegBounds m m1 := by
  intro a m1 h
  obtain ⟨hmem, hgpr, hip, hsp, hcont⟩ := hwf
  unfold execBinaryRegArith at h
  by_cases h1 : m.reg.ip + 1 ≤ 0xff
  · rw [bind_ok (incIp_ok 1 m h1), bind_ok (loadFromMemory_apply _ _)] at h
    by_cases hb1 : 0 ≤ m.mem (m.reg.ip + 1) ∧ m.mem (m.reg.ip + 1) ≤ 3
    · rw [bind_ok (checkGpr_ok _ (by exact hb1))] at h
      by_cases h2 : m.reg.ip + 1 + 1 ≤ 0xff
      · rw [bind_ok (incIp_ok 1 _ (by exact h2))] at h
        rw [show m.reg.ip + 1 + 1 = m.reg.ip + 2 from by omega] at h
        rw [bind_ok (loadFromMemory_apply _ _)] at h
        by_cases hb2 : 0 ≤ m.mem (m.reg.ip + 2) ∧ m.mem (m.reg.ip + 2) ≤ 3
        · rw [bind_ok (checkGpr_ok _ (by exact hb2)), bind_ok (getGpr_apply _ _),
            bind_ok (getGpr_apply _ _)] at h
          rcases hval : f (m.reg.gpr (regIndex (m.mem (m.reg.ip + 2))))
              (m.reg.gpr (regIndex (m.mem (m.reg.ip + 1))))
              { m with reg := { m.reg with ip := m.reg.ip + 2 } } with ⟨raw, s3⟩ | ⟨e, s3⟩
          · obtain ⟨hs3, hraw⟩ := hfact _ _ _ _ _ (hgpr _).1 (hgpr _).2 (hgpr _).1
              (hgpr _).2 hval
            subst hs3
            rw [bind_ok (operate2_ok (by exact hval)), bind_ok (setGpr_apply _ _ _)] at h
            by_cases h3 : m.reg.ip + 2 + 1 ≤ 0xff
            · rw [bind_ok (incIp_ok 1 _ (by exact h3)), pure_apply] at h
              injection h with ha h4
              subst h4
              refine ⟨fun hq => ⟨?_, ?_⟩, hsp, ?_⟩
              · exact (by omega : (-0x80 : Int) ≤ m.reg.ip + 2 + 1)
              · exact le_trans h3 (by norm_num)
              · exact gprBounds_update hgpr (checkOperationResult_bounds _ _ hraw)
            · rw [bind_err (incIp_err 1 _
                  (by exact (by omega : m.reg.ip + 2 + 1 > 0xff)))] at h
              exact MResult.noConfusion h
          · rw [bind_err (by exact (show operate2 f _ _ _ = .error e s3 from by
              unfold operate2; rw [bind_err hval]))] at h
            exact MResult.noConfusion h
        · rw [bind_err (checkGpr_err _ hb2)] at h
          exact MResult.noConfusion h
      · rw [bind_err (incIp_err 1 _
            (by exact (by omega : m.reg.ip + 1 + 1 > 0xff)))] at h
        exact MResult.noConfusion h
    · rw [bind_err (checkGpr_err _ hb1)] at h
      exact MResult.noConfusion h
  · rw [bind_err (incIp_err 1 m (by omega))] at h
    exact MResult.noConfusion h

theorem execBinaryNumArith_bounds (f : Int → Int → M Int) (hfact : OkFact2 f)
    (m : Machine) (hwf : WellFormed m) :
    ∀ (a : Unit) (m1 : Machine), execBinaryNumArith f m = .ok a m1 → RegBounds m m1 := by
  intro a m1 h
  obtain ⟨hmem, hgpr, hip, hsp, hcont⟩ := hwf
  unfold execBinaryNumArith at h
  by_cases h1 : m.reg.ip + 1 ≤ 0xff
  · rw [bind_ok (incIp_ok 1 m h1), bind_ok (loadFromMemory_apply _ _)] at h
    by_cases hb1 : 0 ≤ m.mem (m.reg.ip + 1) ∧ m.mem (m.reg.ip + 1) ≤ 3
    · rw [bind_ok (checkGpr_ok _ (by exact hb1))] at h
      by_cases h2 : m.reg.ip + 1 + 1 ≤ 0xff
      · rw [bind_ok (incIp_ok 1 _ (by exact h2))] at h
        rw [show m.reg.ip + 1 + 1 = m.reg.ip + 2 from by omega] at h
        rw [bind_ok (loadFromMemory_apply _ _), bind_ok (getGpr_apply _ _)] at h
        rcases hval : f (m.mem (m.reg.ip + 2))
            (m.reg.gpr (regIndex (m.mem (m.reg.ip + 1))))
            { m with reg := { m.reg with ip := m.reg.ip + 2 } } with ⟨raw, s3⟩ | ⟨e, s3⟩
        · obtain ⟨hs3, hraw⟩ := hfact _ _ _ _ _
            (hmem (m.reg.ip + 2) (by omega) (by omega)).1
            (hmem (m.reg.ip + 2) (by omega) (by omega)).2 (hgpr _).1
            (hgpr _).2 hval
          subst hs3
          rw [bind_ok (operate2_ok (by exact hval)), bind_ok (setGpr_apply _ _ _)] at h
          by_cases h3 : m.reg.ip + 2 + 1 ≤ 0xff
          · rw [bind_ok (incIp_ok 1 _ (by exact h3)), pure_apply] at h
            injection h with ha h4
            subst h4
            refine ⟨fun hq => ⟨?_, ?_⟩, hsp, ?_⟩
            · exact (by omega : (-0x80 : Int) ≤ m.reg.ip + 2 + 1)
            · exact le_trans h3 (by norm_num)
            · exact gprBounds_update hgpr (checkOperationResult_bounds _ _ hraw)
          · rw [bind_err (incIp_err 1 _
                (by exact (by omega : m.reg.ip + 2 + 1 > 0xff)))] at h
            exact MResult.noConfusion h
        · rw [bind_err (by exact (show operate2 f _ _ _ = .error e s3 from by
            unfold operate2; rw [bind_err hval]))] at h
          exact MResult.noConfusion h
      · rw [bind_err (incIp_err 1 _
            (by exact (by omega : m.reg.ip + 1 + 1 > 0xff)))] at h
        exact MResult.noConfusion h
    · rw [bind_err (checkGpr_err _ hb1)] at h
      exact MResult.noConfusion h
  · rw [bind_err (incIp_err 1 m (by omega))] at h
    exact MResult.noConfusion h

theorem execUnaryArith_bounds (f : Int → M Int) (hfact : OkFact1 f)
    (m : Machine) (hwf : WellFormed m) :
    ∀ (a : Unit) (m1 : Machine), execUnaryArith f m = .ok a m1 → RegBounds m m1 := by
  intro a m1 h
  obtain ⟨hmem, hgpr, hip, hsp, hcont⟩ := hwf
  unfold execUnaryArith at h
  by_cases h1 : m.reg.ip + 1 ≤ 0xff
  · rw [bind_ok (incIp_ok 1 m h1), bind_ok (loadFromMemory_apply _ _)] at h
    by_cases hb1 : 0 ≤ m.mem (m.reg.ip + 1) ∧ m.mem (m.reg.ip + 1) ≤ 3
    · rw [bind_ok (checkGpr_ok _ (by exact hb1)), bind_ok (getGpr_apply _ _)] at h
      rcases hval : f (m.reg.gpr (regIndex (m.mem (m.reg.ip + 1))))
          { m with reg := { m.reg with ip := m.reg.ip + 1 } } with ⟨raw, s3⟩ | ⟨e, s3⟩
      · obtain ⟨hs3, hraw⟩ := hfact _ _ _ _ (hgpr _).1 (hgpr _).2 hval
        subst hs3
        rw [bind_ok (operate1_ok (by exact hval)), bind_ok (setGpr_apply _ _ _)] at h
        by_cases h3 : m.reg.ip + 1 + 1 ≤ 0xff
        · rw [bind_ok (incIp_ok 1 _ (by exact h3)), pure_apply] at h
          injection h with ha h4
          subst h4
          refine ⟨fun hq => ⟨?_, ?_⟩, hsp, ?_⟩
          · exact (by omega : (-0x80 : Int) ≤ m.reg.ip + 1 + 1)
          · exact le_trans h3 (by norm_num)
          · exact gprBounds_update hgpr (checkOperationResult_bounds _ _ hraw)
        · rw [bind_err (incIp_err 1 _
              (by exact (by omega : m.reg.ip + 1 + 1 > 0xff)))] at h
          exact MResult.noConfusion h
      · rw [bind_err (by exact (show operate1 f _ _ = .error e s3 from by
          unfold operate1; rw [bind_err hval]))] at h
        exact MResult.noConfusion h
    · rw [bind_err (checkGpr_err _ hb1)] at h
      exact MResult.noConfusion h
  · rw [bind_err (incIp_err 1 m (by omega))] at h
    exact MResult.noConfusion h

theorem execMovNumToReg_bounds (m : Machine) (hwf : WellFormed m) :
    ∀ (a : Unit) (m1 : Machine), execMovNumToReg m = .ok a m1 → RegBounds m m1 := by
  intro a m1 h
  obtain ⟨hmem, hgpr, hip, hsp, hcont⟩ := hwf
  unfold execMovNumToReg at h
  by_cases h1 : m.reg.ip + 1 ≤ 0xff
  · rw [bind_ok (incIp_ok 1 m h1), bind_ok (loadFromMemory_apply _ _)] at h
    by_cases hb1 : 0 ≤ m.mem (m.reg.ip + 1) ∧ m.mem (m.reg.ip + 1) ≤ 3
    · rw [bind_ok (checkGpr_ok _ (by exact hb1))] at h
      by_cases h2 : m.reg.ip + 1 + 1 ≤ 0xff
      · rw [bind_ok (incIp_ok 1 _ (by exact h2))] at h
        rw [show m.reg.ip + 1 + 1 = m.reg.ip + 2 from by omega] at h
        rw [bind_ok (loadFromMemory_apply _ _), bind_ok (setGpr_apply _ _ _)] at h
        by_cases h3 : m.reg.ip + 2 + 1 ≤ 0xff
        · rw [bind_ok (incIp_ok 1 _ (by exact h3)), pure_apply] at h
          injection h with ha h4
          subst h4
          refine ⟨fun hq => ⟨?_, ?_⟩, hsp, ?_⟩
          · exact (by omega : (-0x80 : Int) ≤ m.reg.ip + 2 + 1)
          · exact le_trans h3 (by norm_num)
          · exact gprBounds_update hgpr (hmem (m.reg.ip + 2) (by omega) (by omega))
        · rw [bind_err (incIp_err 1 _
              (by exact (by omega : m.reg.ip + 2 + 1 > 0xff)))] at h
          exact MResult.noConfusion h
      · rw [bind_err (incIp_err 1 _
            (by exact (by omega : m.reg.ip + 1 + 1 > 0xff)))] at h
        exact MResult.noConfusion h
    · rw [bind_err (checkGpr_err _ hb1)] at h
      exact MResult.noConfusion h
  · rw [bind_err (incIp_err 1 m (by omega))] at h
    exact MResult.noConfusion h

theorem execMovAddrToReg_bounds (m : Machine) (hwf : WellFormed m) :
    ∀ (a : Unit) (m1 : Machine), execMovAddrToReg m = .ok a m1 → RegBounds m m1 := by
  intro a m1 h
  obtain ⟨hmem, hgpr, hip, hsp, hcont⟩ := hwf
  unfold execMovAddrToReg at h
  by_cases h1 : m.reg.ip + 1 ≤ 0xff
  · rw [bind_ok (incIp_ok 1 m h1), bind_ok (loadFromMemory_apply _ _)] at h
    by_cases hb1 : 0 ≤ m.mem (m.reg.ip + 1) ∧ m.mem (m.reg.ip + 1) ≤ 3
    · rw [bind_ok (checkGpr_ok _ (by exact hb1))] at h
      by_cases h2 : m.reg.ip + 1 + 1 ≤ 0xff
      · rw [bind_ok (incIp_ok 1 _ (by exact h2))] at h
        rw [show m.reg.ip + 1 + 1 = m.reg.ip + 2 from by omega] at h
        rw [bind_ok (loadFromMemory_apply _ _), bind_ok (loadFromMemory_apply _ _),
          bind_ok (setGpr_apply _ _ _)] at h
        by_cases h3 : m.reg.ip + 2 + 1 ≤ 0xff
        · rw [bind_ok (incIp_ok 1 _ (by exact h3)), pure_apply] at h
          injection h with ha h4
          subst h4
          refine ⟨fun hq => ⟨?_, ?_⟩, hsp, ?_⟩
          · exact (by omega : (-0x80 : Int) ≤ m.reg.ip + 2 + 1)
          · exact le_trans h3 (by norm_num)
          · have hin := hmem (m.reg.ip + 2) (by omega) (by omega)
            exact gprBounds_update hgpr
              (hmem (m.mem (m.reg.ip + 2)) (by omega) (by omega))
        · rw [bind_err (incIp_err 1 _
              (by exact (by omega : m.reg.ip + 2 + 1 > 0xff)))] at h
          exact MResult.noConfusion h
      · rw [bind_err (incIp_err 1 _
            (by exact (by omega : m.reg.ip + 1 + 1 > 0xff)))] at h
        exact MResult.noConfusion h
    · rw [bind_err (checkGpr_err _ hb1)] at h
      exact MResult.noConfusion h
  · rw [bind_err (incIp_err 1 m (by omega))] at h
    exact MResult.noConfusion h

theorem execMovRegToAddr_bounds (m : Machine) (hwf : WellFormed m) :
    ∀ (a : Unit) (m1 : Machine), execMovRegToAddr m = .ok a m1 → RegBounds m m1 := by
  intro a m1 h
  obtain ⟨hmem, hgpr, hip, hsp, hcont⟩ := hwf
  unfold execMovRegToAddr at h
  by_cases h1 : m.reg.ip + 1 ≤ 0xff
  · rw [bind_ok (incIp_ok 1 m h1), bind_ok (loadFromMemory_apply _ _)] at h
    by_cases h2 : m.reg.ip + 1 + 1 ≤ 0xff
    · rw [bind_ok (incIp_ok 1 _ (by exact h2))] at h
      rw [show m.reg.ip + 1 + 1 = m.reg.ip + 2 from by omega] at h
      rw [bind_ok (loadFromMemory_apply _ _)] at h
      by_cases hb2 : 0 ≤ m.mem (m.reg.ip + 2) ∧ m.mem (m.reg.ip + 2) ≤ 3
      · rw [bind_ok (checkGpr_ok _ (by exact hb2)), bind_ok (getGpr_apply _ _),
          bind_ok (storeToMemory_apply _ _ _)] at h
        by_cases h3 : m.reg.ip + 2 + 1 ≤ 0xff
        · rw [bind_ok (incIp_ok 1 _ (by exact h3)), pure_apply] at h
          injection h with ha h4
          subst h4
          refine ⟨fun hq => ⟨?_, ?_⟩, hsp, hgpr⟩
          · exact (by omega : (-0x80 : Int) ≤ m.reg.ip + 2 + 1)
          · exact le_trans h3 (by norm_num)
        · rw [bind_err (incIp_err 1 _
              (by exact (by omega : m.reg.ip + 2 + 1 > 0xff)))] at h
          exact MResult.noConfusion h
      · rw [bind_err (checkGpr_err _ hb2)] at h
        exact MResult.noConfusion h
    · rw [bind_err (incIp_err 1 _
          (by exact (by omega : m.reg.ip + 1 + 1 > 0xff)))] at h
      exact MResult.noConfusion h
  · rw [bind_err (incIp_err 1 m (by omega))] at h
    exact MResult.noConfusion h

theorem execMovRegAddrToReg_bounds (m : Machine) (hwf : WellFormed m) :
    ∀ (a : Unit) (m1 : Machine), execMovRegAddrToReg m = .ok a m1 → RegBounds m m1 := by
  intro a m1 h
  obtain ⟨hmem, hgpr, hip, hsp, hcont⟩ := hwf
  unfold execMovRegAddrToReg at h
  by_cases h1 : m.reg.ip + 1 ≤ 0xff
  · rw [bind_ok (incIp_ok 1 m h1), bind_ok (loadFromMemory_apply _ _)] at h
    by_cases hb1 : 0 ≤ m.mem (m.reg.ip + 1) ∧ m.mem (m.reg.ip + 1) ≤ 3
    · rw [bind_ok (checkGpr_ok _ (by exact hb1))] at h
      by_cases h2 : m.reg.ip + 1 + 1 ≤ 0xff
      · rw [bind_ok (incIp_ok 1 _ (by exact h2))] at h
        rw [show m.reg.ip + 1 + 1 = m.reg.ip + 2 from by omega] at h
        rw [bind_ok (loadFromMemory_apply _ _)] at h
        by_cases hb2 : 0 ≤ m.mem (m.reg.ip + 2) ∧ m.mem (m.reg.ip + 2) ≤ 3
        · rw [bind_ok (checkGpr_ok _ (by exact hb2)), bind_ok (getGpr_apply _ _),
            bind_ok (loadFromMemory_apply _ _), bind_ok (setGpr_apply _ _ _)] at h
          by_cases h3 : m.reg.ip + 2 + 1 ≤ 0xff
          · rw [bind_ok (incIp_ok 1 _ (by exact h3)), pure_apply] at h
            injection h with ha h4
            subst h4
            refine ⟨fun hq => ⟨?_, ?_⟩, hsp, ?_⟩
            · exact (by omega : (-0x80 : Int) ≤ m.reg.ip + 2 + 1)
            · exact le_trans h3 (by norm_num)
            · exact gprBounds_update hgpr
                (hmem (m.reg.gpr (regIndex (m.mem (m.reg.ip + 2)))) (hgpr _).1 (hgpr _).2)
          · rw [bind_err (incIp_err 1 _
                (by exact (by omega : m.reg.ip + 2 + 1 > 0xff)))] at h
            exact MResult.noConfusion h
        · rw [bind_err (checkGpr_err _ hb2)] at h
          exact MResult.noConfusion h
      · rw [bind_err (incIp_err 1 _
            (by exact (by omega : m.reg.ip + 1 + 1 > 0xff)))] at h
        exact MResult.noConfusion h
    · rw [bind_err (checkGpr_err _ hb1)] at h
      exact MResult.noConfusion h
  · rw [bind_err (incIp_err 1 m (by omega))] at h
    exact MResult.noConfusion h

theorem execMovRegToRegAddr_bounds (m : Machine) (hwf : WellFormed m) :
    ∀ (a : Unit) (m1 : Machine), execMovRegToRegAddr m = .ok a m1 → RegBounds m m1 := by
  intro a m1 h
  obtain ⟨hmem, hgpr, hip, hsp, hcont⟩ := hwf
  unfold execMovRegToRegAddr at h
  by_cases h1 : m.reg.ip + 1 ≤ 0xff
  · rw [bind_ok (incIp_ok 1 m h1), bind_ok (loadFromMemory_apply _ _)] at h
    by_cases hb1 : 0 ≤ m.mem (m.reg.ip + 1) ∧ m.mem (m.reg.ip + 1) ≤ 3
    · rw [bind_ok (checkGpr_ok _ (by exact hb1))] at h
      by_cases h2 : m.reg.ip + 1 + 1 ≤ 0xff
      · rw [bind_ok (incIp_ok 1 _ (by exact h2))] at h
        rw [show m.reg.ip + 1 + 1 = m.reg.ip + 2 from by omega] at h
        rw [bind_ok (loadFromMemory_apply _ _)] at h
        by_cases hb2 : 0 ≤ m.mem (m.reg.ip + 2) ∧ m.mem (m.reg.ip + 2) ≤ 3
        · rw [bind_ok (checkGpr_ok _ (by exact hb2)), bind_ok (getGpr_apply _ _),
            bind_ok (getGpr_apply _ _), bind_ok (storeToMemory_apply _ _ _)] at h
          by_cases h3 : m.reg.ip + 2 + 1 ≤ 0xff
          · rw [bind_ok (incIp_ok 1 _ (by exact h3)), pure_apply] at h
            injection h with ha h4
            subst h4
            refine ⟨fun hq => ⟨?_, ?_⟩, hsp, hgpr⟩
            · exact (by omega : (-0x80 : Int) ≤ m.reg.ip + 2 + 1)
            · exact le_trans h3 (by norm_num)
          · rw [bind_err (incIp_err 1 _
                (by exact (by omega : m.reg.ip + 2 + 1 > 0xff)))] at h
            exact MResult.noConfusion h
        · rw [bind_err (checkGpr_err _ hb2)] at h
          exact MResult.noConfusion h
      · rw [bind_err (incIp_err 1 _
            (by exact (by omega : m.reg.ip + 1 + 1 > 0xff)))] at h
        exact MResult.noConfusion h
    · rw [bind_err (checkGpr_err _ hb1)] at h
      exact MResult.noConfusion h
  · rw [bind_err (incIp_err 1 m (by omega))] at h
    exact MResult.noConfusion h

theorem execCmpRegWithReg_bounds (m : Machine) (hwf : WellFormed m) :
    ∀ (a : Unit) (m1 : Machine), execCmpRegWithReg m = .ok a m1 → RegBounds m m1 := by
  intro a m1 h
  obtain ⟨hmem, hgpr, hip, hsp, hcont⟩ := hwf
  unfold execCmpRegWithReg at h
  by_cases h1 : m.reg.ip + 1 ≤ 0xff
  · rw [bind_ok (incIp_ok 1 m h1), bind_ok (loadFromMemory_apply _ _)] at h
    by_cases hb1 : 0 ≤ m.mem (m.reg.ip + 1) ∧ m.mem (m.reg.ip + 1) ≤ 3
    · rw [bind_ok (checkGpr_ok _ (by exact hb1))] at h
      by_cases h2 : m.reg.ip + 1 + 1 ≤ 0xff
      · rw [bind_ok (incIp_ok 1 _ (by exact h2))] at h
        rw [show m.reg.ip + 1 + 1 = m.reg.ip + 2 from by omega] at h
        rw [bind_ok (loadFromMemory_apply _ _)] at h
        by_cases hb2 : 0 ≤ m.mem (m.reg.ip + 2) ∧ m.mem (m.reg.ip + 2) ≤ 3
        · rw [bind_ok (checkGpr_ok _ (by exact hb2)), bind_ok (getGpr_apply _ _),
            bind_ok (getGpr_apply _ _), bind_ok (getGpr_apply _ _),
            bind_ok (setSrFlags_apply2 _ _)] at h
          by_cases h3 : m.reg.ip + 2 + 1 ≤ 0xff
          · rw [bind_ok (incIp_ok 1 _ (by exact h3)), pure_apply] at h
            injection h with ha h4
            subst h4
            refine ⟨fun hq => ⟨?_, ?_⟩, hsp, hgpr⟩
            · exact (by omega : (-0x80 : Int) ≤ m.reg.ip + 2 + 1)
            · exact le_trans h3 (by norm_num)
          · rw [bind_err (incIp_err 1 _
                (by exact (by omega : m.reg.ip + 2 + 1 > 0xff)))] at h
            exact MResult.noConfusion h
        · rw [bind_err (checkGpr_err _ hb2)] at h
          exact MResult.noConfusion h
      · rw [bind_err (incIp_err 1 _
            (by exact (by omega : m.reg.ip + 1 + 1 > 0xff)))] at h
        exact MResult.noConfusion h
    · rw [bind_err (checkGpr_err _ hb1)] at h
      exact MResult.noConfusion h
  · rw [bind_err (incIp_err 1 m (by omega))] at h
    exact MResult.noConfusion h

theorem execCmpRegWithNum_bounds (m : Machine) (hwf : WellFormed m) :
    ∀ (a : Unit) (m1 : Machine), execCmpRegWithNum m = .ok a m1 → RegBounds m m1 := by
  intro a m1 h
  obtain ⟨hmem, hgpr, hip, hsp, hcont⟩ := hwf
  unfold execCmpRegWithNum at h
  by_cases h1 : m.reg.ip + 1 ≤ 0xff
  · rw [bind_ok (incIp_ok 1 m h1), bind_ok (loadFromMemory_apply _ _)] at h
    by_cases hb1 : 0 ≤ m.mem (m.reg.ip + 1) ∧ m.mem (m.reg.ip + 1) ≤ 3
    · rw [bind_ok (checkGpr_ok _ (by exact hb1))] at h
      by_cases h2 : m.reg.ip + 1 + 1 ≤ 0xff
      · rw [bind_ok (incIp_ok 1 _ (by exact h2))] at h
        rw [show m.reg.ip + 1 + 1 = m.reg.ip + 2 from by omega] at h
        rw [bind_ok (loadFromMemory_apply _ _), bind_ok (getGpr_apply _ _),
          bind_ok (getGpr_apply _ _), bind_ok (setSrFlags_apply2 _ _)] at h
        by_cases h3 : m.reg.ip + 2 + 1 ≤ 0xff
        · rw [bind_ok (incIp_ok 1 _ (by exact h3)), pure_apply] at h
          injection h with ha h4
          subst h4
          refine ⟨fun hq => ⟨?_, ?_⟩, hsp, hgpr⟩
          · exact (by omega : (-0x80 : Int) ≤ m.reg.ip + 2 + 1)
          · exact le_trans h3 (by norm_num)
        · rw [bind_err (incIp_err 1 _
              (by exact (by omega : m.reg.ip + 2 + 1 > 0xff)))] at h
          exact MResult.noConfusion h
      · rw [bind_err (incIp_err 1 _
            (by exact (by omega : m.reg.ip + 1 + 1 > 0xff)))] at h
        exact MResult.noConfusion h
    · rw [bind_err (checkGpr_err _ hb1)] at h
      exact MResult.noConfusion h
  · rw [bind_err (incIp_err 1 m (by omega))] at h
    exact MResult.noConfusion h

theorem execCmpRegWithAddr_bounds (m : Machine) (hwf : WellFormed m) :
    ∀ (a : Unit) (m1 : Machine), execCmpRegWithAddr m = .ok a m1 → RegBounds m m1 := by
  intro a m1 h
  obtain ⟨hmem, hgpr, hip, hsp, hcont⟩ := hwf
  unfold execCmpRegWithAddr at h
  by_cases h1 : m.reg.ip + 1 ≤ 0xff
  · rw [bind_ok (incIp_ok 1 m h1), bind_ok (loadFromMemory_apply _ _)] at h
    by_cases hb1 : 0 ≤ m.mem (m.reg.ip + 1) ∧ m.mem (m.reg.ip + 1) ≤ 3
    · rw [bind_ok (checkGpr_ok _ (by exact hb1))] at h
      by_cases h2 : m.reg.ip + 1 + 1 ≤ 0xff
      · rw [bind_ok (incIp_ok 1 _ (by exact h2))] at h
        rw [show m.reg.ip + 1 + 1 = m.reg.ip + 2 from by omega] at h
        rw [bind_ok (loadFromMemory_apply _ _), bind_ok (loadFromMemory_apply _ _),
          bind_ok (getGpr_apply _ _), bind_ok (getGpr_apply _ _),
          bind_ok (setSrFlags_apply2 _ _)] at h
        by_cases h3 : m.reg.ip + 2 + 1 ≤ 0xff
        · rw [bind_ok (incIp_ok 1 _ (by exact h3)), pure_apply] at h
          injection h with ha h4
          subst h4
          refine ⟨fun hq => ⟨?_, ?_⟩, hsp, hgpr⟩
          · exact (by omega : (-0x80 : Int) ≤ m.reg.ip + 2 + 1)
          · exact le_trans h3 (by norm_num)
        · rw [bind_err (incIp_err 1 _
              (by exact (by omega : m.reg.ip + 2 + 1 > 0xff)))] at h
          exact MResult.noConfusion h
      · rw [bind_err (incIp_err 1 _
            (by exact (by omega : m.reg.ip + 1 + 1 > 0xff)))] at h
        exact MResult.noConfusion h
    · rw [bind_err (checkGpr_err _ hb1)] at h
      exact MResult.noConfusion h
  · rw [bind_err (incIp_err 1 m (by omega))] at h
    exact MResult.noConfusion h

theorem execPushFromReg_bounds (m : Machine) (hwf : WellFormed m) :
    ∀ (a : Unit) (m1 : Machine), execPushFromReg m = .ok a m1 → RegBounds m m1 := by
  intro a m1 h
  obtain ⟨hmem, hgpr, hip, hsp, hcont⟩ := hwf
  unfold execPushFromReg at h
  by_cases h1 : m.reg.ip + 1 ≤ 0xff
  · rw [bind_ok (incIp_ok 1 m h1), bind_ok (loadFromMemory_apply _ _)] at h
    by_cases hb1 : 0 ≤ m.mem (m.reg.ip + 1) ∧ m.mem (m.reg.ip + 1) ≤ 3
    · rw [bind_ok (checkGpr_ok _ (by exact hb1)), bind_ok (getGpr_apply _ _)] at h
      by_cases hsp0 : m.reg.sp = 0
      · rw [bind_err (push_overflow _ _ (by exact (by omega : m.reg.sp - 1 < 0)))] at h
        exact MResult.noConfusion h
      · rw [bind_ok (push_ok _ _ (by exact ⟨(by omega : (1 : Int) ≤ m.reg.sp),
          (by omega : m.reg.sp ≤ MAX_SP + 1)⟩))] at h
        by_cases h2 : m.reg.ip + 1 + 1 ≤ 0xff
        · rw [bind_ok (incIp_ok 1 _ (by exact h2)), pure_apply] at h
          injection h with ha h4
          subst h4
          refine ⟨fun hq => ⟨?_, ?_⟩, ⟨?_, ?_⟩, hgpr⟩
          · exact (by omega : (-0x80 : Int) ≤ m.reg.ip + 1 + 1)
          · exact le_trans h2 (by norm_num)
          · exact (by omega : (0 : Int) ≤ m.reg.sp - 1)
          · exact (by omega : m.reg.sp - 1 ≤ MAX_SP)
        · rw [bind_err (incIp_err 1 _
              (by exact (by omega : m.reg.ip + 1 + 1 > 0xff)))] at h
          exact MResult.noConfusion h
    · rw [bind_err (checkGpr_err _ hb1)] at h
      exact MResult.noConfusion h
  · rw [bind_err (incIp_err 1 m (by omega))] at h
    exact MResult.noConfusion h

theorem execPopToReg_bounds (m : Machine) (hwf : WellFormed m) :
    ∀ (a : Unit) (m1 : Machine), execPopToReg m = .ok a m1 → RegBounds m m1 := by
  intro a m1 h
  obtain ⟨hmem, hgpr, hip, hsp, hcont⟩ := hwf
  unfold execPopToReg at h
  by_cases h1 : m.reg.ip + 1 ≤ 0xff
  · rw [bind_ok (incIp_ok 1 m h1), bind_ok (loadFromMemory_apply _ _)] at h
    by_cases hb1 : 0 ≤ m.mem (m.reg.ip + 1) ∧ m.mem (m.reg.ip + 1) ≤ 3
    · rw [bind_ok (checkGpr_ok _ (by exact hb1))] at h
      by_cases hspM : m.reg.sp ≥ MAX_SP
      · rw [bind_err (pop_underflow _ (by exact hspM))] at h
        exact MResult.noConfusion h
      · rw [bind_ok (pop_ok _ (by exact ⟨(by omega : (-1 : Int) ≤ m.reg.sp),
          (by omega : m.reg.sp ≤ MAX_SP - 1)⟩)), bind_ok (setGpr_apply _ _ _)] at h
        by_cases h2 : m.reg.ip + 1 + 1 ≤ 0xff
        · rw [bind_ok (incIp_ok 1 _ (by exact h2)), pure_apply] at h
          injection h with ha h4
          subst h4
          refine ⟨fun hq => ⟨?_, ?_⟩, ⟨?_, ?_⟩, ?_⟩
          · exact (by omega : (-0x80 : Int) ≤ m.reg.ip + 1 + 1)
          · exact le_trans h2 (by norm_num)
          · exact (by omega : (0 : Int) ≤ m.reg.sp + 1)
          · exact (by omega : m.reg.sp + 1 ≤ MAX_SP)
          · have hspb : m.reg.sp ≤ 0xbf := hsp.2
            exact gprBounds_update hgpr (hmem (m.reg.sp + 1) (by omega) (by omega))
        · rw [bind_err (incIp_err 1 _
              (by exact (by omega : m.reg.ip + 1 + 1 > 0xff)))] at h
          exact MResult.noConfusion h
    · rw [bind_err (checkGpr_err _ hb1)] at h
      exact MResult.noConfusion h
  · rw [bind_err (incIp_err 1 m (by omega))] at h
    exact MResult.noConfusion h

theorem execPushf_bounds (m : Machine) (hwf : WellFormed m) :
    ∀ (a : Unit) (m1 : Machine), execPushf m = .ok a m1 → RegBounds m m1 := by
  intro a m1 h
  obtain ⟨hmem, hgpr, hip, hsp, hcont⟩ := hwf
  unfold execPushf at h
  rw [bind_ok (getM_apply m)] at h
  by_cases hsp0 : m.reg.sp = 0
  · rw [bind_err (push_overflow _ _ (by exact (by omega : m.reg.sp - 1 < 0)))] at h
    exact MResult.noConfusion h
  · rw [bind_ok (push_ok _ _ (by exact ⟨(by omega : (1 : Int) ≤ m.reg.sp),
      (by omega : m.reg.sp ≤ MAX_SP + 1)⟩))] at h
    by_cases h1 : m.reg.ip + 1 ≤ 0xff
    · rw [bind_ok (incIp_ok 1 _ (by exact h1)), pure_apply] at h
      injection h with ha h4
      subst h4
      refine ⟨fun hq => ⟨?_, ?_⟩, ⟨?_, ?_⟩, hgpr⟩
      · exact (by omega : (-0x80 : Int) ≤ m.reg.ip + 1)
      · exact le_trans h1 (by norm_num)
      · exact (by omega : (0 : Int) ≤ m.reg.sp - 1)
      · exact (by omega : m.reg.sp - 1 ≤ MAX_SP)
    · rw [bind_err (incIp_err 1 _ (by exact (by omega : m.reg.ip + 1 > 0xff)))] at h
      exact MResult.noConfusion h

theorem execPopf_bounds (m : Machine) (hwf : WellFormed m) :
    ∀ (a : Unit) (m1 : Machine), execPopf m = .ok a m1 → RegBounds m m1 := by
  intro a m1 h
  obtain ⟨hmem, hgpr, hip, hsp, hcont⟩ := hwf
  unfold execPopf at h
  by_cases hspM : m.reg.sp ≥ MAX_SP
  · rw [bind_err (pop_underflow _ (by exact hspM))] at h
    exact MResult.noConfusion h
  · rw [bind_ok (pop_ok _ (by exact ⟨(by omega : (-1 : Int) ≤ m.reg.sp),
      (by omega : m.reg.sp ≤ MAX_SP - 1)⟩)), bind_ok (setSr_apply _ _)] at h
    by_cases h1 : m.reg.ip + 1 ≤ 0xff
    · rw [bind_ok (incIp_ok 1 _ (by exact h1)), pure_apply] at h
      injection h with ha h4
      subst h4
      refine ⟨fun hq => ⟨?_, ?_⟩, ⟨?_, ?_⟩, hgpr⟩
      · exact (by omega : (-0x80 : Int) ≤ m.reg.ip + 1)
      · exact le_trans h1 (by norm_num)
      · exact (by omega : (0 : Int) ≤ m.reg.sp + 1)
      · exact (by omega : m.reg.sp + 1 ≤ MAX_SP)
    · rw [bind_err (incIp_err 1 _ (by exact (by omega : m.reg.ip + 1 > 0xff)))] at h
      exact MResult.noConfusion h

theorem execCallAddr_bounds (m : Machine) (hwf : WellFormed m) :
    ∀ (a : Unit) (m1 : Machine), execCallAddr m = .ok a m1 → RegBounds m m1 := by
  intro a m1 h
  obtain ⟨hmem, hgpr, hip, hsp, hcont⟩ := hwf
  unfold execCallAddr at h
  rw [bind_ok (getNextIp_apply 1 m), bind_ok (loadFromMemory_apply _ _),
    bind_ok (getNextIp_apply 2 m)] at h
  by_cases hsp0 : m.reg.sp = 0
  · rw [bind_err (push_overflow _ _ (by exact (by omega : m.reg.sp - 1 < 0)))] at h
    exact MResult.noConfusion h
  · rw [bind_ok (push_ok _ _ (by exact ⟨(by omega : (1 : Int) ≤ m.reg.sp),
      (by omega : m.reg.sp ≤ MAX_SP + 1)⟩)), setIp_apply] at h
    injection h with ha h4
    subst h4
    refine ⟨fun hq => ?_, ⟨?_, ?_⟩, hgpr⟩
    · have hb := hmem (m.reg.ip + 1) (by omega) (by omega)
      constructor
      · exact (by omega : (-0x80 : Int) ≤ m.mem (m.reg.ip + 1))
      · exact (by omega : m.mem (m.reg.ip + 1) ≤ 0x100)
    · exact (by omega : (0 : Int) ≤ m.reg.sp - 1)
    · exact (by omega : m.reg.sp - 1 ≤ MAX_SP)

theorem execRet_bounds (m : Machine) (hwf : WellFormed m) :
    ∀ (a : Unit) (m1 : Machine), execRet m = .ok a m1 → RegBounds m m1 := by
  intro a m1 h
  obtain ⟨hmem, hgpr, hip, hsp, hcont⟩ := hwf
  unfold execRet at h
  by_cases hspM : m.reg.sp ≥ MAX_SP
  · rw [bind_err (pop_underflow _ (by exact hspM))] at h
    exact MResult.noConfusion h
  · rw [bind_ok (pop_ok _ (by exact ⟨(by omega : (-1 : Int) ≤ m.reg.sp),
      (by omega : m.reg.sp ≤ MAX_SP - 1)⟩)), setIp_apply] at h
    injection h with ha h4
    subst h4
    refine ⟨fun hq => ?_, ⟨?_, ?_⟩, hgpr⟩
    · have hspb : m.reg.sp ≤ 0xbf := hsp.2
      have hb := hmem (m.reg.sp + 1) (by omega) (by omega)
      constructor
      · exact (by omega : (-0x80 : Int) ≤ m.mem (m.reg.sp + 1))
      · exact (by omega : m.mem (m.reg.sp + 1) ≤ 0x100)
    · exact (by omega : (0 : Int) ≤ m.reg.sp + 1)
    · exact (by omega : m.reg.sp + 1 ≤ MAX_SP)

theorem execIret_bounds (m : Machine) (hwf : WellFormed m) :
    ∀ (a : Unit) (m1 : Machine), execIret m = .ok a m1 → RegBounds m m1 := by
  intro a m1 h
  obtain ⟨hmem, hgpr, hip, hsp, hcont⟩ := hwf
  unfold execIret at h
  by_cases hspM : m.reg.sp ≥ MAX_SP
  · rw [bind_err (pop_underflow _ (by exact hspM))] at h
    exact MResult.noConfusion h
  · rw [bind_ok (pop_ok _ (by exact ⟨(by omega : (-1 : Int) ≤ m.reg.sp),
      (by omega : m.reg.sp ≤ MAX_SP - 1)⟩)), setIp_apply] at h
    injection h with ha h4
    subst h4
    refine ⟨fun hq => ?_, ⟨?_, ?_⟩, hgpr⟩
    · have hspb : m.reg.sp ≤ 0xbf := hsp.2
      have hb := hmem (m.reg.sp + 1) (by omega) (by omega)
      constructor
      · exact (by omega : (-0x80 : Int) ≤ m.mem (m.reg.sp + 1))
      · exact (by omega : m.mem (m.reg.sp + 1) ≤ 0x100)
    · exact (by omega : (0 : Int) ≤ m.reg.sp + 1)
    · exact (by omega : m.reg.sp + 1 ≤ MAX_SP)

theorem execIntAddr_bounds (b : Bool) (m : Machine) (hwf : WellFormed m) :
    ∀ (a : Unit) (m1 : Machine), execIntAddr b m = .ok a m1 → RegBounds m m1 := by
  intro a m1 h
  obtain ⟨hmem, hgpr, hip, hsp, hcont⟩ := hwf
  unfold execIntAddr at h
  cases b
  · rw [if_neg (by decide)] at h
    rw [bind_ok (getNextIp_apply 1 m), bind_ok (loadFromMemory_apply _ _),
      bind_ok (getNextIp_apply 2 m)] at h
    by_cases hsp0 : m.reg.sp = 0
    · rw [bind_err (push_overflow _ _ (by exact (by omega : m.reg.sp - 1 < 0)))] at h
      exact MResult.noConfusion h
    · rw [bind_ok (push_ok _ _ (by exact ⟨(by omega : (1 : Int) ≤ m.reg.sp),
        (by omega : m.reg.sp ≤ MAX_SP + 1)⟩)), bind_ok (loadFromMemory_apply _ _),
        setIp_apply] at h
      injection h with ha h4
      subst h4
      refine ⟨fun hq => ?_, ⟨?_, ?_⟩, hgpr⟩
      · have hop := hmem (m.reg.ip + 1) (by omega) (by omega)
        have hb1 := hmem (m.mem (m.reg.ip + 1)) (by omega) (by omega)
        constructor
        · exact (by split_ifs <;> omega : (-0x80 : Int) ≤
            (if m.mem (m.reg.ip + 1) = m.reg.sp then m.reg.ip + 2
              else m.mem (m.mem (m.reg.ip + 1))))
        · exact (by split_ifs <;> omega :
            (if m.mem (m.reg.ip + 1) = m.reg.sp then m.reg.ip + 2
              else m.mem (m.mem (m.reg.ip + 1))) ≤ 0x100)
      · exact (by omega : (0 : Int) ≤ m.reg.sp - 1)
      · exact (by omega : m.reg.sp - 1 ≤ MAX_SP)
  · rw [if_pos rfl] at h
    rw [bind_ok (getIp_apply m)] at h
    by_cases hsp0 : m.reg.sp = 0
    · rw [bind_err (push_overflow _ _ (by exact (by omega : m.reg.sp - 1 < 0)))] at h
      exact MResult.noConfusion h
    · rw [bind_ok (push_ok _ _ (by exact ⟨(by omega : (1 : Int) ≤ m.reg.sp),
        (by omega : m.reg.sp ≤ MAX_SP + 1)⟩)), bind_ok (loadFromMemory_apply _ _),
        setIp_apply] at h
      injection h with ha h4
      subst h4
      refine ⟨fun hq => ?_, ⟨?_, ?_⟩, hgpr⟩
      · have hb1 := hmem 2 (by norm_num) (by norm_num)
        constructor
        · exact (by split_ifs <;> omega : (-0x80 : Int) ≤
            (if (2 : Int) = m.reg.sp then m.reg.ip else m.mem 2))
        · exact (by split_ifs <;> omega :
            (if (2 : Int) = m.reg.sp then m.reg.ip else m.mem 2) ≤ 0x100)
      · exact (by omega : (0 : Int) ≤ m.reg.sp - 1)
      · exact (by omega : m.reg.sp - 1 ≤ MAX_SP)

theorem execIn_bounds (m : Machine) (hwf : WellFormed m) :
    ∀ (a : Unit) (m1 : Machine), execIn m = .ok a m1 → RegBounds m m1 := by
  intro a m1 h
  obtain ⟨hmem, hgpr, hip, hsp, hcont⟩ := hwf
  unfold execIn at h
  rw [bind_ok (getM_apply m), bind_ok (getNextIp_apply 1 m),
    bind_ok (loadFromMemory_apply _ _)] at h
  by_cases hport : 0 ≤ m.mem (m.reg.ip + 1) ∧ m.mem (m.reg.ip + 1) ≤ MAX_PORT
  · rw [bind_ok (checkPort_ok _ (by exact hport))] at h
    rcases hc : m.sig.input.data.content with _ | c
    · simp only [hc] at h
      injection h with ha h4
      subst h4
      exact ⟨fun hq => ⟨(by omega : (-0x80 : Int) ≤ m.reg.ip), le_trans hip.2 (by norm_num)⟩,
        hsp, hgpr⟩
    · simp only [hc] at h
      by_cases hmatch : m.sig.input.data.port ≠ m.mem (m.reg.ip + 1)
      · rw [if_pos hmatch] at h
        injection h with ha h4
        subst h4
        exact ⟨fun hq => ⟨(by omega : (-0x80 : Int) ≤ m.reg.ip), le_trans hip.2 (by norm_num)⟩,
          hsp, hgpr⟩
      · rw [if_neg hmatch, bind_ok (setGpr_apply _ _ _)] at h
        by_cases h2 : m.reg.ip + 2 ≤ 0xff
        · rw [bind_ok (incIp_ok 2 _ (by exact h2)), pure_apply] at h
          injection h with ha h4
          subst h4
          refine ⟨fun hq => ⟨?_, ?_⟩, hsp, ?_⟩
          · exact (by omega : (-0x80 : Int) ≤ m.reg.ip + 2)
          · exact le_trans h2 (by norm_num)
          · exact gprBounds_update hgpr (hcont c hc)
        · rw [bind_err (incIp_err 2 _ (by exact (by omega : m.reg.ip + 2 > 0xff)))] at h
          exact MResult.noConfusion h
  · rw [bind_err (checkPort_err _ (by omega))] at h
    exact MResult.noConfusion h

theorem execOut_bounds (m : Machine) (hwf : WellFormed m) :
    ∀ (a : Unit) (m1 : Machine), execOut m = .ok a m1 → RegBounds m m1 := by
  intro a m1 h
  obtain ⟨hmem, hgpr, hip, hsp, hcont⟩ := hwf
  unfold execOut at h
  rw [bind_ok (getGpr_apply _ _)] at h
  by_cases h1 : m.reg.ip + 1 ≤ 0xff
  · rw [bind_ok (incIp_ok 1 m h1), bind_ok (loadFromMemory_apply _ _)] at h
    by_cases hport : 0 ≤ m.mem (m.reg.ip + 1) ∧ m.mem (m.reg.ip + 1) ≤ MAX_PORT
    · rw [bind_ok (checkPort_ok _ (by exact hport)),
        bind_ok (setOutputDataSignal_apply _ _ _)] at h
      by_cases h2 : m.reg.ip + 1 + 1 ≤ 0xff
      · rw [bind_ok (incIp_ok 1 _ (by exact h2)), pure_apply] at h
        injection h with ha h4
        subst h4
        refine ⟨fun hq => ⟨?_, ?_⟩, hsp, hgpr⟩
        · exact (by omega : (-0x80 : Int) ≤ m.reg.ip + 1 + 1)
        · exact le_trans h2 (by norm_num)
      · rw [bind_err (incIp_err 1 _
            (by exact (by omega : m.reg.ip + 1 + 1 > 0xff)))] at h
        exact MResult.noConfusion h
    · rw [bind_err (checkPort_err _ (by exact (by omega :
          m.mem (m.reg.ip + 1) < 0 ∨ m.mem (m.reg.ip + 1) > MAX_PORT)))] at h
      exact MResult.noConfusion h
  · rw [bind_err (incIp_err 1 m (by omega))] at h
    exact MResult.noConfusion h

/-- Master preservation: any committed step from a well-formed machine
(256-cell byte memory, byte registers) re-establishes the register-file
bounds: `sp` and the general-purpose registers unconditionally, and the
`ip` range whenever the instruction was fetched at `ip ≤ 0xFE`. -/
theorem step_preserves_regBounds (m m1 : Machine) (hwf : WellFormed m)
    (h : step m = .ok m1) : RegBounds m m1 := by
  obtain ⟨a, hb⟩ := step_ok_inv h
  rw [stepBody_apply] at hb
  by_cases htrap : (m.sig.input.interrupt && m.reg.sr.interrupt) = true
  · rw [htrap, dispatch_trap] at hb
    exact execIntAddr_bounds true m hwf a m1 hb
  · rw [Bool.not_eq_true] at htrap
    rw [htrap] at hb
    cases hop : decodeOp (m.mem m.reg.ip) with
    | none =>
        rw [dispatch_no_trap_invalid hop, throwM_apply] at hb
        exact MResult.noConfusion hb
    | some op =>
        rw [dispatch_no_trap hop] at hb
        cases op
        · exact execHalt_bounds m hwf a m1 hb
        · exact execHalt_bounds m hwf a m1 hb
        · exact execBinaryRegArith_bounds add add_fact m hwf a m1 hb
        ·
          exact execBinaryRegArith_bounds substract substract_fact m hwf a m1 hb
        ·
          exact execBinaryRegArith_bounds multiply multiply_fact m hwf a m1 hb
        ·
          exact execBinaryRegArith_bounds divide divide_fact m hwf a m1 hb
        · exact execUnaryArith_bounds increase increase_fact m hwf a m1 hb
        · exact execUnaryArith_bounds decrease decrease_fact m hwf a m1 hb
        ·
          exact execBinaryRegArith_bounds modulo modulo_fact m hwf a m1 hb
        · exact execBinaryRegArith_bounds and and_fact m hwf a m1 hb
        · exact execBinaryRegArith_bounds or or_fact m hwf a m1 hb
        · exact execBinaryRegArith_bounds xor xor_fact m hwf a m1 hb
        · exact execUnaryArith_bounds notOp notOp_fact m hwf a m1 hb
        · exact execUnaryArith_bounds rol rol_fact m hwf a m1 hb
        · exact execUnaryArith_bounds ror ror_fact m hwf a m1 hb
        · exact execUnaryArith_bounds shl shl_fact m hwf a m1 hb
        · exact execUnaryArith_bounds shr shr_fact m hwf a m1 hb
        · exact execBinaryNumArith_bounds add add_fact m hwf a m1 hb
        ·
          exact execBinaryNumArith_bounds substract substract_fact m hwf a m1 hb
        ·
          exact execBinaryNumArith_bounds multiply multiply_fact m hwf a m1 hb
        ·
          exact execBinaryNumArith_bounds divide divide_fact m hwf a m1 hb
        ·
          exact execBinaryNumArith_bounds modulo modulo_fact m hwf a m1 hb
        · exact execBinaryNumArith_bounds and and_fact m hwf a m1 hb
        · exact execBinaryNumArith_bounds or or_fact m hwf a m1 hb
        · exact execBinaryNumArith_bounds xor xor_fact m hwf a m1 hb
        · exact execJump_bounds _ m hwf a m1 hb
        · exact execJump_bounds _ m hwf a m1 hb
        · exact execJump_bounds _ m hwf a m1 hb
        · exact execJump_bounds _ m hwf a m1 hb
        · exact execJump_bounds _ m hwf a m1 hb
        · exact execJump_bounds _ m hwf a m1 hb
        · exact execJump_bounds _ m hwf a m1 hb
        · exact execMovNumToReg_bounds m hwf a m1 hb
        · exact execMovAddrToReg_bounds m hwf a m1 hb
        · exact execMovRegToAddr_bounds m hwf a m1 hb
        · exact execMovRegAddrToReg_bounds m hwf a m1 hb
        · exact execMovRegToRegAddr_bounds m hwf a m1 hb
        · exact execCmpRegWithReg_bounds m hwf a m1 hb
        · exact execCmpRegWithNum_bounds m hwf a m1 hb
        · exact execCmpRegWithAddr_bounds m hwf a m1 hb
        · exact execPushFromReg_bounds m hwf a m1 hb
        · exact execPopToReg_bounds m hwf a m1 hb
        · exact execPushf_bounds m hwf a m1 hb
        · exact execPopf_bounds m hwf a m1 hb
        · exact execCallAddr_bounds m hwf a m1 hb
        · exact execRet_bounds m hwf a m1 hb
        · exact execIntAddr_bounds false m hwf a m1 hb
        · exact execIret_bounds m hwf a m1 hb
        · exact execIn_bounds m hwf a m1 hb
        · exact execOut_bounds m hwf a m1 hb
        · exact execSti_bounds m hwf a m1 hb
        · exact execCli_bounds m hwf a m1 hb
        · exact execClo_bounds m hwf a m1 hb
        · exact execNop_bounds m hwf a m1 hb

/-- A byte-list image is byte-bounded everywhere. -/
theorem memOfList_bounds (l : List Int) (hl : ∀ x ∈ l, 0 ≤ x ∧ x ≤ 0xff) :
    ∀ a : Int, 0 ≤ memOfList l a ∧ memOfList l a ≤ 0xff := by
  intro a
  unfold memOfList
  split_ifs with hcond
  · have hd : l.getD a.toNat 0 = 0 ∨ l.getD a.toNat 0 ∈ l := by
      rcases hg : l[a.toNat]? with _ | x
      · left
        rw [List.getD_eq_getElem?_getD, hg]
        rfl
      · right
        rw [List.getD_eq_getElem?_getD, hg]
        obtain ⟨h, he⟩ := List.getElem?_eq_some.mp hg
        exact he ▸ List.getElem_mem h
    rcases hd with hd | hd
    · rw [hd]
      norm_num
    · exact hl _ hd
  · norm_num

/-- A `mkMachine` over a byte list is well-formed. -/
theorem mkMachine_wf (l : List Int) (hl : ∀ x ∈ l, 0 ≤ x ∧ x ≤ 0xff) :
    WellFormed (mkMachine l) := by
  refine ⟨fun a h0 h255 => memOfList_bounds l hl a, ?_, ?_, ?_, ?_⟩
  · intro r
    constructor <;> norm_num [mkMachine, initRegisters]
  · constructor <;> norm_num [mkMachine, initRegisters]
  · constructor <;> norm_num [mkMachine, initRegisters, MAX_SP]
  · intro c hc
    exact Option.noConfusion hc

/-!
## Claim C2: ip and sp bounds after a step
-/

/-- `JMP -128` at address 0. -/
def machineC2 : Machine := mkMachine [25, 0x80]

/-- Counterexample to C2 as stated: from the well-formed machine with
`JMP -128` at address 0, the step commits (it does not raise) and leaves
`ip = -128`, outside `0..=255` — `checkIp` only guards the upper end, so
backward jumps below zero go unreported. -/
theorem ip_sp_bounds_counterexample :
    WellFormed machineC2 ∧
    ∃ m1 : Machine, step machineC2 = .ok m1 ∧ m1.reg.ip = -0x80 :=
  ⟨mkMachine_wf _ (by decide), _, rfl, by decide⟩

/-- C2 (amended): from a well-formed machine whose instruction was
fetched at `ip ≤ 0xFE` (so every operand fetch on a committed path
stays inside the 256-cell memory; at `ip = 0xFF` the unchecked operand
fetches of `JMP`/`CALL`/`INT` read the out-of-array
`memoryData[0x100] = undefined`, and the committed `ip` is not a
number), a committed step leaves `sp ∈ 0..=0xBF` and
`ip ∈ -128..=0x100`: a backward jump may take `ip` below zero without
raising, and the software-`INT` vector load can observe the just-pushed
`ip + 2` when the operand address coincides with `sp`, reaching `0x100`
at `ip = 0xFE`; every `ip` advance that goes through `checkIp` past
`0xFF` raises `RunBeyondEndOfMemoryError`. -/
theorem ip_sp_bounds_amended :
    (∀ m m1 : Machine, WellFormed m → m.reg.ip ≤ 0xfe → step m = .ok m1 →
      (-0x80 ≤ m1.reg.ip ∧ m1.reg.ip ≤ 0x100) ∧
      (0 ≤ m1.reg.sp ∧ m1.reg.sp ≤ MAX_SP)) ∧
    (∀ (address : Int) (s : Machine), address > 0xff →
      checkIp address s = .error .RunBeyondEndOfMemory s) ∧
    (∀ (ofs : Int) (s : Machine), s.reg.ip + ofs > 0xff →
      incIp ofs s = .error .RunBeyondEndOfMemory s) := by
  refine ⟨?_, ?_, ?_⟩
  · intro m m1 hwf hq h
    obtain ⟨hip, hsp, _⟩ := step_preserves_regBounds m m1 hwf h
    exact ⟨hip hq, hsp⟩
  · intro address s hgt
    exact checkIp_err s hgt
  · intro ofs s hgt
    exact incIp_err ofs s hgt

/-- A single `NOP` at address 0. -/
def machineNop : Machine := mkMachine [53]

/-- Witness for the amended C2 at a concrete machine. -/
theorem ip_sp_bounds_amended_witness :
    ∃ m1 : Machine, step machineNop = .ok m1 ∧
      (-0x80 ≤ m1.reg.ip ∧ m1.reg.ip ≤ 0x100) ∧
      (0 ≤ m1.reg.sp ∧ m1.reg.sp ≤ MAX_SP) :=
  ⟨_, rfl, ip_sp_bounds_amended.1 machineNop _ (mkMachine_wf _ (by decide))
    (by decide) rfl⟩

/-!
## Claim C10: general-purpose registers stay bytes
-/

/-- C10: from any machine whose 256 memory cells and registers are all
bytes (and whose pending input content, typed `u8 | null` in the data
model, is a byte), a committed step leaves every general-purpose
register a byte:
arithmetic write-backs are reduced to one unsigned byte, and moves, pops
and `IN` only copy byte values. -/
theorem gpr_byte_invariant (m m1 : Machine) (hwf : WellFormed m)
    (h : step m = .ok m1) :
    ∀ r : Fin 4, 0 ≤ m1.reg.gpr r ∧ m1.reg.gpr r ≤ 0xff :=
  (step_preserves_regBounds m m1 hwf h).2.2

/-- Witness for C10 at the scenario B machine (whose first step writes
`0x80` into `AL`). -/
theorem gpr_byte_invariant_witness :
    ∃ m1 : Machine, step machineB = .ok m1 ∧
      ∀ r : Fin 4, 0 ≤ m1.reg.gpr r ∧ m1.reg.gpr r ≤ 0xff :=
  ⟨_, rfl, gpr_byte_invariant machineB _ (mkMachine_wf _ (by decide)) rfl⟩

/-!
## Claim C9: the MOV operand-type table of the parser

The `MOV` case of `parseStatement`, embedded from the source together
with the operand-parsing helpers (`createOperand`, `validateNumber`,
`validateLabel`, `parseSingleOperand`, `checkComma`,
`parseDoubleOperands`).  Thrown assembler exceptions become
`Except.error`.
-/

/-- Modelled from the spec: token types of the tokenizer output
(`Whitespace` tokens are dropped before parsing; source positions are
omitted, as none of the parsing decisions below consult them). -/
inductive TokenType where
  | Whitespace
  | Comma
  | Digits
  | Register
  | Address
  | String
  | Unknown
  deriving DecidableEq, Repr

/-- Modelled from the spec: a token, its type plus its uppercased
source substring (for an `Address` token, the bracketed content). -/
structure Token where
  type : TokenType
  value : String
  deriving DecidableEq, Repr

/-- Operand types of the parser. -/
inductive OperandType where
  | Number
  | Register
  | Address
  | RegisterAddress
  | String
  | Label
  deriving DecidableEq, Repr

/-- Modelled from the spec: decode one implicit-hex digit. -/
def hexDigit (c : Char) : Option Nat :=
  if '0' ≤ c ∧ c ≤ '9' then some (c.toNat - Char.toNat '0')
  else if 'A' ≤ c ∧ c ≤ 'F' then some (c.toNat - Char.toNat 'A' + 10)
  else none

/-- Modelled from the spec: decode an implicit-hex digit string
(`Number`/`Address` token values are decoded from hex). -/
def hexToDec (s : String) : Nat :=
  s.data.foldl (fun acc c => acc * 16 + (hexDigit c).getD 0) 0

/-- Modelled from the spec: the `Register` name-to-index map
(`AL`, `BL`, `CL`, `DL` map to 0..=3). -/
def registerIndex (s : String) : Option Nat :=
  if s = "AL" then some 0
  else if s = "BL" then some 1
  else if s = "CL" then some 2
  else if s = "DL" then some 3
  else none

/-- Modelled from the spec: a string operand's bytes are its ASCII
codepoints. -/
def stringToASCII (s : String) : List Nat :=
  s.data.map Char.toNat

/-- Modelled from the spec: the assembler errors thrown during operand
parsing.  `OperandTypeError` carries the offending token and the
expected operand types, in the order the caller listed them. -/
inductive AssemblerError where
  | MissingEndError
  | InvalidNumberError (token : Token)
  | InvalidLabelError (token : Token)
  | AddressError (token : Token)
  | OperandTypeError (token : Token) (expected : List OperandType)
  | MissingCommaError (token : Token)
  deriving DecidableEq, Repr

/-- An operand's decoded value: `number | number[] | undefined`. -/
inductive OperandValue where
  | undef
  | num (n : Nat)
  | bytes (l : List Nat)
  deriving DecidableEq, Repr

/-- A parsed operand. -/
structure Operand where
  type : OperandType
  value : OperandValue
  token : Token
  deriving DecidableEq, Repr

/-- `createOperand`: decode the token's value according to the operand
type (`Register.map` lookup misses become `undefined`, as in the
source's indexing). -/
def createOperand (type : OperandType) (token : Token) : Operand :=
  let value : OperandValue :=
    match type with
    | .Number | .Address => .num (hexToDec token.value)
    | .Register | .RegisterAddress =>
      match registerIndex token.value with
      | some r => .num r
      | none => .undef
    | .String => .bytes (stringToASCII token.value)
    | .Label => .undef
  { type := type, value := value, token := token }

/-- The `NUMBER` test. -/
def testNUMBER (s : String) : Bool :=
  s.length > 0 && s.data.all (fun c => (('0' ≤ c && c ≤ '9') || ('A' ≤ c && c ≤ 'F')))

/-- The `REGISTER` test. -/
def testREGISTER (s : String) : Bool :=
  match s.data with
  | [c1, c2] => ('A' ≤ c1 && c1 ≤ 'D') && c2 = 'L'
  | _ => false

/-- The `LABEL_START` test. -/
def testLABEL_START (s : String) : Bool :=
  match s.data with
  | [] => false
  | c :: _ => ('A' ≤ c && c ≤ 'Z') || c = '_'

/-- `validateNumber`: a numeric token must decode to at most `0xFF`. -/
def validateNumber (token : Token) : Option AssemblerError :=
  if hexToDec token.value > 0xff then some (.InvalidNumberError token) else none

/-- `validateLabel`: a label must start with `[A-Z_]`. -/
def validateLabel (token : Token) : Option AssemblerError :=
  if testLABEL_START token.value then none else some (.InvalidLabelError token)

/-- `isExpected` of `parseSingleOperand`. -/
def isExpected (expectedTypes : List OperandType) (t : OperandType) : Bool :=
  expectedTypes.any (fun u => decide (u = t))

/-- `parseSingleOperand tokens index expectedTypes`: classify the token
at `index` against the expected operand types. -/
def parseSingleOperand (tokens : List Token) (index : Nat)
    (expectedTypes : List OperandType) : Except AssemblerError Operand :=
  match tokens.get? index with
  | none => .error .MissingEndError
  | some token =>
    match token.type with
    | .Whitespace => .error (.OperandTypeError token expectedTypes)
    | .Comma => .error (.OperandTypeError token expectedTypes)
    | .Digits =>
      if isExpected expectedTypes .Number then
        match validateNumber token with
        | some e => .error e
        | none => .ok (createOperand .Number token)
      else .error (.OperandTypeError token expectedTypes)
    | .Register =>
      if isExpected expectedTypes .Register then
        .ok (createOperand .Register token)
      else .error (.OperandTypeError token expectedTypes)
    | .Address =>
      if isExpected expectedTypes .Address || isExpected expectedTypes .RegisterAddress then
        if testNUMBER token.value then
          match validateNumber token with
          | some e => .error e
          | none => .ok (createOperand .Address token)
        else if testREGISTER token.value then
          .ok (createOperand .RegisterAddress token)
        else .error (.AddressError token)
      else .error (.OperandTypeError token expectedTypes)
    | .String =>
      if isExpected expectedTypes .String then
        .ok (createOperand .String token)
      else .error (.OperandTypeError token expectedTypes)
    | .Unknown =>
      if isExpected expectedTypes .Number && testNUMBER token.value then
        match validateNumber token with
        | some e => .error e
        | none => .ok (createOperand .Number token)
      else if isExpected expectedTypes .Label then
        match validateLabel token with
        | some e => .error e
        | none => .ok (createOperand .Label token)
      else .error (.OperandTypeError token expectedTypes)

/-- `checkComma`: between two operands a comma token is mandatory
(`MissingEndError` if the stream is exhausted). -/
def checkComma (token : Option Token) : Option AssemblerError :=
  match token with
  | none => some .MissingEndError
  | some t => if t.type = TokenType.Comma then none else some (.MissingCommaError t)

/-- The second-operand error hook of `parseDoubleOperands`: when the
second operand raised an `OperandTypeError` and a callback was supplied,
the callback may replace the error (the source passes the token at
`index + 2`, which is exactly the token every such error carries). -/
def applySecondOperandErrorCallback
    (callback : Option (OperandType → Token → Option AssemblerError))
    (firstOperandType : OperandType) (e : AssemblerError) : AssemblerError :=
  match e, callback with
  | .OperandTypeError tk expected, some cb =>
    match cb firstOperandType tk with
    | some e2 => e2
    | none => .OperandTypeError tk expected
  | _, _ => e

/-- `parseDoubleOperands`: first operand, mandatory comma, second
operand, with the optional error callback on the second. -/
def parseDoubleOperands (tokens : List Token) (index : Nat)
    (firstExpectedTypes secondExpectedTypes : List OperandType)
    (callback : Option (OperandType → Token → Option AssemblerError)) :
    Except AssemblerError (Operand × Operand) :=
  match parseSingleOperand tokens index firstExpectedTypes with
  | .error e => .error e
  | .ok firstOperand =>
    match checkComma (tokens.get? (index + 1)) with
    | some e => .error e
    | none =>
      match parseSingleOperand tokens (index + 2) secondExpectedTypes with
      | .ok secondOperand => .ok (firstOperand, secondOperand)
      | .error e => .error (applySecondOperandErrorCallback callback firstOperand.type e)

/-- The `MOV` second-operand error callback: a first operand that was a
register expects `Number`, `Address` or `RegisterAddress` next; a first
operand that was an address or register-address expects `Register`. -/
def movSecondOperandCallback (firstOperandType : OperandType)
    (secondOperandToken : Token) : Option AssemblerError :=
  match firstOperandType with
  | .Register =>
    some (.OperandTypeError secondOperandToken
      [.Number, .Address, .RegisterAddress])
  | .Address | .RegisterAddress =>
    some (.OperandTypeError secondOperandToken [.Register])
  | _ => none

/-- The `Mnemonic.MOV` case of `parseStatement`: parse the two operands
and select the opcode from the operand-type pair (`instruction.opcode`
starts out `null` and stays `null` on the switch's unreachable
fall-throughs, hence the `Option Opcode`). -/
def parseMov (tokens : List Token) (index : Nat) :
    Except AssemblerError (Option Opcode × Operand × Operand) :=
  match parseDoubleOperands tokens index
      [.Register, .Address, .RegisterAddress]
      [.Number, .Register, .Address, .RegisterAddress]
      (some movSecondOperandCallback) with
  | .error e => .error e
  | .ok (firstOperand, secondOperand) =>
    match firstOperand.type with
    | .Register =>
      match secondOperand.type with
      | .Number => .ok (some .MOV_NUM_TO_REG, firstOperand, secondOperand)
      | .Register =>
        .error (.OperandTypeError secondOperand.token
          [.Number, .Address, .RegisterAddress])
      | .Address => .ok (some .MOV_ADDR_TO_REG, firstOperand, secondOperand)
      | .RegisterAddress => .ok (some .MOV_REG_ADDR_TO_REG, firstOperand, secondOperand)
      | _ => .ok (none, firstOperand, secondOperand)
    | .Address =>
      if secondOperand.type = OperandType.Register then
        .ok (some .MOV_REG_TO_ADDR, firstOperand, secondOperand)
      else .error (.OperandTypeError secondOperand.token [.Register])
    | .RegisterAddress =>
      if secondOperand.type = OperandType.Register then
        .ok (some .MOV_REG_TO_REG_ADDR, firstOperand, secondOperand)
      else .error (.OperandTypeError secondOperand.token [.Register])
    | _ => .ok (none, firstOperand, secondOperand)

/-- Register token `AL`. -/
def tkAL : Token := ⟨TokenType.Register, "AL"⟩

/-- Digits token `2A`. -/
def tk2A : Token := ⟨TokenType.Digits, "2A"⟩

/-- Address token `[10]` (bracketed content `10`). -/
def tkAddr10 : Token := ⟨TokenType.Address, "10"⟩

/-- Register-address token `[BL]` (bracketed content `BL`). -/
def tkRegAddrBL : Token := ⟨TokenType.Address, "BL"⟩

/-- Comma token. -/
def tkComma : Token := ⟨TokenType.Comma, ","⟩

/-- String token. -/
def tkStr : Token := ⟨TokenType.String, "HI"⟩

/-- Parse `MOV t1, t2` and keep only the selected opcode. -/
def movOpcodeOf (t1 t2 : Token) : Except AssemblerError (Option Opcode) :=
  (parseMov [t1, tkComma, t2] 0).map (fun r => r.1)

/-- A successful first-operand parse for `MOV` yields a register,
address, or register-address operand (the only types the branches of
`parseSingleOperand` can construct under these expectations). -/
theorem parseSingleOperand_first_types (tokens : List Token) (index : Nat) (op : Operand)
    (h : parseSingleOperand tokens index
        [OperandType.Register, OperandType.Address, OperandType.RegisterAddress] = .ok op) :
    op.type = OperandType.Register ∨ op.type = OperandType.Address ∨
      op.type = OperandType.RegisterAddress := by
  unfold parseSingleOperand at h
  rcases hT : tokens.get? index with _ | token
  · simp only [hT] at h
    exact Except.noConfusion h
  · simp only [hT] at h
    cases htt : token.type <;> simp only [htt] at h
    · exact Except.noConfusion h
    · exact Except.noConfusion h
    · rw [if_neg (by decide)] at h
      exact Except.noConfusion h
    · rw [if_pos (by decide)] at h
      injection h with h
      subst h
      exact Or.inl rfl
    · rw [if_pos (by decide)] at h
      by_cases hn : testNUMBER token.value
      · rw [if_pos hn] at h
        rcases hv : validateNumber token with _ | e
        · simp only [hv] at h
          injection h with h
          subst h
          exact Or.inr (Or.inl rfl)
        · simp only [hv] at h
          exact Except.noConfusion h
      · rw [if_neg hn] at h
        by_cases hr : testREGISTER token.value
        · rw [if_pos hr] at h
          injection h with h
          subst h
          exact Or.inr (Or.inr rfl)
        · rw [if_neg hr] at h
          exact Except.noConfusion h
    · rw [if_neg (by decide)] at h
      exact Except.noConfusion h
    · rw [if_neg (by simp [isExpected])] at h
      rw [if_neg (by decide)] at h
      exact Except.noConfusion h

/-- A successful second-operand parse for `MOV` yields a number,
register, address, or register-address operand. -/
theorem parseSingleOperand_second_types (tokens : List Token) (index : Nat) (op : Operand)
    (h : parseSingleOperand tokens index
        [OperandType.Number, OperandType.Register, OperandType.Address,
          OperandType.RegisterAddress] = .ok op) :
    op.type = OperandType.Number ∨ op.type = OperandType.Register ∨
      op.type = OperandType.Address ∨ op.type = OperandType.RegisterAddress := by
  unfold parseSingleOperand at h
  rcases hT : tokens.get? index with _ | token
  · simp only [hT] at h
    exact Except.noConfusion h
  · simp only [hT] at h
    cases htt : token.type <;> simp only [htt] at h
    · exact Except.noConfusion h
    · exact Except.noConfusion h
    · rw [if_pos (by decide)] at h
      rcases hv : validateNumber token with _ | e
      · simp only [hv] at h
        injection h with h
        subst h
        exact Or.inl rfl
      · simp only [hv] at h
        exact Except.noConfusion h
    · rw [if_pos (by decide)] at h
      injection h with h
      subst h
      exact Or.inr (Or.inl rfl)
    · rw [if_pos (by decide)] at h
      by_cases hn : testNUMBER token.value
      · rw [if_pos hn] at h
        rcases hv : validateNumber token with _ | e
        · simp only [hv] at h
          injection h with h
          subst h
          exact Or.inr (Or.inr (Or.inl rfl))
        · simp only [hv] at h
          exact Except.noConfusion h
      · rw [if_neg hn] at h
        by_cases hr : testREGISTER token.value
        · rw [if_pos hr] at h
          injection h with h
          subst h
          exact Or.inr (Or.inr (Or.inr rfl))
        · rw [if_neg hr] at h
          exact Except.noConfusion h
    · rw [if_neg (by decide)] at h
      exact Except.noConfusion h
    · by_cases hn : testNUMBER token.value
      · rw [if_pos (by simp [isExpected, hn])] at h
        rcases hv : validateNumber token with _ | e
        · simp only [hv] at h
          injection h with h
          subst h
          exact Or.inl rfl
        · simp only [hv] at h
          exact Except.noConfusion h
      · rw [if_neg (by simp [isExpected, hn])] at h
        rw [if_neg (by decide)] at h
        exact Except.noConfusion h

/-- A successful double-operand parse is exactly a successful parse of
each operand (with the comma in between). -/
theorem parseDoubleOperands_ok_inv (tokens : List Token) (index : Nat)
    (firstExpectedTypes secondExpectedTypes : List OperandType)
    (callback : Option (OperandType → Token → Option AssemblerError))
    (f s : Operand)
    (h : parseDoubleOperands tokens index firstExpectedTypes secondExpectedTypes callback =
      .ok (f, s)) :
    parseSingleOperand tokens index firstExpectedTypes = .ok f ∧
      parseSingleOperand tokens (index + 2) secondExpectedTypes = .ok s := by
  unfold parseDoubleOperands at h
  rcases h1 : parseSingleOperand tokens index firstExpectedTypes with e | f1
  · simp only [h1] at h
    exact Except.noConfusion h
  · simp only [h1] at h
    rcases h2 : checkComma (tokens.get? (index + 1)) with _ | e
    · simp only [h2] at h
      rcases h3 : parseSingleOperand tokens (index + 2) secondExpectedTypes with e | s1
      · simp only [h3] at h
        exact Except.noConfusion h
      · simp only [h3] at h
        injection h with h
        injection h with hf hs
        subst hf
        subst hs
        exact ⟨rfl, rfl⟩
    · simp only [h2] at h
      exact Except.noConfusion h

/-- Operand `AL` as parsed. -/
def opAL : Operand := ⟨OperandType.Register, OperandValue.num 0, tkAL⟩

/-- Operand `2A` as parsed. -/
def op2A : Operand := ⟨OperandType.Number, OperandValue.num 42, tk2A⟩

/-- C9: MOV opcode selection follows the static operand-type table.
First, in general: every successful `MOV` parse lands in one of the five
table rows — (Register, Number) selects `MOV_NUM_TO_REG`,
(Register, Address) `MOV_ADDR_TO_REG`, (Register, RegisterAddress)
`MOV_REG_ADDR_TO_REG`, (Address, Register) `MOV_REG_TO_ADDR`,
(RegisterAddress, Register) `MOV_REG_TO_REG_ADDR` — so no other
combination can succeed.  Then, on representative tokens, all other
combinations of the four operand types (including register, register)
raise `OperandTypeError`, and the expected set depends on the first
operand's type: `[Register]` when the first operand was an address or
register-address, `[Number, Address, RegisterAddress]` after a register
first operand; a number first operand fails already at the first
operand with expected `[Register, Address, RegisterAddress]`; an
unparseable second token is reported through the same
first-operand-dependent sets by the error callback. -/
theorem mov_opcode_table :
    (∀ (tokens : List Token) (index : Nat) (opc : Option Opcode) (o1 o2 : Operand),
      parseMov tokens index = .ok (opc, o1, o2) →
        (o1.type = OperandType.Register ∧ o2.type = OperandType.Number ∧
          opc = some Opcode.MOV_NUM_TO_REG) ∨
        (o1.type = OperandType.Register ∧ o2.type = OperandType.Address ∧
          opc = some Opcode.MOV_ADDR_TO_REG) ∨
        (o1.type = OperandType.Register ∧ o2.type = OperandType.RegisterAddress ∧
          opc = some Opcode.MOV_REG_ADDR_TO_REG) ∨
        (o1.type = OperandType.Address ∧ o2.type = OperandType.Register ∧
          opc = some Opcode.MOV_REG_TO_ADDR) ∨
        (o1.type = OperandType.RegisterAddress ∧ o2.type = OperandType.Register ∧
          opc = some Opcode.MOV_REG_TO_REG_ADDR)) ∧
    movOpcodeOf tkAL tk2A = .ok (some Opcode.MOV_NUM_TO_REG) ∧
    movOpcodeOf tkAL tkAddr10 = .ok (some Opcode.MOV_ADDR_TO_REG) ∧
    movOpcodeOf tkAL tkRegAddrBL = .ok (some Opcode.MOV_REG_ADDR_TO_REG) ∧
    movOpcodeOf tkAddr10 tkAL = .ok (some Opcode.MOV_REG_TO_ADDR) ∧
    movOpcodeOf tkRegAddrBL tkAL = .ok (some Opcode.MOV_REG_TO_REG_ADDR) ∧
    movOpcodeOf tkAL tkAL = .error (.OperandTypeError tkAL
      [OperandType.Number, OperandType.Address, OperandType.RegisterAddress]) ∧
    movOpcodeOf tk2A tkAL = .error (.OperandTypeError tk2A
      [OperandType.Register, OperandType.Address, OperandType.RegisterAddress]) ∧
    movOpcodeOf tk2A tk2A = .error (.OperandTypeError tk2A
      [OperandType.Register, OperandType.Address, OperandType.RegisterAddress]) ∧
    movOpcodeOf tk2A tkAddr10 = .error (.OperandTypeError tk2A
      [OperandType.Register, OperandType.Address, OperandType.RegisterAddress]) ∧
    movOpcodeOf tk2A tkRegAddrBL = .error (.OperandTypeError tk2A
      [OperandType.Register, OperandType.Address, OperandType.RegisterAddress]) ∧
    movOpcodeOf tkAddr10 tk2A = .error (.OperandTypeError tk2A [OperandType.Register]) ∧
    movOpcodeOf tkAddr10 tkAddr10 =
      .error (.OperandTypeError tkAddr10 [OperandType.Register]) ∧
    movOpcodeOf tkAddr10 tkRegAddrBL =
      .error (.OperandTypeError tkRegAddrBL [OperandType.Register]) ∧
    movOpcodeOf tkRegAddrBL tk2A =
      .error (.OperandTypeError tk2A [OperandType.Register]) ∧
    movOpcodeOf tkRegAddrBL tkAddr10 =
      .error (.OperandTypeError tkAddr10 [OperandType.Register]) ∧
    movOpcodeOf tkRegAddrBL tkRegAddrBL =
      .error (.OperandTypeError tkRegAddrBL [OperandType.Register]) ∧
    movOpcodeOf tkAL tkStr = .error (.OperandTypeError tkStr
      [OperandType.Number, OperandType.Address, OperandType.RegisterAddress]) ∧
    movOpcodeOf tkAddr10 tkStr =
      .error (.OperandTypeError tkStr [OperandType.Register]) := by
  refine ⟨?_, rfl, rfl, rfl, rfl, rfl, rfl, rfl, rfl, rfl, rfl, rfl, rfl, rfl, rfl,
    rfl, rfl, rfl, rfl⟩
  intro tokens index opc o1 o2 h
  unfold parseMov at h
  rcases hpd : parseDoubleOperands tokens index
      [OperandType.Register, OperandType.Address, OperandType.RegisterAddress]
      [OperandType.Number, OperandType.Register, OperandType.Address,
        OperandType.RegisterAddress]
      (some movSecondOperandCallback) with e | fs
  · simp only [hpd] at h
    exact Except.noConfusion h
  · obtain ⟨f, s⟩ := fs
    simp only [hpd] at h
    obtain ⟨h1, h2⟩ := parseDoubleOperands_ok_inv _ _ _ _ _ _ _ hpd
    have hf := parseSingleOperand_first_types _ _ _ h1
    have hs := parseSingleOperand_second_types _ _ _ h2
    rcases hf with hf | hf | hf
    · simp only [hf] at h
      rcases hs with hs | hs | hs | hs
      · simp only [hs] at h
        injection h with h
        injection h with ha hb
        injection hb with hb1 hb2
        subst ha
        subst hb1
        subst hb2
        exact Or.inl ⟨hf, hs, rfl⟩
      · simp only [hs] at h
        exact Except.noConfusion h
      · simp only [hs] at h
        injection h with h
        injection h with ha hb
        injection hb with hb1 hb2
        subst ha
        subst hb1
        subst hb2
        exact Or.inr (Or.inl ⟨hf, hs, rfl⟩)
      · simp only [hs] at h
        injection h with h
        injection h with ha hb
        injection hb with hb1 hb2
        subst ha
        subst hb1
        subst hb2
        exact Or.inr (Or.inr (Or.inl ⟨hf, hs, rfl⟩))
    · simp only [hf] at h
      by_cases hreg : s.type = OperandType.Register
      · rw [if_pos hreg] at h
        injection h with h
        injection h with ha hb
        injection hb with hb1 hb2
        subst ha
        subst hb1
        subst hb2
        exact Or.inr (Or.inr (Or.inr (Or.inl ⟨hf, hreg, rfl⟩)))
      · rw [if_neg hreg] at h
        exact Except.noConfusion h
    · simp only [hf] at h
      by_cases hreg : s.type = OperandType.Register
      · rw [if_pos hreg] at h
        injection h with h
        injection h with ha hb
        injection hb with hb1 hb2
        subst ha
        subst hb1
        subst hb2
        exact Or.inr (Or.inr (Or.inr (Or.inr ⟨hf, hreg, rfl⟩)))
      · rw [if_neg hreg] at h
        exact Except.noConfusion h

/-- Witness for C9's general conjunct: applying it to the concrete
parse `MOV AL, 2A` lands in the first table row. -/
theorem mov_opcode_table_witness :
    (opAL.type = OperandType.Register ∧ op2A.type = OperandType.Number ∧
      (some Opcode.MOV_NUM_TO_REG : Option Opcode) = some Opcode.MOV_NUM_TO_REG) ∨
    (opAL.type = OperandType.Register ∧ op2A.type = OperandType.Address ∧
      (some Opcode.MOV_NUM_TO_REG : Option Opcode) = some Opcode.MOV_ADDR_TO_REG) ∨
    (opAL.type = OperandType.Register ∧ op2A.type = OperandType.RegisterAddress ∧
      (some Opcode.MOV_NUM_TO_REG : Option Opcode) = some Opcode.MOV_REG_ADDR_TO_REG) ∨
    (opAL.type = OperandType.Address ∧ op2A.type = OperandType.Register ∧
      (some Opcode.MOV_NUM_TO_REG : Option Opcode) = some Opcode.MOV_REG_TO_ADDR) ∨
    (opAL.type = OperandType.RegisterAddress ∧ op2A.type = OperandType.Register ∧
      (some Opcode.MOV_NUM_TO_REG : Option Opcode) = some Opcode.MOV_REG_TO_REG_ADDR) :=
  mov_opcode_table.1 [tkAL, tkComma, tk2A] 0 (some Opcode.MOV_NUM_TO_REG) opAL op2A rfl

end AsmSim
